import Mathlib

/-!
# HipSTR: the stutter model and the length-based EM genotyper

A shallow embedding of `stutter_model.cpp` and `em_stutter_genotyper.cpp`.

Conventions of the embedding.

* `double` is the type of real numbers: there is no rounding, no infinity and no
  NaN.  The logarithm of a non-positive number is outside the embedding
  (`Real.log` is total, but its value there is not what the C library returns: `log 0`
  is minus infinity in C), so every statement whose conclusion the C value would change
  carries a positivity hypothesis.
* `int` is the type of integers; `/` and `%` are the truncating operations `Int.tdiv`
  and `Int.tmod`.  The functions of `stutter_model.cpp` receive two arbitrary `int`
  arguments, and the results of their `int` operations that can leave the 32-bit range
  are reduced to it by `wrap_int`.  The remaining `int` arithmetic (array offsets,
  counters, differences of the allele lengths of a genotyper state) is exact.
* An array (a `double*`, an `int*` or a `std::vector`) is a list.  Reading or
  writing a cell outside of it is undefined behaviour in C++ and has no result
  (`none`) here.  A failing `assert` has no result either.
-/

namespace HipSTR

/-! ## Generic helpers -/

/-- A counted loop `for (i = 0; i < n; ++i) body`, threading the state and stopping
at the first iteration that has no result. -/
def forRange {σ : Type} : Nat → (Nat → σ → Option σ) → σ → Option σ
  | 0, _, s => some s
  | n + 1, body, s => (forRange n body s).bind (body n)

/-- The assignment `buf[i] = v` through a pointer or a vector: no result outside
the array. -/
def write (buf : List ℝ) (i : Nat) (v : ℝ) : Option (List ℝ) :=
  if i < buf.length then some (buf.set i v) else none

/-- The call `std::fill(buf + start, buf + start + n, v)`. -/
def fill (buf : List ℝ) (start n : Nat) (v : ℝ) : Option (List ℝ) :=
  forRange n (fun i b => write b (start + i) v) buf

/-- The cells `buf[start], ..., buf[start + n - 1]` of a pointer range
`[buf + start, buf + start + n)`: no result when the range leaves the array. -/
def slice (buf : List ℝ) (start n : Nat) : Option (List ℝ) :=
  if start + n ≤ buf.length then some ((buf.drop start).take n) else none

/-- The value that a 32-bit `int` holds after an operation whose exact result is `x`:
the integer of `[-2^31, 2^31)` that is congruent to `x` modulo `2^32`.  An overflow of
a signed operation is undefined behaviour in C++; the embedding takes the result of
two's complement arithmetic, which is what the compiled program computes. -/
def wrap_int (x : ℤ) : ℤ := (x + 2147483648) % 4294967296 - 2147483648

/-- The constant `DBL_MIN` of `<cfloat>`: the smallest positive normalised double,
`2^(-1022)`. -/
noncomputable def DBL_MIN : ℝ := 1 / 2 ^ 1022

/-- The value `*std::max_element(begin, end)`: dereferencing the end iterator of an
empty range has no result. -/
noncomputable def max_element : List ℝ → Option ℝ
  | [] => none
  | x :: xs => some (xs.foldl max x)

/-- The function `EMStutterGenotyper::sum(std::vector<double>&)` (and its pointer-range
overload, on the cells of the range). -/
noncomputable def sum (vals : List ℝ) : ℝ :=
  vals.foldl (fun total x => total + x) 0

/-- The function `EMStutterGenotyper::log_sum_exp(std::vector<double>&)` (and its
pointer-range overload, on the cells of the range). -/
noncomputable def log_sum_exp (log_vals : List ℝ) : Option ℝ :=
  (max_element log_vals).bind fun max_val =>
    let total := log_vals.foldl (fun total x => total + Real.exp (x - max_val)) 0
    some (max_val + Real.log total)

/-- The function `EMStutterGenotyper::log_sum_exp(double, double)`. -/
noncomputable def log_sum_exp2 (log_v1 log_v2 : ℝ) : ℝ :=
  if log_v1 > log_v2 then
    log_v1 + Real.log (1 + Real.exp (log_v2 - log_v1))
  else
    log_v2 + Real.log (1 + Real.exp (log_v1 - log_v2))

/-- The function `EMStutterGenotyper::log_sum_exp(double, double, double)`. -/
noncomputable def log_sum_exp3 (log_v1 log_v2 log_v3 : ℝ) : ℝ :=
  let max_val := max (max log_v1 log_v2) log_v3
  max_val + Real.log (Real.exp (log_v1 - max_val) + Real.exp (log_v2 - max_val)
    + Real.exp (log_v3 - max_val))

/-- The call `v.push_back(x + log(abs(e)))` of lines 95 and 103.  For `e = 0` the C value
is `x + log(0)`, minus infinity: such an entry adds `exp(-inf - max) = 0` to the total
of `log_sum_exp` and is never the maximum of a vector that holds a finite entry (both
`diffs` vectors start with two), so the vector is left unchanged in that case. -/
noncomputable def push_back_scaled (v : List ℝ) (x : ℝ) (e : ℤ) : List ℝ :=
  if e = 0 then v else v ++ [x + Real.log ((|e| : ℤ) : ℝ)]

/-- The read `buf[i]` at an `int` index: no result for a negative index or one past the
array. -/
def read_at (buf : List ℝ) (i : ℤ) : Option ℝ :=
  if 0 ≤ i then buf[i.toNat]? else none

/-- Modelled from the spec: `log_geom_leq` is declared in `mathops.h`, which is not
among the sources; section 4.1 gives `log_geom_leq(p, k) = log(1 - p^k)`. -/
noncomputable def log_geom_leq (p : ℝ) (k : ℤ) : ℝ := Real.log (1 - p ^ k)

/-- Modelled from the spec: `log_geom_geq` is declared in `mathops.h`, which is not
among the sources; section 4.1 gives `log_geom_geq(p, k) = (k - 1) * log(p)`. -/
noncomputable def log_geom_geq (p : ℝ) (k : ℤ) : ℝ := ((k - 1 : ℤ) : ℝ) * Real.log p

/-! ## `stutter_model.cpp` -/

/-- The data members of `StutterModel` that the constructor receives, in the order of
the call `StutterModel(in_geom, in_up, in_down, out_geom, out_up, out_down, motif_len)`. -/
structure StutterModel where
  in_geom_ : ℝ
  in_up_ : ℝ
  in_down_ : ℝ
  out_geom_ : ℝ
  out_up_ : ℝ
  out_down_ : ℝ
  motif_len_ : ℤ

namespace StutterModel

/-- Modelled from the spec: the constructor in `stutter_model.h` that precomputes the
log constants is not among the sources; section 4.1 gives `log(in_pup)`. -/
noncomputable def in_log_up_ (m : StutterModel) : ℝ := Real.log m.in_up_

/-- Modelled from the spec: the constructor in `stutter_model.h` is not among the
sources; section 4.1 gives `log(in_pdown)`. -/
noncomputable def in_log_down_ (m : StutterModel) : ℝ := Real.log m.in_down_

/-- Modelled from the spec: the constructor in `stutter_model.h` is not among the
sources; section 4.1 gives `log(1 - in_pgeom)`. -/
noncomputable def in_log_nostep_ (m : StutterModel) : ℝ := Real.log (1 - m.in_geom_)

/-- Modelled from the spec: the constructor in `stutter_model.h` is not among the
sources; section 4.1 gives `log(in_pgeom)`. -/
noncomputable def in_log_step_ (m : StutterModel) : ℝ := Real.log m.in_geom_

/-- Modelled from the spec: the constructor in `stutter_model.h` is not among the
sources; section 4.1 gives `log(1 - in_pup - in_pdown)`. -/
noncomputable def log_equal_ (m : StutterModel) : ℝ := Real.log (1 - m.in_up_ - m.in_down_)

/-- Modelled from the spec: the constructor in `stutter_model.h` is not among the
sources; section 4.1 gives `log(out_pup)`. -/
noncomputable def out_log_up_ (m : StutterModel) : ℝ := Real.log m.out_up_

/-- Modelled from the spec: the constructor in `stutter_model.h` is not among the
sources; section 4.1 gives `log(out_pdown)`. -/
noncomputable def out_log_down_ (m : StutterModel) : ℝ := Real.log m.out_down_

/-- Modelled from the spec: the constructor in `stutter_model.h` is not among the
sources; section 4.1 gives `log(1 - out_pgeom)`. -/
noncomputable def out_log_nostep_ (m : StutterModel) : ℝ := Real.log (1 - m.out_geom_)

/-- Modelled from the spec: the constructor in `stutter_model.h` is not among the
sources; section 4.1 gives `log(out_pgeom)`. -/
noncomputable def out_log_step_ (m : StutterModel) : ℝ := Real.log m.out_geom_

/-- Lines 30 to 47 of `stutter_model.cpp`: the value that `log_stutter_pmf` assigns to
`log_pmf`, as a function of the value of `bp_diff`.  For a value of `bp_diff` in the
range of `int` and `1 <= motif_len_` the results of the `int` operations of these lines
stay in that range: `bp_diff/motif_len_` and `bp_diff - bp_diff/motif_len_` are not
larger than `bp_diff` in absolute value, and `-eff_diff - 1` and `-rep_diff - 1` are at
most `2^31 - 1` (for `rep_diff = -2^31` the intermediate `-rep_diff` wraps and the
subtraction of 1 wraps back to the exact `2^31 - 1`). -/
noncomputable def log_pmf_at (m : StutterModel) (bp_diff : ℤ) : ℝ :=
  if bp_diff.tmod m.motif_len_ ≠ 0 then
    let eff_diff := bp_diff - bp_diff.tdiv m.motif_len_
    if eff_diff < 0 then
      m.out_log_down_ + m.out_log_nostep_ + m.out_log_step_ * ((-eff_diff - 1 : ℤ) : ℝ)
    else
      m.out_log_up_ + m.out_log_nostep_ + m.out_log_step_ * ((eff_diff - 1 : ℤ) : ℝ)
  else
    let rep_diff := bp_diff.tdiv m.motif_len_
    if rep_diff = 0 then
      m.log_equal_
    else
      if rep_diff < 0 then
        m.in_log_down_ + m.in_log_nostep_ + m.in_log_step_ * ((-rep_diff - 1 : ℤ) : ℝ)
      else
        m.in_log_up_ + m.in_log_nostep_ + m.in_log_step_ * ((rep_diff - 1 : ℤ) : ℝ)

/-- The value `log_pmf` that `log_stutter_pmf` has computed when it reaches its
assertion (lines 28 to 47 of `stutter_model.cpp`): line 29 subtracts the two `int`
arguments, lines 30 to 47 work on the difference. -/
noncomputable def log_pmf (m : StutterModel) (sample_bps read_bps : ℤ) : ℝ :=
  let bp_diff := wrap_int (read_bps - sample_bps)
  m.log_pmf_at bp_diff

/-- The function `StutterModel::log_stutter_pmf`: the computed value, returned only
when `assert(log_pmf <= 0)` holds. -/
noncomputable def log_stutter_pmf (m : StutterModel) (sample_bps read_bps : ℤ) : Option ℝ :=
  if m.log_pmf sample_bps read_bps ≤ 0 then some (m.log_pmf sample_bps read_bps) else none

/-- The function `StutterModel::log_stutter_geq`.  The free function `log_sum_exp` it
calls on the vector `log_probs` is the one of `mathops.h`; it is taken to be the
`log_sum_exp(std::vector<double>&)` of `em_stutter_genotyper.cpp`.  The `int` results
that can leave the 32-bit range are the difference of line 58, the negation of line 63
and the sum of line 75. -/
noncomputable def log_stutter_geq (m : StutterModel) (sample_bps min_read_bps : ℤ) : Option ℝ :=
  let min_bp_diff := wrap_int (min_read_bps - sample_bps)
  let next_rep_diff :=
    if min_bp_diff < 0 ∨ min_bp_diff.tmod m.motif_len_ = 0 then min_bp_diff.tdiv m.motif_len_
    else 1 + min_bp_diff.tdiv m.motif_len_
  let log_probs : List ℝ :=
    if next_rep_diff < 0 then
      [m.in_log_down_ + log_geom_leq m.in_geom_ (wrap_int (-next_rep_diff)), m.log_equal_,
        m.in_log_up_]
    else if next_rep_diff = 0 then
      [m.log_equal_, m.in_log_up_]
    else
      [m.in_log_up_ + log_geom_geq m.in_geom_ next_rep_diff]
  let next_outframe_diff :=
    wrap_int (min_bp_diff + (if min_bp_diff.tmod m.motif_len_ = 0 then 1 else 0))
  let eff_diff := next_outframe_diff - next_outframe_diff.tdiv m.motif_len_
  let log_probs : List ℝ :=
    if eff_diff < 0 then
      log_probs ++ [m.out_log_down_ + log_geom_leq m.out_geom_ (-eff_diff), m.out_log_up_]
    else
      log_probs ++ [m.out_log_up_ + log_geom_geq m.out_geom_ eff_diff]
  log_sum_exp log_probs

/-- The piecewise definition of the log-pmf in the words of section 4.1 of the
specification, on `bp_diff = read_bp - sample_bp`.  Where the specification gives
no case (an out-of-frame `eff_diff = 0`) the value is `0`. -/
noncomputable def log_pmf_spec (m : StutterModel) (sample_bp read_bp : ℤ) : ℝ :=
  let bp_diff := read_bp - sample_bp
  let M := m.motif_len_
  if bp_diff.tmod M ≠ 0 then
    let eff_diff := bp_diff - bp_diff.tdiv M
    if eff_diff < 0 then
      Real.log m.out_down_ + Real.log (1 - m.out_geom_)
        + Real.log m.out_geom_ * ((-eff_diff - 1 : ℤ) : ℝ)
    else if 0 < eff_diff then
      Real.log m.out_up_ + Real.log (1 - m.out_geom_)
        + Real.log m.out_geom_ * ((eff_diff - 1 : ℤ) : ℝ)
    else 0
  else
    let rep_diff := bp_diff.tdiv M
    if rep_diff = 0 then
      Real.log (1 - m.in_up_ - m.in_down_)
    else if rep_diff < 0 then
      Real.log m.in_down_ + Real.log (1 - m.in_geom_)
        + Real.log m.in_geom_ * ((-rep_diff - 1 : ℤ) : ℝ)
    else
      Real.log m.in_up_ + Real.log (1 - m.in_geom_)
        + Real.log m.in_geom_ * ((rep_diff - 1 : ℤ) : ℝ)

/-- The invariants of a stutter model in section 3 of the specification. -/
structure Valid (m : StutterModel) : Prop where
  in_geom_pos : 0 < m.in_geom_
  in_geom_le : m.in_geom_ ≤ 1
  out_geom_pos : 0 < m.out_geom_
  out_geom_le : m.out_geom_ ≤ 1
  in_up_nonneg : 0 ≤ m.in_up_
  in_up_lt : m.in_up_ < 1
  in_down_nonneg : 0 ≤ m.in_down_
  in_down_lt : m.in_down_ < 1
  out_up_nonneg : 0 ≤ m.out_up_
  out_up_lt : m.out_up_ < 1
  out_down_nonneg : 0 ≤ m.out_down_
  out_down_lt : m.out_down_ < 1
  in_sum_lt : m.in_up_ + m.in_down_ < 1
  out_sum_le : m.out_up_ + m.out_down_ ≤ 1

/-- A valid model none of whose logarithms is taken at zero: the four directional
probabilities are positive and the two geometric parameters are below one. -/
structure Positive (m : StutterModel) : Prop where
  in_up_pos : 0 < m.in_up_
  in_down_pos : 0 < m.in_down_
  out_up_pos : 0 < m.out_up_
  out_down_pos : 0 < m.out_down_
  in_geom_lt : m.in_geom_ < 1
  out_geom_lt : m.out_geom_ < 1

end StutterModel

/-! ## `em_stutter_genotyper.cpp` -/

/-- The data members of `EMStutterGenotyper` (declared in `em_stutter_genotyper.h` and
`genotyper.h`) that the functions below read or write.  The three tensors are flat
arrays: `log_sample_posteriors_` iterates through allele 1, allele 2 and then
samples, `log_read_phase_posteriors_` through allele 1, allele 2, reads and then the
two phases.  Index arrays hold natural numbers. -/
structure EMStutterGenotyper where
  num_reads_ : Nat
  num_samples_ : Nat
  num_alleles_ : Nat
  motif_len_ : ℤ
  bps_per_allele_ : List ℤ
  allele_index_ : List Nat
  sample_label_ : List Nat
  reads_per_sample_ : List Nat
  log_p1_ : List ℝ
  log_p2_ : List ℝ
  log_gt_priors_ : List ℝ
  log_sample_posteriors_ : List ℝ
  log_read_phase_posteriors_ : List ℝ
  stutter_model_ : Option StutterModel

namespace EMStutterGenotyper

/-- Modelled from the spec: the constructor of `EMStutterGenotyper` is in
`em_stutter_genotyper.h`, which is not among the sources.  Sections 3 and 6 give what
it establishes: the sizes of the arrays, indices in range, a positive motif length,
at least one allele, and `reads_per_sample_[s]` the number of reads labelled `s`. -/
structure WellFormed (g : EMStutterGenotyper) : Prop where
  alleles_pos : 1 ≤ g.num_alleles_
  motif_pos : 1 ≤ g.motif_len_
  bps_length : g.bps_per_allele_.length = g.num_alleles_
  allele_index_length : g.allele_index_.length = g.num_reads_
  sample_label_length : g.sample_label_.length = g.num_reads_
  reads_per_sample_length : g.reads_per_sample_.length = g.num_samples_
  log_p1_length : g.log_p1_.length = g.num_reads_
  log_p2_length : g.log_p2_.length = g.num_reads_
  priors_length : g.log_gt_priors_.length = g.num_alleles_
  posteriors_length :
    g.log_sample_posteriors_.length = g.num_alleles_ * g.num_alleles_ * g.num_samples_
  phase_length :
    g.log_read_phase_posteriors_.length = 2 * g.num_reads_ * (g.num_alleles_ * g.num_alleles_)
  allele_index_lt : ∀ a ∈ g.allele_index_, a < g.num_alleles_
  sample_label_lt : ∀ s ∈ g.sample_label_, s < g.num_samples_
  reads_per_sample_eq : ∀ s, s < g.num_samples_ →
    g.reads_per_sample_[s]? = some (g.sample_label_.count s)

/-- One iteration of the loop over reads in `init_log_gt_priors` (line 52). -/
noncomputable def init_log_gt_priors_step (g : EMStutterGenotyper) (i : Nat)
    (priors : List ℝ) : Option (List ℝ) := do
  let a ← g.allele_index_[i]?
  let s ← g.sample_label_[i]?
  let c ← g.reads_per_sample_[s]?
  let old ← priors[a]?
  write priors a (old + 1.0 / (c : ℝ))

/-- The function `EMStutterGenotyper::init_log_gt_priors`. -/
noncomputable def init_log_gt_priors (g : EMStutterGenotyper) : Option EMStutterGenotyper := do
  let priors ← fill g.log_gt_priors_ 0 g.num_alleles_ 1
  let priors ← forRange g.num_reads_ g.init_log_gt_priors_step priors
  let cells ← slice priors 0 g.num_alleles_
  let log_total := Real.log (sum cells)
  let priors ← forRange g.num_alleles_
    (fun i pr => do
      let x ← pr[i]?
      write pr i (Real.log x - log_total)) priors
  some { g with log_gt_priors_ := priors }

/-- The function `EMStutterGenotyper::recalc_log_gt_priors`.  On line 61 the two
arguments `log_sample_posteriors_[i*num_alleles_]` and
`log_sample_posteriors_[(i+1)*num_alleles_]` are array cells, so the call is to the
overload `log_sum_exp(double, double)`. -/
noncomputable def recalc_log_gt_priors (g : EMStutterGenotyper) : Option EMStutterGenotyper := do
  let priors ← fill g.log_gt_priors_ 0 g.num_alleles_ 0
  let priors ← forRange g.num_alleles_
    (fun i pr => do
      let v1 ← g.log_sample_posteriors_[i * g.num_alleles_]?
      let v2 ← g.log_sample_posteriors_[(i + 1) * g.num_alleles_]?
      write pr i (log_sum_exp2 v1 v2)) priors
  let cells ← slice priors 0 g.num_alleles_
  let log_total ← log_sum_exp cells
  let priors ← forRange g.num_alleles_
    (fun i pr => do
      let x ← pr[i]?
      write pr i (x - log_total)) priors
  some { g with log_gt_priors_ := priors }

/-- The function `EMStutterGenotyper::init_stutter_model`. -/
noncomputable def init_stutter_model (g : EMStutterGenotyper) : EMStutterGenotyper :=
  { g with stutter_model_ := some ⟨0.9, 0.1, 0.1, 0.8, 0.01, 0.01, g.motif_len_⟩ }

/-- The summand of lines 148 and 149, also the pair of lines 188 to 190: the two
phase log-likelihoods of a read under the genotype with allele lengths `len_1` and
`len_2`. -/
noncomputable def read_phase_LLs (g : EMStutterGenotyper) (sm : StutterModel) (len_1 len_2 : ℤ)
    (read_index : Nat) : Option (ℝ × ℝ) := do
  let p1 ← g.log_p1_[read_index]?
  let a ← g.allele_index_[read_index]?
  let read_bps ← g.bps_per_allele_[a]?
  let pmf1 ← sm.log_stutter_pmf len_1 read_bps
  let p2 ← g.log_p2_[read_index]?
  let pmf2 ← sm.log_stutter_pmf len_2 read_bps
  some (p1 + pmf1, p2 + pmf2)

/-- The first pair of loops of `recalc_log_sample_posteriors` (lines 140 to 156): it
fills the tensor with the un-normalised log-likelihoods and records the running
maxima.  The state is the tensor, `sample_max_LLs` and the offset of `LL_ptr`. -/
noncomputable def accumulate_LLs (g : EMStutterGenotyper) (sm : StutterModel) :
    Option (List ℝ × List ℝ × Nat) :=
  forRange g.num_alleles_
    (fun index_1 st => do
      let len_1 ← g.bps_per_allele_[index_1]?
      forRange g.num_alleles_
        (fun index_2 st => do
          let len_2 ← g.bps_per_allele_[index_2]?
          let prior_1 ← g.log_gt_priors_[index_1]?
          let prior_2 ← g.log_gt_priors_[index_2]?
          let LL_ptr := st.2.2
          let buf ← fill st.1 LL_ptr g.num_samples_ (prior_1 + prior_2)
          let buf ← forRange g.num_reads_
            (fun read_index buf => do
              let s ← g.sample_label_[read_index]?
              let old ← buf[LL_ptr + s]?
              let lls ← g.read_phase_LLs sm len_1 len_2 read_index
              write buf (LL_ptr + s) (old + log_sum_exp2 lls.1 lls.2)) buf
          let maxs ← forRange g.num_samples_
            (fun sample_index maxs => do
              let cur ← maxs[sample_index]?
              let v ← buf[LL_ptr + sample_index]?
              write maxs sample_index (max cur v)) st.2.1
          some (buf, maxs, LL_ptr + g.num_samples_)) st)
    (g.log_sample_posteriors_, List.replicate g.num_samples_ DBL_MIN, 0)

/-- The loops of lines 161 to 166 of `recalc_log_sample_posteriors`, on the vector
`sample_total_LLs` as it is when they start; `LL_ptr` has been reset to the start of
the tensor.  The result is the vector and the offset of `LL_ptr`. -/
noncomputable def accumulate_totals (g : EMStutterGenotyper) (buf sample_max_LLs : List ℝ)
    (sample_total_LLs : List ℝ) : Option (List ℝ × Nat) := do
  let st ← forRange g.num_alleles_
    (fun _ st => forRange g.num_alleles_
      (fun _ st => forRange g.num_samples_
        (fun sample_index st => do
          let t ← st.1[sample_index]?
          let v ← buf[st.2]?
          let mx ← sample_max_LLs[sample_index]?
          let totals ← write st.1 sample_index (t + Real.exp (v - mx))
          some (totals, st.2 + 1)) st) st)
    (sample_total_LLs, 0)
  let totals ← forRange g.num_samples_
    (fun sample_index totals => do
      let mx ← sample_max_LLs[sample_index]?
      let t ← totals[sample_index]?
      write totals sample_index (mx + Real.log t)) st.1
  some (totals, st.2)

/-- The loops of lines 172 to 175 of `recalc_log_sample_posteriors`, from the offset
`LL_ptr` at which they find the pointer. -/
noncomputable def normalize_LLs (g : EMStutterGenotyper) (buf sample_total_LLs : List ℝ)
    (LL_ptr : Nat) : Option (List ℝ × Nat) :=
  forRange g.num_alleles_
    (fun _ st => forRange g.num_alleles_
      (fun _ st => forRange g.num_samples_
        (fun sample_index st => do
          let v ← st.1[st.2]?
          let t ← sample_total_LLs[sample_index]?
          let buf ← write st.1 st.2 (v - t)
          some (buf, st.2 + 1)) st) st)
    (buf, LL_ptr)

/-- The function `EMStutterGenotyper::recalc_log_sample_posteriors`: the new state and
the returned total log-likelihood.  The vector `sample_total_LLs` is declared without
a size on line 159, and `LL_ptr` is reset on line 160 only. -/
noncomputable def recalc_log_sample_posteriors (g : EMStutterGenotyper) :
    Option (EMStutterGenotyper × ℝ) := do
  let sm ← g.stutter_model_
  let (buf, sample_max_LLs, _) ← g.accumulate_LLs sm
  let (sample_total_LLs, LL_ptr) ← g.accumulate_totals buf sample_max_LLs []
  let total_LL := sum sample_total_LLs
  let (buf, _) ← g.normalize_LLs buf sample_total_LLs LL_ptr
  some ({ g with log_sample_posteriors_ := buf }, total_LL)

/-- One iteration of the loop over reads in `recalc_log_read_phase_posteriors` (lines
188 to 193).  The state is the tensor and the offset of `log_phase_ptr`. -/
noncomputable def read_phase_step (g : EMStutterGenotyper) (sm : StutterModel) (len_1 len_2 : ℤ)
    (read_index : Nat) (st : List ℝ × Nat) : Option (List ℝ × Nat) := do
  let lls ← g.read_phase_LLs sm len_1 len_2 read_index
  let log_phase_one := lls.1
  let log_phase_two := lls.2
  let log_phase_total := log_sum_exp2 log_phase_one log_phase_two
  let buf ← write st.1 st.2 (log_phase_one - log_phase_total)
  let buf ← write buf (st.2 + 1) (log_phase_two - log_phase_total)
  some (buf, st.2 + 2)

/-- The function `EMStutterGenotyper::recalc_log_read_phase_posteriors`. -/
noncomputable def recalc_log_read_phase_posteriors (g : EMStutterGenotyper) :
    Option EMStutterGenotyper := do
  let sm ← g.stutter_model_
  let st ← forRange g.num_alleles_
    (fun index_1 st => do
      let len_1 ← g.bps_per_allele_[index_1]?
      forRange g.num_alleles_
        (fun index_2 st => do
          let len_2 ← g.bps_per_allele_[index_2]?
          forRange g.num_reads_ (g.read_phase_step sm len_1 len_2) st) st)
    (g.log_read_phase_posteriors_, 0)
  some { g with log_read_phase_posteriors_ := st.1 }

/-- The seven vectors of log-weights that `recalc_stutter_model` fills (lines 73 and
74). -/
structure StutterCounts where
  in_log_up : List ℝ
  in_log_down : List ℝ
  in_log_eq : List ℝ
  in_log_diffs : List ℝ
  out_log_up : List ℝ
  out_log_down : List ℝ
  out_log_diffs : List ℝ

/-- The variables that the loops of `recalc_stutter_model` update: the seven vectors and
the offsets of `log_posterior_ptr` and `log_phase_ptr`. -/
structure StutterLoopState where
  counts : StutterCounts
  log_posterior_ptr : Nat
  log_phase_ptr : Nat

/-- One iteration of the loop over `phase` in `recalc_stutter_model` (lines 87 to 109,
with the increment `++log_phase_ptr` of line 86). -/
noncomputable def stutter_phase_step (g : EMStutterGenotyper) (index_1 index_2 read_index : Nat)
    (log_gt_posterior : ℝ) (phase : Nat) (st : StutterLoopState) : Option StutterLoopState := do
  let gt_index := if phase = 0 then index_1 else index_2
  let a ← g.allele_index_[read_index]?
  let read_bps ← g.bps_per_allele_[a]?
  let gt_bps ← g.bps_per_allele_[gt_index]?
  let bp_diff := read_bps - gt_bps
  let log_phase ← g.log_read_phase_posteriors_[st.log_phase_ptr]?
  let c := st.counts
  let c : StutterCounts :=
    if a = gt_index then
      { c with in_log_eq := c.in_log_eq ++ [log_gt_posterior + log_phase] }
    else
      if bp_diff.tmod g.motif_len_ ≠ 0 then
        let eff_diff := bp_diff - bp_diff.tdiv g.motif_len_
        let c := { c with out_log_diffs :=
          push_back_scaled c.out_log_diffs (log_gt_posterior + log_phase) eff_diff }
        if bp_diff > 0 then
          { c with out_log_up := c.out_log_up ++ [log_gt_posterior + log_phase] }
        else
          { c with out_log_down := c.out_log_down ++ [log_gt_posterior + log_phase] }
      else
        let eff_diff := bp_diff.tdiv g.motif_len_
        let c := { c with in_log_diffs :=
          push_back_scaled c.in_log_diffs (log_gt_posterior + log_phase) eff_diff }
        if bp_diff > 0 then
          { c with in_log_up := c.in_log_up ++ [log_gt_posterior + log_phase] }
        else
          { c with in_log_down := c.in_log_down ++ [log_gt_posterior + log_phase] }
  some { st with counts := c, log_phase_ptr := st.log_phase_ptr + 1 }

/-- One iteration of the loop over reads in `recalc_stutter_model` (lines 85 to 110). -/
noncomputable def stutter_read_step (g : EMStutterGenotyper) (index_1 index_2 read_index : Nat)
    (st : StutterLoopState) : Option StutterLoopState := do
  let s ← g.sample_label_[read_index]?
  let log_gt_posterior ← g.log_sample_posteriors_[st.log_posterior_ptr + s]?
  forRange 2 (g.stutter_phase_step index_1 index_2 read_index log_gt_posterior) st

/-- The loops of `recalc_stutter_model` (lines 77 to 114), from the pseudocounts. -/
noncomputable def stutter_counts (g : EMStutterGenotyper) : Option StutterLoopState :=
  forRange g.num_alleles_
    (fun index_1 st => forRange g.num_alleles_
      (fun index_2 st => do
        let st ← forRange g.num_reads_ (g.stutter_read_step index_1 index_2) st
        some { st with log_posterior_ptr := st.log_posterior_ptr + g.num_samples_ }) st)
    { counts :=
        { in_log_up := [0.0], in_log_down := [0.0], in_log_eq := [],
          in_log_diffs := [0.0, Real.log 2], out_log_up := [0.0], out_log_down := [0.0],
          out_log_diffs := [0.0, Real.log 2] },
      log_posterior_ptr := 0, log_phase_ptr := 0 }

/-- The model that `recalc_stutter_model` builds from the seven vectors (lines 116 to
133). -/
noncomputable def stutter_estimate (c : StutterCounts) (motif_len : ℤ) : Option StutterModel := do
  let in_log_total_up ← log_sum_exp c.in_log_up
  let in_log_total_down ← log_sum_exp c.in_log_down
  let in_log_total_eq ← log_sum_exp c.in_log_eq
  let in_log_total_diffs ← log_sum_exp c.in_log_diffs
  let in_log_total := log_sum_exp3 in_log_total_up in_log_total_down in_log_total_eq
  let in_pgeom_hat :=
    Real.exp (log_sum_exp2 in_log_total_up in_log_total_down - in_log_total_diffs)
  let in_pup_hat := Real.exp (in_log_total_up - in_log_total)
  let in_pdown_hat := Real.exp (in_log_total_down - in_log_total)
  let out_log_total_up ← log_sum_exp c.out_log_up
  let out_log_total_down ← log_sum_exp c.out_log_down
  let out_log_total_diffs ← log_sum_exp c.out_log_diffs
  let out_log_total := log_sum_exp2 out_log_total_up out_log_total_down
  let out_pgeom_hat := Real.exp (out_log_total - out_log_total_diffs)
  let out_pup_hat := Real.exp (out_log_total_up - out_log_total)
  let out_pdown_hat := Real.exp (out_log_total_down - out_log_total)
  some ⟨in_pgeom_hat, in_pup_hat, in_pdown_hat, out_pgeom_hat, out_pup_hat, out_pdown_hat,
    motif_len⟩

/-- The function `EMStutterGenotyper::recalc_stutter_model`. -/
noncomputable def recalc_stutter_model (g : EMStutterGenotyper) : Option EMStutterGenotyper := do
  let st ← g.stutter_counts
  let sm ← stutter_estimate st.counts g.motif_len_
  some { g with stutter_model_ := some sm }

/-- The convergence test of `train` (lines 218 to 220). -/
def converged (LL new_LL min_LL_abs_change min_LL_frac_change : ℝ) : Prop :=
  new_LL - LL < min_LL_abs_change ∧ -(new_LL - LL) / LL < min_LL_frac_change

/-- The `while` loop of `train` (lines 208 to 227); the first argument is the number
`max_iter - num_iter + 1` of iterations that the loop condition still allows.  The
result is the final state and the returned flag. -/
noncomputable def train_loop (min_LL_abs_change min_LL_frac_change : ℝ) :
    Nat → EMStutterGenotyper → ℝ → Option (EMStutterGenotyper × Bool)
  | 0, g, _ => some (g, false)
  | n + 1, g, LL =>
    g.recalc_log_sample_posteriors.bind fun r =>
    r.1.recalc_log_read_phase_posteriors.bind fun g1 =>
    g1.recalc_log_gt_priors.bind fun g2 =>
    g2.recalc_stutter_model.bind fun g3 =>
    open Classical in
    if converged LL r.2 min_LL_abs_change min_LL_frac_change then some (g3, true)
    else train_loop min_LL_abs_change min_LL_frac_change n g3 r.2

/-- The function `EMStutterGenotyper::train`: the final state and the returned flag
(`true` is Converged).  The trace written to `std::cerr` is left out. -/
noncomputable def train (g : EMStutterGenotyper) (max_iter : ℤ)
    (min_LL_abs_change min_LL_frac_change : ℝ) : Option (EMStutterGenotyper × Bool) :=
  g.init_log_gt_priors.bind fun g1 =>
    train_loop min_LL_abs_change min_LL_frac_change max_iter.toNat g1.init_stutter_model DBL_MIN

end EMStutterGenotyper

/-- The function `StutterModel::get_parameter` (lines 9 to 21 of `stutter_model.cpp`).
The default case of the `switch` calls `printErrorAndDie`, which ends the program: no
result. -/
def StutterModel.get_parameter (m : StutterModel) (in_frame : Bool) (parameter : Char) :
    Option ℝ :=
  if parameter = 'U' then some (if in_frame then m.in_up_ else m.out_up_)
  else if parameter = 'D' then some (if in_frame then m.in_down_ else m.out_down_)
  else if parameter = 'P' then some (if in_frame then m.in_geom_ else m.out_geom_)
  else none

namespace EMStutterGenotyper

/-- One iteration of the innermost loop of lines 250 to 255 of `write_vcf_record`.  The
state is `gts`, `log_phased_posteriors` and the offset of `log_post_ptr`. -/
noncomputable def map_genotype_step (g : EMStutterGenotyper) (index_1 index_2 sample_index : Nat)
    (st : List (ℤ × ℤ) × List ℝ × Nat) : Option (List (ℤ × ℤ) × List ℝ × Nat) := do
  let v ← g.log_sample_posteriors_[st.2.2]?
  let cur ← st.2.1[sample_index]?
  if v > cur then
    let log_phased_posteriors ← write st.2.1 sample_index v
    let gts ← (if sample_index < st.1.length then
      some (st.1.set sample_index ((index_1 : ℤ), (index_2 : ℤ))) else none)
    some (gts, log_phased_posteriors, st.2.2 + 1)
  else
    some (st.1, st.2.1, st.2.2 + 1)

/-- Lines 239 to 256 of `write_vcf_record`: the vectors `gts` and
`log_phased_posteriors` after the loops over the tensor of genotype posteriors. -/
noncomputable def map_genotypes (g : EMStutterGenotyper) : Option (List (ℤ × ℤ) × List ℝ) :=
  (forRange g.num_alleles_
    (fun index_1 st => forRange g.num_alleles_
      (fun index_2 st => forRange g.num_samples_ (g.map_genotype_step index_1 index_2) st) st)
    (List.replicate g.num_samples_ ((-1 : ℤ), (-1 : ℤ)),
      List.replicate g.num_samples_ DBL_MIN, 0)).bind fun st =>
  some (st.1, st.2.1)

/-- Lines 258 to 272 of `write_vcf_record`: the vectors `log_unphased_posteriors` and
`phase_probs`. -/
noncomputable def phase_probabilities (g : EMStutterGenotyper) (gts : List (ℤ × ℤ))
    (log_phased_posteriors : List ℝ) : Option (List ℝ × List ℝ) :=
  forRange g.num_samples_
    (fun sample_index st => do
      let gt ← gts[sample_index]?
      let log_p ← log_phased_posteriors[sample_index]?
      if gt.1 = gt.2 then
        some (st.1 ++ [log_p], st.2 ++ [1.0])
      else
        let log_p1 := log_p
        let log_p2 ← read_at g.log_sample_posteriors_
          (gt.1 * g.num_alleles_ * g.num_samples_ + gt.2 * g.num_samples_ + sample_index)
        let log_tot := log_sum_exp2 log_p1 log_p2
        some (st.1 ++ [log_tot], st.2 ++ [Real.exp (log_p1 - log_tot)]))
    ([], [])

/-- Lines 274 to 279 of `write_vcf_record`: the vector `log_read_phases`, which line 241
declares without a size. -/
noncomputable def read_phases (g : EMStutterGenotyper) (gts : List (ℤ × ℤ)) :
    Option (List (List ℝ)) :=
  forRange g.num_reads_
    (fun read_index log_read_phases => do
      let s ← g.sample_label_[read_index]?
      let gt ← gts[s]?
      let row ← log_read_phases[s]?
      let v ← read_at g.log_read_phase_posteriors_
        (2 * g.num_reads_ * (gt.1 * g.num_alleles_ + gt.2) + 2 * read_index)
      some (log_read_phases.set s (row ++ [v])))
    []

/-- Lines 304 to 312 of `write_vcf_record`: the column of a sample of the index.  The
parameter `fmt` is the text that `operator<<` writes for a `double`. -/
noncomputable def sample_column (g : EMStutterGenotyper) (fmt : ℝ → String)
    (gts : List (ℤ × ℤ)) (log_phased_posteriors : List ℝ) (log_read_phases : List (List ℝ))
    (sample_index : Nat) : Option String := do
  let total_reads ← g.reads_per_sample_[sample_index]?
  let row ← log_read_phases[sample_index]?
  let l ← log_sum_exp row
  let phase1_reads := Real.exp l
  let phase2_reads := (total_reads : ℝ) - phase1_reads
  let gt ← gts[sample_index]?
  let log_p ← log_phased_posteriors[sample_index]?
  some (toString gt.1 ++ "|" ++ toString gt.2
    ++ ":" ++ fmt (Real.exp log_p)
    ++ ":" ++ toString total_reads
    ++ ":" ++ fmt phase1_reads ++ "|" ++ fmt phase2_reads)

/-- The function `EMStutterGenotyper::write_vcf_record`: the text written to `out`.  The
member `sample_indices_` (declared in `em_stutter_genotyper.h`, which is not among the
sources) is the parameter `sample_indices_`, and `fmt` is the text that `operator<<`
writes for a `double`. -/
noncomputable def write_vcf_record (g : EMStutterGenotyper) (sample_indices_ : String → Option Nat)
    (fmt : ℝ → String) (chrom : String) (pos : Nat) (sample_names : List String) :
    Option String := do
  let (gts, log_phased_posteriors) ← g.map_genotypes
  let _ ← g.phase_probabilities gts log_phased_posteriors
  let log_read_phases ← g.read_phases gts
  let out := chrom ++ "\t" ++ toString pos ++ "\t" ++ "."
  let sm ← g.stutter_model_
  let in_p ← sm.get_parameter true 'P'
  let in_u ← sm.get_parameter true 'U'
  let in_d ← sm.get_parameter true 'D'
  let out_p ← sm.get_parameter false 'P'
  let out_u ← sm.get_parameter false 'U'
  let out_d ← sm.get_parameter false 'D'
  let out := out ++ "\tINFRAME_PGEOM=" ++ fmt in_p ++ ";"
    ++ "INFRAME_UP=" ++ fmt in_u ++ ";"
    ++ "INFRAME_DOWN=" ++ fmt in_d ++ ";"
    ++ "OUTFRAME_PGEOM=" ++ fmt out_p ++ ";"
    ++ "OUTFRAME_UP=" ++ fmt out_u ++ ";"
    ++ "OUTFRAME_DOWN=" ++ fmt out_d ++ ";"
  let out := out ++ "\tGT:POSTERIOR:TOTALREADS:CHROMREADS:PHASEDREADS"
  forRange sample_names.length
    (fun i out => do
      let name ← sample_names[i]?
      let out := out ++ "\t"
      match sample_indices_ name with
      | none => some (out ++ ".")
      | some sample_index =>
        let column ← g.sample_column fmt gts log_phased_posteriors log_read_phases sample_index
        some (out ++ column))
    out

end EMStutterGenotyper

/-! ## Quantities of section 4.3 of the specification -/

namespace EMStutterGenotyper

/-- The quantity `u = logp1[r] + log_pmf(L_a, L_{allele_idx[r]})` of section 4.3, for the
stutter model `sm`; `L_x` is `bps_per_allele_[x]`. -/
noncomputable def phase_one_spec (g : EMStutterGenotyper) (sm : StutterModel) (a r : ℕ) : ℝ :=
  g.log_p1_.getD r 0
    + sm.log_pmf (g.bps_per_allele_.getD a 0)
        (g.bps_per_allele_.getD (g.allele_index_.getD r 0) 0)

/-- The quantity `v = logp2[r] + log_pmf(L_b, L_{allele_idx[r]})` of section 4.3, for the
stutter model `sm`. -/
noncomputable def phase_two_spec (g : EMStutterGenotyper) (sm : StutterModel) (b r : ℕ) : ℝ :=
  g.log_p2_.getD r 0
    + sm.log_pmf (g.bps_per_allele_.getD b 0)
        (g.bps_per_allele_.getD (g.allele_index_.getD r 0) 0)

/-- The two read phase posteriors of section 4.3 for genotype `(a, b)` and read `r`:
`[u - z, v - z]` with `z = logsumexp(u, v) = log(exp u + exp v)`. -/
noncomputable def phase_posteriors_spec (g : EMStutterGenotyper) (sm : StutterModel)
    (a b r : ℕ) : List ℝ :=
  [g.phase_one_spec sm a r
      - Real.log (Real.exp (g.phase_one_spec sm a r) + Real.exp (g.phase_two_spec sm b r)),
    g.phase_two_spec sm b r
      - Real.log (Real.exp (g.phase_one_spec sm a r) + Real.exp (g.phase_two_spec sm b r))]

/-- The weight `1 / reads_per_sample[sample_label[r]]` that read `r` adds to the prior
of its allele in section 4.2. -/
noncomputable def read_weight_spec (g : EMStutterGenotyper) (r : ℕ) : ℝ :=
  1 / ((g.reads_per_sample_.getD (g.sample_label_.getD r 0) 0 : ℕ) : ℝ)

/-- The un-normalised prior of allele `a` in section 4.2: the pseudocount 1 plus the
weights of the first `k` reads whose allele index is `a`. -/
noncomputable def prior_weight_spec (g : EMStutterGenotyper) (k a : ℕ) : ℝ :=
  1 + ∑ r ∈ (Finset.range k).filter (fun r => g.allele_index_.getD r 0 = a), g.read_weight_spec r

/-- The marginal `logsumexp_{b,s} P[a][b][s]` of section 4.4, with
`logsumexp(x_1, ..) = log(exp x_1 + ..)` and `P[a][b][s]` the cell `(a*A + b)*S + s` of
`log_sample_posteriors_`. -/
noncomputable def prior_marginal_spec (g : EMStutterGenotyper) (a : ℕ) : ℝ :=
  Real.log (∑ b ∈ Finset.range g.num_alleles_, ∑ s ∈ Finset.range g.num_samples_,
    Real.exp (g.log_sample_posteriors_.getD ((a * g.num_alleles_ + b) * g.num_samples_ + s) 0))

/-- The re-estimated prior of section 4.4: the marginal of `a` minus the
`logsumexp` over all alleles of the marginals. -/
noncomputable def recalc_prior_spec (g : EMStutterGenotyper) (a : ℕ) : ℝ :=
  g.prior_marginal_spec a
    - Real.log (∑ a' ∈ Finset.range g.num_alleles_, Real.exp (g.prior_marginal_spec a'))

/-- The total log-likelihood of section 4.3: the sum over the samples `s` of
`Z[s] = logsumexp_{a,b}` of `pi[a] + pi[b] + sum over the reads r of s of logsumexp(u, v)`. -/
noncomputable def total_LL_spec (g : EMStutterGenotyper) (sm : StutterModel) : ℝ :=
  ∑ s ∈ Finset.range g.num_samples_,
    Real.log (∑ a ∈ Finset.range g.num_alleles_, ∑ b ∈ Finset.range g.num_alleles_,
      Real.exp (g.log_gt_priors_.getD a 0 + g.log_gt_priors_.getD b 0
        + ∑ r ∈ (Finset.range g.num_reads_).filter (fun r => g.sample_label_.getD r 0 = s),
            Real.log (Real.exp (g.phase_one_spec sm a r) + Real.exp (g.phase_two_spec sm b r))))

end EMStutterGenotyper

/-! ## Quantities of section 4.4 of the specification -/

/-- The buckets of section 4.4 into which the stutter re-estimation sorts the
posterior weights. -/
inductive Bucket where
  | in_up
  | in_down
  | in_eq
  | in_diffs
  | out_up
  | out_down
  | out_diffs
  deriving DecidableEq

/-- The pseudo-observations of section 4.4: one in each `up` and `down` bucket, two that
sum to 3 in each `diffs` bucket, none in the `eq` bucket. -/
def pseudo_count_spec : Bucket → ℝ
  | .in_eq => 0
  | .in_diffs => 3
  | .out_diffs => 3
  | _ => 1

/-- The sum of the exponentials of the entries of a vector of log-weights. -/
noncomputable def exp_total (l : List ℝ) : ℝ := (l.map Real.exp).sum

namespace EMStutterGenotyper

/-- The exponential totals of the seven vectors of `recalc_stutter_model`, by bucket. -/
noncomputable def StutterCounts.mass (c : StutterCounts) : Bucket → ℝ
  | .in_up => exp_total c.in_log_up
  | .in_down => exp_total c.in_log_down
  | .in_eq => exp_total c.in_log_eq
  | .in_diffs => exp_total c.in_log_diffs
  | .out_up => exp_total c.out_log_up
  | .out_down => exp_total c.out_log_down
  | .out_diffs => exp_total c.out_log_diffs

/-- The weight `exp(P[a][b][sample_label[r]] + Q[a][b][r][phase])` of section 4.4. -/
noncomputable def weight_spec (g : EMStutterGenotyper) (a b r phase : ℕ) : ℝ :=
  Real.exp
    (g.log_sample_posteriors_.getD
        ((a * g.num_alleles_ + b) * g.num_samples_ + g.sample_label_.getD r 0) 0
      + g.log_read_phase_posteriors_.getD
        (2 * g.num_reads_ * (a * g.num_alleles_ + b) + 2 * r + phase) 0)

/-- The difference `bp_diff = L_{allele_idx[r]} - L_g` of section 4.4, with
`g = (phase = 0 ? a : b)`. -/
def bp_diff_spec (g : EMStutterGenotyper) (a b r phase : ℕ) : ℤ :=
  g.bps_per_allele_.getD (g.allele_index_.getD r 0) 0
    - g.bps_per_allele_.getD (if phase = 0 then a else b) 0

/-- What the iteration `(a, b, r, phase)` of section 4.4 contributes to bucket `k`: the
weight goes to `eq` when `allele_idx[r] = g`, else to the out-of-frame `up` or `down`
bucket when `bp_diff % M != 0`, else to the in-frame `up` or `down` bucket (`up` when
`bp_diff > 0`); the `diffs` buckets receive the weight times `|bp_diff - bp_diff/M|`
(out-of-frame) or `|bp_diff/M|` (in-frame). -/
noncomputable def contribution_spec (g : EMStutterGenotyper) (a b r phase : ℕ) (k : Bucket) :
    ℝ :=
  if g.allele_index_.getD r 0 = (if phase = 0 then a else b) then
    (if k = Bucket.in_eq then g.weight_spec a b r phase else 0)
  else if (g.bp_diff_spec a b r phase).tmod g.motif_len_ ≠ 0 then
    match k with
    | .out_diffs => g.weight_spec a b r phase
        * ((|g.bp_diff_spec a b r phase - (g.bp_diff_spec a b r phase).tdiv g.motif_len_| : ℤ) : ℝ)
    | .out_up => if g.bp_diff_spec a b r phase > 0 then g.weight_spec a b r phase else 0
    | .out_down => if g.bp_diff_spec a b r phase > 0 then 0 else g.weight_spec a b r phase
    | _ => 0
  else
    match k with
    | .in_diffs => g.weight_spec a b r phase
        * ((|(g.bp_diff_spec a b r phase).tdiv g.motif_len_| : ℤ) : ℝ)
    | .in_up => if g.bp_diff_spec a b r phase > 0 then g.weight_spec a b r phase else 0
    | .in_down => if g.bp_diff_spec a b r phase > 0 then 0 else g.weight_spec a b r phase
    | _ => 0

/-- The bucket sums `IN_UP`, `IN_DOWN`, `IN_EQ`, `IN_DIFFS`, `OUT_UP`, `OUT_DOWN` and
`OUT_DIFFS` of section 4.4: the pseudo-count plus the contributions of all iterations
`(a, b, r, phase)`. -/
noncomputable def bucket_spec (g : EMStutterGenotyper) (k : Bucket) : ℝ :=
  pseudo_count_spec k
    + ∑ a ∈ Finset.range g.num_alleles_, ∑ b ∈ Finset.range g.num_alleles_,
        ∑ r ∈ Finset.range g.num_reads_, ∑ phase ∈ Finset.range 2,
          g.contribution_spec a b r phase k

/-- The stutter model of section 4.4: the six ratios of bucket sums, and the motif
length of the genotyper. -/
noncomputable def stutter_model_spec (g : EMStutterGenotyper) : StutterModel where
  in_geom_ := (g.bucket_spec .in_up + g.bucket_spec .in_down) / g.bucket_spec .in_diffs
  in_up_ := g.bucket_spec .in_up
    / (g.bucket_spec .in_up + g.bucket_spec .in_down + g.bucket_spec .in_eq)
  in_down_ := g.bucket_spec .in_down
    / (g.bucket_spec .in_up + g.bucket_spec .in_down + g.bucket_spec .in_eq)
  out_geom_ := (g.bucket_spec .out_up + g.bucket_spec .out_down) / g.bucket_spec .out_diffs
  out_up_ := g.bucket_spec .out_up / (g.bucket_spec .out_up + g.bucket_spec .out_down)
  out_down_ := g.bucket_spec .out_down / (g.bucket_spec .out_up + g.bucket_spec .out_down)
  motif_len_ := g.motif_len_

end EMStutterGenotyper

/-! ## Concrete inputs -/

/-- A genotyper state in the shape of scenario S1 with a single read: one allele of
20 bp, motif length 4, one sample, one read of allele 0 with `logp1 = logp2 = log 0.5`,
the prior `pi = [log 1]` and the default stutter model. -/
noncomputable def single_read_state : EMStutterGenotyper where
  num_reads_ := 1
  num_samples_ := 1
  num_alleles_ := 1
  motif_len_ := 4
  bps_per_allele_ := [20]
  allele_index_ := [0]
  sample_label_ := [0]
  reads_per_sample_ := [1]
  log_p1_ := [Real.log 0.5]
  log_p2_ := [Real.log 0.5]
  log_gt_priors_ := [0]
  log_sample_posteriors_ := [0]
  log_read_phase_posteriors_ := [0, 0]
  stutter_model_ := some ⟨0.9, 0.1, 0.1, 0.8, 0.01, 0.01, 4⟩

/-- The model that `init_stutter_model` installs, for motif length 4. -/
noncomputable def default_model : StutterModel := ⟨0.9, 0.1, 0.1, 0.8, 0.01, 0.01, 4⟩

/-- A genotyper state after an E-step: two alleles of 20 and 24 bp, motif length 4, two
samples, no reads, and for both samples the normalised posteriors
`P[0][0] = log(1/2)`, `P[0][1] = log(1/4)`, `P[1][0] = P[1][1] = log(1/8)`. -/
noncomputable def two_sample_state : EMStutterGenotyper where
  num_reads_ := 0
  num_samples_ := 2
  num_alleles_ := 2
  motif_len_ := 4
  bps_per_allele_ := [20, 24]
  allele_index_ := []
  sample_label_ := []
  reads_per_sample_ := [0, 0]
  log_p1_ := []
  log_p2_ := []
  log_gt_priors_ := [Real.log (1 / 2), Real.log (1 / 2)]
  log_sample_posteriors_ :=
    [Real.log (1 / 2), Real.log (1 / 2), Real.log (1 / 4), Real.log (1 / 4),
      Real.log (1 / 8), Real.log (1 / 8), Real.log (1 / 8), Real.log (1 / 8)]
  log_read_phase_posteriors_ := []
  stutter_model_ := some ⟨0.9, 0.1, 0.1, 0.8, 0.01, 0.01, 4⟩

/-- The model that `init_stutter_model` installs, for motif length 1. -/
noncomputable def homopolymer_model : StutterModel := ⟨0.9, 0.1, 0.1, 0.8, 0.01, 0.01, 1⟩

/-- A model that satisfies the invariants of section 3 with `in_pup = in_pdown = 0`. -/
noncomputable def no_inframe_stutter_model : StutterModel := ⟨0.5, 0, 0, 0.5, 0.25, 0.25, 4⟩

/-- A model that satisfies the invariants of section 3 and whose `up` and `down`
probabilities differ: the default parameters with `in_pdown = 0.2` and
`out_pdown = 0.02`, for motif length 4. -/
noncomputable def asymmetric_model : StutterModel := ⟨0.9, 0.1, 0.2, 0.8, 0.01, 0.02, 4⟩

/-- A genotyper state whose two alleles have the same length: two alleles of 20 bp,
motif length 4, one sample, one read of allele 0, and tensors whose cells all hold 0. -/
noncomputable def duplicate_length_state : EMStutterGenotyper where
  num_reads_ := 1
  num_samples_ := 1
  num_alleles_ := 2
  motif_len_ := 4
  bps_per_allele_ := [20, 20]
  allele_index_ := [0]
  sample_label_ := [0]
  reads_per_sample_ := [1]
  log_p1_ := [Real.log 0.5]
  log_p2_ := [Real.log 0.5]
  log_gt_priors_ := [Real.log (1 / 2), Real.log (1 / 2)]
  log_sample_posteriors_ := [0, 0, 0, 0]
  log_read_phase_posteriors_ := [0, 0, 0, 0, 0, 0, 0, 0]
  stutter_model_ := some ⟨0.9, 0.1, 0.1, 0.8, 0.01, 0.01, 4⟩

/-- A genotyper state with a heterozygous maximum: two alleles of 20 and 24 bp, motif
length 4, one sample without reads, and a normalised tensor of genotype posteriors with
`exp P[0][0][0] = 1/8`, `exp P[0][1][0] = 1/2`, `exp P[1][0][0] = 1/4` and
`exp P[1][1][0] = 1/8`. -/
noncomputable def het_state : EMStutterGenotyper where
  num_reads_ := 0
  num_samples_ := 1
  num_alleles_ := 2
  motif_len_ := 4
  bps_per_allele_ := [20, 24]
  allele_index_ := []
  sample_label_ := []
  reads_per_sample_ := [0]
  log_p1_ := []
  log_p2_ := []
  log_gt_priors_ := [Real.log (1 / 2), Real.log (1 / 2)]
  log_sample_posteriors_ :=
    [Real.log (1 / 8), Real.log (1 / 2), Real.log (1 / 4), Real.log (1 / 8)]
  log_read_phase_posteriors_ := []
  stutter_model_ := some ⟨0.9, 0.1, 0.1, 0.8, 0.01, 0.01, 4⟩

/-- A sample-name index with the single entry `s1 -> 0`. -/
def one_sample_index (name : String) : Option Nat :=
  if name = "s1" then some 0 else none

/-- The empty sample-name index. -/
def empty_sample_index (_ : String) : Option Nat := none

/-! ## The effective difference, `genotyper.h` and `genotype` -/

/-- The effective out-of-frame difference `bp_diff - bp_diff/motif_len_` of line 31 of
`stutter_model.cpp` and line 94 of `em_stutter_genotyper.cpp`; the division of C
truncates toward zero. -/
def eff_diff (motif_len bp_diff : ℤ) : ℤ := bp_diff - bp_diff.tdiv motif_len

/-- The statement `diff_counts[key]++` of line 65 of `genotyper.h` on a
`std::map<int, int>`, which is kept as the list of its entries in increasing order of
key: an absent key is inserted with the count 0 and then incremented. -/
def map_increment : List (ℤ × ℤ) → ℤ → List (ℤ × ℤ)
  | [], key => [(key, 1)]
  | (k, c) :: rest, key =>
    if key < k then (key, 1) :: (k, c) :: rest
    else if key = k then (k, c + 1) :: rest
    else (k, c) :: map_increment rest key

/-- The map `diff_counts` of `Genotyper::condense_read_counts` after the loop of lines
64 and 65 of `genotyper.h`. -/
def diff_counts (read_diffs : List ℤ) : List (ℤ × ℤ) :=
  read_diffs.foldl map_increment []

/-- The function `Genotyper::condense_read_counts` (`genotyper.h`, lines 60 to 75).  The
loop of lines 67 to 71 runs over the entries of the map in increasing order of key; the
position of the entry stands for the test `iter != diff_counts.begin()`. -/
def condense_read_counts (read_diffs : List ℤ) : String :=
  if read_diffs.length = 0 then "."
  else
    (diff_counts read_diffs).enum.foldl
      (fun res entry =>
        let res := if entry.1 ≠ 0 then res ++ ";" else res
        res ++ toString entry.2.1 ++ "|" ++ toString entry.2.2)
      ""

namespace EMStutterGenotyper

/-- The function `EMStutterGenotyper::genotype` (lines 231 to 236).  The value
`Except.error` is the call of `printErrorAndDie` (declared in `error.h`, which is not
among the sources), which ends the program with the message; `Except.ok` carries the
state after the two E-steps, absent when one of them has undefined behaviour. -/
noncomputable def genotype (g : EMStutterGenotyper) :
    Except String (Option EMStutterGenotyper) :=
  match g.stutter_model_ with
  | none => Except.error "Must specify stutter model before running genotype()"
  | some _ =>
    Except.ok (g.recalc_log_sample_posteriors.bind fun r =>
      r.1.recalc_log_read_phase_posteriors)

end EMStutterGenotyper

/-- Scenario S1 of the specification, in the state that the claim on the single-allele
case expects after an E-step: one allele of 20 bp, motif length 4, one sample, 10 reads
of allele 0 with `logp1 = logp2 = log 0.5`, `pi[0] = 0`, `P[0][0][0] = 0` and every cell
of `Q` equal to `log (1/2)`, with the default stutter model. -/
noncomputable def scenario_S1_state : EMStutterGenotyper where
  num_reads_ := 10
  num_samples_ := 1
  num_alleles_ := 1
  motif_len_ := 4
  bps_per_allele_ := [20]
  allele_index_ := List.replicate 10 0
  sample_label_ := List.replicate 10 0
  reads_per_sample_ := [10]
  log_p1_ := List.replicate 10 (Real.log 0.5)
  log_p2_ := List.replicate 10 (Real.log 0.5)
  log_gt_priors_ := [0]
  log_sample_posteriors_ := [0]
  log_read_phase_posteriors_ := List.replicate 20 (Real.log (1 / 2))
  stutter_model_ := some ⟨0.9, 0.1, 0.1, 0.8, 0.01, 0.01, 4⟩

/-- A genotyper state with two alleles and equal phasing likelihoods: alleles of 20 and
24 bp, motif length 4, one sample, one read of allele 0 with `logp1 = logp2 = log 0.5`,
uniform priors, tensors whose cells all hold 0, and the default stutter model. -/
noncomputable def equal_phase_state : EMStutterGenotyper where
  num_reads_ := 1
  num_samples_ := 1
  num_alleles_ := 2
  motif_len_ := 4
  bps_per_allele_ := [20, 24]
  allele_index_ := [0]
  sample_label_ := [0]
  reads_per_sample_ := [1]
  log_p1_ := [Real.log 0.5]
  log_p2_ := [Real.log 0.5]
  log_gt_priors_ := [Real.log (1 / 2), Real.log (1 / 2)]
  log_sample_posteriors_ := [0, 0, 0, 0]
  log_read_phase_posteriors_ := [0, 0, 0, 0, 0, 0, 0, 0]
  stutter_model_ := some ⟨0.9, 0.1, 0.1, 0.8, 0.01, 0.01, 4⟩

/-- The single-read state with `logp1 = logp2 = 0` instead of `log 0.5`: both phasing
likelihoods of the read are 1. -/
noncomputable def certain_phase_state : EMStutterGenotyper :=
  { single_read_state with log_p1_ := [0], log_p2_ := [0] }

/-- The record with the default stutter parameters for chromosome `chr1` and position
100 when no sample name is requested: the three leading fields, the INFO field and the
FORMAT field. -/
noncomputable def default_record (fmt : ℝ → String) : String :=
  "chr1" ++ "\t" ++ "100" ++ "\t" ++ "."
    ++ "\tINFRAME_PGEOM=" ++ fmt 0.9 ++ ";"
    ++ "INFRAME_UP=" ++ fmt 0.1 ++ ";"
    ++ "INFRAME_DOWN=" ++ fmt 0.1 ++ ";"
    ++ "OUTFRAME_PGEOM=" ++ fmt 0.8 ++ ";"
    ++ "OUTFRAME_UP=" ++ fmt 0.01 ++ ";"
    ++ "OUTFRAME_DOWN=" ++ fmt 0.01 ++ ";"
    ++ "\tGT:POSTERIOR:TOTALREADS:CHROMREADS:PHASEDREADS"

/-! ## The accumulation loops of `recalc_log_sample_posteriors` and their closed form -/

namespace EMStutterGenotyper

/-- The body of the loop over the reads of lines 147 to 149 of
`recalc_log_sample_posteriors`, as in `accumulate_LLs`. -/
noncomputable def accumulate_read_step (g : EMStutterGenotyper) (sm : StutterModel)
    (len_1 len_2 : ℤ) (LL_ptr read_index : Nat) (buf : List ℝ) : Option (List ℝ) := do
  let s ← g.sample_label_[read_index]?
  let old ← buf[LL_ptr + s]?
  let lls ← g.read_phase_LLs sm len_1 len_2 read_index
  write buf (LL_ptr + s) (old + log_sum_exp2 lls.1 lls.2)

/-- The body of the loop over the samples of lines 151 and 152 of
`recalc_log_sample_posteriors`, as in `accumulate_LLs`. -/
noncomputable def update_max_step (buf : List ℝ) (LL_ptr sample_index : Nat)
    (maxs : List ℝ) : Option (List ℝ) := do
  let cur ← maxs[sample_index]?
  let v ← buf[LL_ptr + sample_index]?
  write maxs sample_index (max cur v)

/-- The body of the loop over `index_2` of lines 144 to 155 of
`recalc_log_sample_posteriors`, as in `accumulate_LLs`. -/
noncomputable def accumulate_pair_step (g : EMStutterGenotyper) (sm : StutterModel)
    (index_1 : Nat) (len_1 : ℤ) (index_2 : Nat) (st : List ℝ × List ℝ × Nat) :
    Option (List ℝ × List ℝ × Nat) := do
  let len_2 ← g.bps_per_allele_[index_2]?
  let prior_1 ← g.log_gt_priors_[index_1]?
  let prior_2 ← g.log_gt_priors_[index_2]?
  let LL_ptr := st.2.2
  let buf ← fill st.1 LL_ptr g.num_samples_ (prior_1 + prior_2)
  let buf ← forRange g.num_reads_ (g.accumulate_read_step sm len_1 len_2 LL_ptr) buf
  let maxs ← forRange g.num_samples_ (update_max_step buf LL_ptr) st.2.1
  some (buf, maxs, LL_ptr + g.num_samples_)

/-- The un-normalised phased log-posterior of section 4.3 for the genotype `(a, b)` and
the sample `s`, with the reads `0 .. k-1`: `pi[a] + pi[b]` plus the sum over those reads
of `s` of `logsumexp(u, v) = log(exp u + exp v)`. -/
noncomputable def unnormalised_spec (g : EMStutterGenotyper) (sm : StutterModel)
    (k a b s : ℕ) : ℝ :=
  g.log_gt_priors_.getD a 0 + g.log_gt_priors_.getD b 0
    + ∑ r ∈ (Finset.range k).filter (fun r => g.sample_label_.getD r 0 = s),
        Real.log (Real.exp (g.phase_one_spec sm a r) + Real.exp (g.phase_two_spec sm b r))

/-- The cells of the tensor of un-normalised phased log-posteriors for the first `n`
ordered pairs of alleles, in the order of the loops: pair number `p` is
`(p / A, p % A)`, and each pair has one cell per sample. -/
noncomputable def unnormalised_cells_spec (g : EMStutterGenotyper) (sm : StutterModel)
    (n : ℕ) : List ℝ :=
  (List.range n).flatMap fun p =>
    (List.range g.num_samples_).map
      (g.unnormalised_spec sm g.num_reads_ (p / g.num_alleles_) (p % g.num_alleles_))

/-- The maximum over the first `n` ordered pairs of alleles of the un-normalised phased
log-posteriors of the sample `s`, and of the start value `DBL_MIN` of line 140. -/
noncomputable def sample_max_spec (g : EMStutterGenotyper) (sm : StutterModel) (s : ℕ) :
    ℕ → ℝ
  | 0 => DBL_MIN
  | n + 1 =>
    max (sample_max_spec g sm s n)
      (g.unnormalised_spec sm g.num_reads_ (n / g.num_alleles_) (n % g.num_alleles_) s)

end EMStutterGenotyper

/-! ## Integer facts about the out-of-frame difference -/

theorem tdiv_nonneg_of_nonneg {M d : ℤ} (hM : 1 ≤ M) (hd : 0 ≤ d) : 0 ≤ d.tdiv M := by
  rw [Int.tdiv_eq_ediv hd (by omega)]
  exact Int.ediv_nonneg hd (by omega)

theorem tmod_one_eq_zero (d : ℤ) : d.tmod 1 = 0 := by
  have h := Int.tmod_add_tdiv d 1
  have h2 : (d.tdiv 1) = d := Int.tdiv_one d
  omega

theorem neg_tmod_eq (d M : ℤ) : (-d).tmod M = -(d.tmod M) := by
  have h1 := Int.tmod_add_tdiv (-d) M
  have h2 := Int.tmod_add_tdiv d M
  rw [Int.neg_tdiv] at h1
  linear_combination h1 + h2

theorem tmod_zero_left (M : ℤ) : (0 : ℤ).tmod M = 0 := by
  simp

/-! ## The 32-bit results -/

theorem wrap_int_eq_self {x : ℤ} (h1 : -2147483648 ≤ x) (h2 : x ≤ 2147483647) :
    wrap_int x = x := by
  unfold wrap_int
  omega

theorem wrap_int_zero : wrap_int 0 = 0 := by
  decide

/-! ## The log-pmf: agreement with the specification, sign -/

open EMStutterGenotyper StutterModel in
/-- Facts on the out-of-frame difference and on the log-pmf, proved one after the other:
`eff_diff_pos`, `eff_diff_neg`, `eff_diff_ne_zero`, `log_pmf_at_eq_log_pmf_spec`,
`log_pmf_eq_log_pmf_at`, `log_pmf_self`, `log_pmf_nonpos`, `default_model_valid`,
`default_model_positive`, `log_stutter_pmf_eq_some`, `log_pmf_neg`. -/
theorem log_pmf_facts :
    (∀ {M d : ℤ} (_ : 1 ≤ M) (_ : d.tmod M ≠ 0) (_ : 0 < d),
      0 < d - d.tdiv M) ∧
    (∀ {M d : ℤ} (_ : 1 ≤ M) (_ : d.tmod M ≠ 0) (_ : d < 0),
      d - d.tdiv M < 0) ∧
    (∀ {M d : ℤ} (_ : 1 ≤ M) (_ : d.tmod M ≠ 0),
      d - d.tdiv M ≠ 0) ∧
    (∀ (m : StutterModel) (_ : 1 ≤ m.motif_len_)
      (sample_bp read_bp : ℤ),
      m.log_pmf_at (read_bp - sample_bp) = m.log_pmf_spec sample_bp read_bp) ∧
    (∀ (m : StutterModel) (sample_bps read_bps : ℤ)
      (_ : -2147483648 ≤ read_bps - sample_bps) (_ : read_bps - sample_bps ≤ 2147483647),
      m.log_pmf sample_bps read_bps = m.log_pmf_at (read_bps - sample_bps)) ∧
    (∀ (m : StutterModel) (bps : ℤ),
      m.log_pmf bps bps = m.log_equal_) ∧
    (∀ (m : StutterModel) (_ : m.Valid) (_ : 1 ≤ m.motif_len_)
      (sample_bps read_bps : ℤ),
      m.log_pmf sample_bps read_bps ≤ 0) ∧
    (default_model.Valid) ∧
    (default_model.Positive) ∧
    (∀ (m : StutterModel) (_ : m.Valid)
      (_ : 1 ≤ m.motif_len_) (sample_bps read_bps : ℤ),
      m.log_stutter_pmf sample_bps read_bps = some (m.log_pmf sample_bps read_bps)) ∧
    (∀ (m : StutterModel) (_ : m.Valid) (_ : m.Positive)
      (_ : 1 ≤ m.motif_len_) (sample_bps read_bps : ℤ),
      m.log_pmf sample_bps read_bps < 0) := by
  have tdiv_lt_self_of_pos : ∀ {M d : ℤ} (_ : 2 ≤ M) (_ : 0 < d),
    d.tdiv M < d := by
    intro M d hM hd
    rw [Int.tdiv_eq_ediv hd.le (by omega)]
    exact Int.ediv_lt_of_lt_mul (by omega) (by nlinarith)
  have eff_diff_pos : ∀ {M d : ℤ} (_ : 1 ≤ M) (_ : d.tmod M ≠ 0) (_ : 0 < d),
    0 < d - d.tdiv M := by
    intro M d hM hmod hd
    have h2 : 2 ≤ M := by
      rcases lt_or_ge M 2 with h | h
      · exfalso
        have : M = 1 := by omega
        subst this
        exact hmod (tmod_one_eq_zero d)
      · exact h
    have := tdiv_lt_self_of_pos h2 hd
    omega
  have eff_diff_neg : ∀ {M d : ℤ} (_ : 1 ≤ M) (_ : d.tmod M ≠ 0) (_ : d < 0),
    d - d.tdiv M < 0 := by
    intro M d hM hmod hd
    have hmod2 : (-d).tmod M ≠ 0 := by
      rw [neg_tmod_eq]
      omega
    have := eff_diff_pos hM hmod2 (by omega : 0 < -d)
    rw [Int.neg_tdiv] at this
    omega
  have eff_diff_ne_zero : ∀ {M d : ℤ} (_ : 1 ≤ M) (_ : d.tmod M ≠ 0),
    d - d.tdiv M ≠ 0 := by
    intro M d hM hmod
    rcases lt_trichotomy d 0 with h | h | h
    · have := eff_diff_neg hM hmod h
      omega
    · subst h
      exact absurd (tmod_zero_left M) hmod
    · have := eff_diff_pos hM hmod h
      omega
  have log_pmf_at_eq_log_pmf_spec : ∀ (m : StutterModel) (_ : 1 ≤ m.motif_len_)
    (sample_bp read_bp : ℤ),
    m.log_pmf_at (read_bp - sample_bp) = m.log_pmf_spec sample_bp read_bp := by
    intro m hM sample_bp read_bp
    unfold StutterModel.log_pmf_at StutterModel.log_pmf_spec
    dsimp only [StutterModel.out_log_down_, StutterModel.out_log_nostep_,
      StutterModel.out_log_step_, StutterModel.out_log_up_, StutterModel.log_equal_,
      StutterModel.in_log_down_, StutterModel.in_log_nostep_, StutterModel.in_log_step_,
      StutterModel.in_log_up_]
    by_cases hmod : (read_bp - sample_bp).tmod m.motif_len_ ≠ 0
    · have hne := eff_diff_ne_zero hM hmod
      rw [if_pos hmod, if_pos hmod]
      by_cases hneg : read_bp - sample_bp - (read_bp - sample_bp).tdiv m.motif_len_ < 0
      · simp only [hneg, if_true]
      · have hpos : 0 < read_bp - sample_bp - (read_bp - sample_bp).tdiv m.motif_len_ := by omega
        simp only [hneg, hpos, if_true, if_false]
    · rw [if_neg hmod, if_neg hmod]
  have log_pmf_eq_log_pmf_at : ∀ (m : StutterModel) (sample_bps read_bps : ℤ)
    (_ : -2147483648 ≤ read_bps - sample_bps) (_ : read_bps - sample_bps ≤ 2147483647),
    m.log_pmf sample_bps read_bps = m.log_pmf_at (read_bps - sample_bps) := by
    intro m sample_bps read_bps hlo hhi
    unfold StutterModel.log_pmf
    rw [wrap_int_eq_self hlo hhi]
  have log_pmf_self : ∀ (m : StutterModel) (bps : ℤ),
    m.log_pmf bps bps = m.log_equal_ := by
    intro m bps
    unfold StutterModel.log_pmf StutterModel.log_pmf_at
    rw [sub_self, wrap_int_zero]
    simp
  have log_pmf_at_nonpos : ∀ (m : StutterModel) (_ : m.Valid)
    (_ : 1 ≤ m.motif_len_) (bp_diff : ℤ),
    m.log_pmf_at bp_diff ≤ 0 := by
    intro m hv hM bp_diff
    have h1 : Real.log m.out_down_ ≤ 0 := Real.log_nonpos hv.out_down_nonneg hv.out_down_lt.le
    have h2 : Real.log m.out_up_ ≤ 0 := Real.log_nonpos hv.out_up_nonneg hv.out_up_lt.le
    have h3 : Real.log (1 - m.out_geom_) ≤ 0 :=
      Real.log_nonpos (by linarith [hv.out_geom_le]) (by linarith [hv.out_geom_pos])
    have h4 : Real.log m.out_geom_ ≤ 0 := Real.log_nonpos hv.out_geom_pos.le hv.out_geom_le
    have h5 : Real.log m.in_down_ ≤ 0 := Real.log_nonpos hv.in_down_nonneg hv.in_down_lt.le
    have h6 : Real.log m.in_up_ ≤ 0 := Real.log_nonpos hv.in_up_nonneg hv.in_up_lt.le
    have h7 : Real.log (1 - m.in_geom_) ≤ 0 :=
      Real.log_nonpos (by linarith [hv.in_geom_le]) (by linarith [hv.in_geom_pos])
    have h8 : Real.log m.in_geom_ ≤ 0 := Real.log_nonpos hv.in_geom_pos.le hv.in_geom_le
    have h9 : Real.log (1 - m.in_up_ - m.in_down_) ≤ 0 :=
      Real.log_nonpos (by linarith [hv.in_sum_lt])
        (by linarith [hv.in_up_nonneg, hv.in_down_nonneg])
    have key : ∀ (a b c : ℝ) (n : ℤ), a ≤ 0 → b ≤ 0 → c ≤ 0 → 0 ≤ n → a + b + c * (n : ℝ) ≤ 0 := by
      intro a b c n ha hb hc hn
      have hn' : (0 : ℝ) ≤ (n : ℝ) := by exact_mod_cast hn
      have := mul_nonpos_of_nonpos_of_nonneg hc hn'
      linarith
    unfold StutterModel.log_pmf_at
    dsimp only [StutterModel.out_log_down_, StutterModel.out_log_nostep_,
      StutterModel.out_log_step_, StutterModel.out_log_up_, StutterModel.log_equal_,
      StutterModel.in_log_down_, StutterModel.in_log_nostep_, StutterModel.in_log_step_,
      StutterModel.in_log_up_]
    by_cases hmod : bp_diff.tmod m.motif_len_ ≠ 0
    · have hne := eff_diff_ne_zero hM hmod
      rw [if_pos hmod]
      split_ifs with hneg
      · exact key _ _ _ _ h1 h3 h4 (by omega)
      · exact key _ _ _ _ h2 h3 h4 (by omega)
    · rw [if_neg hmod]
      split_ifs with h0 hneg
      · exact h9
      · exact key _ _ _ _ h5 h7 h8 (by omega)
      · exact key _ _ _ _ h6 h7 h8 (by omega)
  have log_pmf_nonpos : ∀ (m : StutterModel) (_ : m.Valid) (_ : 1 ≤ m.motif_len_)
    (sample_bps read_bps : ℤ),
    m.log_pmf sample_bps read_bps ≤ 0 := by
    intro m hv hM sample_bps read_bps
    exact log_pmf_at_nonpos m hv hM _
  have default_model_valid : default_model.Valid := by
    constructor <;> (dsimp only [default_model]; norm_num)
  have default_model_positive : default_model.Positive := by
    constructor <;> (dsimp only [default_model]; norm_num)
  have log_stutter_pmf_eq_some : ∀ (m : StutterModel) (_ : m.Valid)
    (_ : 1 ≤ m.motif_len_) (sample_bps read_bps : ℤ),
    m.log_stutter_pmf sample_bps read_bps = some (m.log_pmf sample_bps read_bps) := by
    intro m hv hM sample_bps read_bps
    unfold StutterModel.log_stutter_pmf
    rw [if_pos (log_pmf_nonpos m hv hM sample_bps read_bps)]
  have log_pmf_at_neg : ∀ (m : StutterModel) (_ : m.Valid) (_ : m.Positive)
    (_ : 1 ≤ m.motif_len_) (bp_diff : ℤ),
    m.log_pmf_at bp_diff < 0 := by
    intro m hv hp hM bp_diff
    have h1 : Real.log m.out_down_ < 0 := Real.log_neg hp.out_down_pos hv.out_down_lt
    have h2 : Real.log m.out_up_ < 0 := Real.log_neg hp.out_up_pos hv.out_up_lt
    have h3 : Real.log (1 - m.out_geom_) ≤ 0 :=
      Real.log_nonpos (by linarith [hv.out_geom_le]) (by linarith [hv.out_geom_pos])
    have h4 : Real.log m.out_geom_ ≤ 0 := Real.log_nonpos hv.out_geom_pos.le hv.out_geom_le
    have h5 : Real.log m.in_down_ < 0 := Real.log_neg hp.in_down_pos hv.in_down_lt
    have h6 : Real.log m.in_up_ < 0 := Real.log_neg hp.in_up_pos hv.in_up_lt
    have h7 : Real.log (1 - m.in_geom_) ≤ 0 :=
      Real.log_nonpos (by linarith [hv.in_geom_le]) (by linarith [hv.in_geom_pos])
    have h8 : Real.log m.in_geom_ ≤ 0 := Real.log_nonpos hv.in_geom_pos.le hv.in_geom_le
    have h9 : Real.log (1 - m.in_up_ - m.in_down_) < 0 :=
      Real.log_neg (by linarith [hv.in_sum_lt]) (by linarith [hp.in_up_pos, hp.in_down_pos])
    have key : ∀ (a b c : ℝ) (n : ℤ), a < 0 → b ≤ 0 → c ≤ 0 → 0 ≤ n → a + b + c * (n : ℝ) < 0 := by
      intro a b c n ha hb hc hn
      have hn' : (0 : ℝ) ≤ (n : ℝ) := by exact_mod_cast hn
      have := mul_nonpos_of_nonpos_of_nonneg hc hn'
      linarith
    unfold StutterModel.log_pmf_at
    dsimp only [StutterModel.out_log_down_, StutterModel.out_log_nostep_,
      StutterModel.out_log_step_, StutterModel.out_log_up_, StutterModel.log_equal_,
      StutterModel.in_log_down_, StutterModel.in_log_nostep_, StutterModel.in_log_step_,
      StutterModel.in_log_up_]
    by_cases hmod : bp_diff.tmod m.motif_len_ ≠ 0
    · have hne := eff_diff_ne_zero hM hmod
      rw [if_pos hmod]
      split_ifs with hneg
      · exact key _ _ _ _ h1 h3 h4 (by omega)
      · exact key _ _ _ _ h2 h3 h4 (by omega)
    · rw [if_neg hmod]
      split_ifs with h0 hneg
      · exact h9
      · exact key _ _ _ _ h5 h7 h8 (by omega)
      · exact key _ _ _ _ h6 h7 h8 (by omega)
  have log_pmf_neg : ∀ (m : StutterModel) (_ : m.Valid) (_ : m.Positive)
    (_ : 1 ≤ m.motif_len_) (sample_bps read_bps : ℤ),
    m.log_pmf sample_bps read_bps < 0 := by
    intro m hv hp hM sample_bps read_bps
    exact log_pmf_at_neg m hv hp hM _
  exact ⟨eff_diff_pos, eff_diff_neg, eff_diff_ne_zero, log_pmf_at_eq_log_pmf_spec, log_pmf_eq_log_pmf_at, log_pmf_self, log_pmf_nonpos, default_model_valid, default_model_positive, log_stutter_pmf_eq_some, log_pmf_neg⟩

/-! ## Claims on `log_stutter_pmf` -/

/-- C3, counterexample: for the valid model with `in_pup = 0.1` and `in_pdown = 0.2`
and motif length 4, a sample of `-2^31` bp and a read of 0 bp, the difference `2^31` of
line 29 does not fit an `int` and wraps to `-2^31`: `log_stutter_pmf` returns the value
of the in-frame `down` branch, `log 0.2 + log(1 - 0.9) + log 0.9 * (2^29 - 1)`, whereas
the piecewise definition on `bp_diff = 2^31` is the value of the `up` branch,
`log 0.1 + log(1 - 0.9) + log 0.9 * (2^29 - 1)`. -/
theorem C3_counterexample :
    asymmetric_model.Valid ∧ (1 : ℤ) ≤ asymmetric_model.motif_len_ ∧
      asymmetric_model.log_stutter_pmf (-2147483648) 0
        = some (Real.log 0.2 + Real.log (1 - 0.9) + Real.log 0.9 * 536870911) ∧
      asymmetric_model.log_pmf_spec (-2147483648) 0
        = Real.log 0.1 + Real.log (1 - 0.9) + Real.log 0.9 * 536870911 ∧
      asymmetric_model.log_pmf (-2147483648) 0
        ≠ asymmetric_model.log_pmf_spec (-2147483648) 0 := by
  obtain ⟨_, _, _, _, _, _, _, _, _, log_stutter_pmf_eq_some, _⟩ := log_pmf_facts
  have hv : asymmetric_model.Valid := by
    constructor <;> (dsimp only [asymmetric_model]; norm_num)
  have hM : (1 : ℤ) ≤ asymmetric_model.motif_len_ := by
    dsimp only [asymmetric_model]
    norm_num
  have hw : wrap_int (0 - (-2147483648)) = -2147483648 := by decide
  have hmod : (-2147483648 : ℤ).tmod 4 = 0 := by decide
  have hdiv : (-2147483648 : ℤ).tdiv 4 = -536870912 := by decide
  have hmod' : ((0 : ℤ) - (-2147483648)).tmod 4 = 0 := by decide
  have hdiv' : ((0 : ℤ) - (-2147483648)).tdiv 4 = 536870912 := by decide
  have hcode : asymmetric_model.log_pmf (-2147483648) 0
      = Real.log 0.2 + Real.log (1 - 0.9) + Real.log 0.9 * 536870911 := by
    unfold StutterModel.log_pmf StutterModel.log_pmf_at
    dsimp only [asymmetric_model, StutterModel.in_log_down_, StutterModel.in_log_nostep_,
      StutterModel.in_log_step_]
    rw [hw]
    simp only [hmod, hdiv, ne_eq, not_true_eq_false, if_false]
    norm_num
  have hspec : asymmetric_model.log_pmf_spec (-2147483648) 0
      = Real.log 0.1 + Real.log (1 - 0.9) + Real.log 0.9 * 536870911 := by
    unfold StutterModel.log_pmf_spec
    dsimp only [asymmetric_model]
    simp only [hmod', hdiv', ne_eq, not_true_eq_false, if_false]
    norm_num
  have hlog : Real.log 0.1 < Real.log 0.2 := Real.log_lt_log (by norm_num) (by norm_num)
  refine ⟨hv, hM, ?_, hspec, ?_⟩
  · rw [log_stutter_pmf_eq_some asymmetric_model hv hM, hcode]
  · rw [hcode, hspec]
    intro h
    linarith

/-- C3, amended: for every motif length `M >= 1` and every pair of integers whose
difference `read_bp - sample_bp` fits an `int`, the value that `log_stutter_pmf`
computes is the piecewise definition of section 4.1, and the function returns it
whenever that value passes the assertion. -/
theorem C3_log_stutter_pmf_refines_spec (m : StutterModel) (hM : 1 ≤ m.motif_len_)
    (sample_bp read_bp : ℤ) (hlo : -2147483648 ≤ read_bp - sample_bp)
    (hhi : read_bp - sample_bp ≤ 2147483647) :
    m.log_pmf sample_bp read_bp = m.log_pmf_spec sample_bp read_bp ∧
      (m.log_pmf_spec sample_bp read_bp ≤ 0 →
        m.log_stutter_pmf sample_bp read_bp = some (m.log_pmf_spec sample_bp read_bp)) := by
  obtain ⟨_, _, _, log_pmf_at_eq_log_pmf_spec, log_pmf_eq_log_pmf_at, _, _, _, _, _, _⟩ :=
    log_pmf_facts
  have h : m.log_pmf sample_bp read_bp = m.log_pmf_spec sample_bp read_bp := by
    rw [log_pmf_eq_log_pmf_at m sample_bp read_bp hlo hhi,
      log_pmf_at_eq_log_pmf_spec m hM sample_bp read_bp]
  refine ⟨h, fun hle => ?_⟩
  unfold StutterModel.log_stutter_pmf
  rw [h, if_pos hle]

/-- Witness of the amended C3 at the default model, a sample of 20 bp and a read of
21 bp. -/
theorem C3_log_stutter_pmf_refines_spec_witness :
    (1 : ℤ) ≤ default_model.motif_len_ ∧ (-2147483648 : ℤ) ≤ 21 - 20 ∧
      (21 : ℤ) - 20 ≤ 2147483647 ∧
      default_model.log_pmf 20 21 = default_model.log_pmf_spec 20 21 :=
  ⟨by dsimp only [default_model]; norm_num, by norm_num, by norm_num,
    (C3_log_stutter_pmf_refines_spec default_model (by dsimp only [default_model]; norm_num)
      20 21 (by norm_num) (by norm_num)).1⟩

/-- C4: for a model that satisfies the invariants of section 3 and a motif length
`M >= 1`, the value computed by `log_stutter_pmf` is at most 0 for every pair of
integers, so the assertion holds and the function returns that value. -/
theorem C4_log_stutter_pmf_assertion_holds (m : StutterModel) (hv : m.Valid)
    (hM : 1 ≤ m.motif_len_) (sample_bps read_bps : ℤ) :
    m.log_pmf sample_bps read_bps ≤ 0 ∧
      m.log_stutter_pmf sample_bps read_bps = some (m.log_pmf sample_bps read_bps) := by
  obtain ⟨_, _, _, _, _, _, log_pmf_nonpos, _, _, log_stutter_pmf_eq_some, _⟩ := log_pmf_facts
  exact ⟨log_pmf_nonpos m hv hM sample_bps read_bps, log_stutter_pmf_eq_some m hv hM sample_bps read_bps⟩

/-- Witness of C4 at the default model, a sample of 20 bp and a read of 17 bp. -/
theorem C4_log_stutter_pmf_assertion_holds_witness :
    default_model.Valid ∧ (1 : ℤ) ≤ default_model.motif_len_ ∧
      default_model.log_pmf 20 17 ≤ 0 ∧
      default_model.log_stutter_pmf 20 17 = some (default_model.log_pmf 20 17) := by
  obtain ⟨_, _, _, _, _, _, _, default_model_valid, _, _, _⟩ := log_pmf_facts
  exact ⟨default_model_valid, by dsimp only [default_model]; norm_num,
      C4_log_stutter_pmf_assertion_holds default_model default_model_valid
        (by dsimp only [default_model]; norm_num) 20 17⟩

/-- C5, counterexample: the model with `in_pup = in_pdown = 0` satisfies the invariants
of section 3, `bp_diff = 0` lies in `[-10M, 10M]`, the function returns `0` there, and
`exp 0 = 1` is not strictly below 1. -/
theorem C5_counterexample :
    no_inframe_stutter_model.Valid ∧
      (-10 * no_inframe_stutter_model.motif_len_ ≤ 20 - 20 ∧
        20 - 20 ≤ 10 * no_inframe_stutter_model.motif_len_) ∧
      no_inframe_stutter_model.log_stutter_pmf 20 20 = some 0 ∧
      ¬ (Real.exp (no_inframe_stutter_model.log_pmf 20 20) < 1) := by
  obtain ⟨_, _, _, _, _, log_pmf_self, _, _, _, _, _⟩ := log_pmf_facts
  have hval : no_inframe_stutter_model.log_pmf 20 20 = 0 := by
    rw [log_pmf_self]
    dsimp only [no_inframe_stutter_model, StutterModel.log_equal_]
    norm_num
  refine ⟨by constructor <;> (dsimp only [no_inframe_stutter_model]; norm_num),
    by dsimp only [no_inframe_stutter_model]; norm_num, ?_, ?_⟩
  · unfold StutterModel.log_stutter_pmf
    rw [hval]
    simp
  · rw [hval]
    simp

/-- C5, amended: for a model that satisfies the invariants of section 3, whose four
directional probabilities are strictly positive and whose geometric parameters are
strictly below 1, for `M >= 1` and every `bp_diff` in `[-10M, 10M]`, the log-pmf is
strictly negative, so `exp(log_pmf)` lies strictly between 0 and 1. -/
theorem C5_pmf_strictly_between (m : StutterModel) (hv : m.Valid) (hp : m.Positive)
    (hM : 1 ≤ m.motif_len_) (sample_bps read_bps : ℤ)
    (_hlo : -10 * m.motif_len_ ≤ read_bps - sample_bps)
    (_hhi : read_bps - sample_bps ≤ 10 * m.motif_len_) :
    m.log_stutter_pmf sample_bps read_bps = some (m.log_pmf sample_bps read_bps) ∧
      m.log_pmf sample_bps read_bps ≤ 0 ∧
      0 < Real.exp (m.log_pmf sample_bps read_bps) ∧
      Real.exp (m.log_pmf sample_bps read_bps) < 1 := by
  obtain ⟨_, _, _, _, _, _, _, _, _, log_stutter_pmf_eq_some, log_pmf_neg⟩ := log_pmf_facts
  have hneg := log_pmf_neg m hv hp hM sample_bps read_bps
  exact ⟨log_stutter_pmf_eq_some m hv hM sample_bps read_bps, hneg.le, Real.exp_pos _,
    by rw [Real.exp_lt_one_iff]; exact hneg⟩

/-- Witness of the amended C5 at the default model and `bp_diff = 0`. -/
theorem C5_pmf_strictly_between_witness :
    default_model.Valid ∧ default_model.Positive ∧ (1 : ℤ) ≤ default_model.motif_len_ ∧
      -10 * default_model.motif_len_ ≤ 20 - 20 ∧ 20 - 20 ≤ 10 * default_model.motif_len_ ∧
      default_model.log_stutter_pmf 20 20 = some (default_model.log_pmf 20 20) ∧
      default_model.log_pmf 20 20 ≤ 0 ∧
      0 < Real.exp (default_model.log_pmf 20 20) ∧
      Real.exp (default_model.log_pmf 20 20) < 1 := by
  obtain ⟨_, _, _, _, _, _, _, default_model_valid, default_model_positive, _, _⟩ := log_pmf_facts
  exact ⟨default_model_valid, default_model_positive, by dsimp only [default_model]; norm_num,
      by dsimp only [default_model]; norm_num, by dsimp only [default_model]; norm_num,
      C5_pmf_strictly_between default_model default_model_valid default_model_positive
        (by dsimp only [default_model]; norm_num) 20 20 (by dsimp only [default_model]; norm_num)
        (by dsimp only [default_model]; norm_num)⟩

/-! ## The mass of the pmf -/

theorem natCast_tmod_eq_zero_iff (d M : ℕ) : ((d : ℤ).tmod (M : ℤ) = 0) ↔ M ∣ d := by
  rw [← Int.ofNat_tmod]
  constructor
  · intro h
    exact Nat.dvd_of_mod_eq_zero (by exact_mod_cast h)
  · intro h
    exact_mod_cast Nat.mod_eq_zero_of_dvd h

open Filter Topology in
open EMStutterGenotyper StutterModel in
/-- Facts on the mass of the pmf, proved one after the other:
`exp_log_pmf_at_zero`, `exp_log_pmf_at_in`, `exp_log_pmf_at_out`, `mass_tendsto`. -/
theorem pmf_mass_facts :
    (∀ (m : StutterModel) (_ : m.Valid),
      Real.exp (m.log_pmf_at 0) = 1 - m.in_up_ - m.in_down_) ∧
    (∀ (m : StutterModel) (_ : m.Valid) (_ : m.Positive)
      (Mn N : ℕ) (_ : m.motif_len_ = (Mn : ℤ)) (_ : Mn ∣ N + 1),
      Real.exp (m.log_pmf_at ((N + 1 : ℕ) : ℤ))
          = m.in_up_ * (1 - m.in_geom_) * m.in_geom_ ^ (N / Mn) ∧
        Real.exp (m.log_pmf_at (-((N + 1 : ℕ) : ℤ)))
          = m.in_down_ * (1 - m.in_geom_) * m.in_geom_ ^ (N / Mn)) ∧
    (∀ (m : StutterModel) (_ : m.Valid) (_ : m.Positive)
      (Mn N : ℕ) (_ : m.motif_len_ = (Mn : ℤ)) (_ : ¬ Mn ∣ N + 1),
      Real.exp (m.log_pmf_at ((N + 1 : ℕ) : ℤ))
          = m.out_up_ * (1 - m.out_geom_) * m.out_geom_ ^ (N - N / Mn) ∧
        Real.exp (m.log_pmf_at (-((N + 1 : ℕ) : ℤ)))
          = m.out_down_ * (1 - m.out_geom_) * m.out_geom_ ^ (N - N / Mn)) ∧
    (∀ (m : StutterModel) (_ : m.Valid) (_ : m.Positive)
      (_ : 1 ≤ m.motif_len_),
      Tendsto (fun N : ℕ => ∑ d ∈ Finset.Icc (-(N : ℤ)) (N : ℤ), Real.exp (m.log_pmf_at d))
        atTop (𝓝 (if m.motif_len_ = 1 then 1 else 1 + m.out_up_ + m.out_down_))) := by
  have exp_log_add_log_add : ∀ (a b g : ℝ) (_ : 0 < a) (_ : 0 < b) (_ : 0 < g) (n : ℕ),
    Real.exp (Real.log a + Real.log b + Real.log g * (n : ℝ)) = a * b * g ^ n := by
    intro a b g ha hb hg n
    rw [Real.exp_add, Real.exp_add, Real.exp_log ha, Real.exp_log hb, mul_comm (Real.log g),
      Real.exp_nat_mul, Real.exp_log hg]
  have exp_log_pmf_at_zero : ∀ (m : StutterModel) (_ : m.Valid),
    Real.exp (m.log_pmf_at 0) = 1 - m.in_up_ - m.in_down_ := by
    intro m hv
    have h : m.log_pmf_at 0 = Real.log (1 - m.in_up_ - m.in_down_) := by
      dsimp only [StutterModel.log_pmf_at, StutterModel.log_equal_]
      simp
    rw [h, Real.exp_log (by linarith [hv.in_sum_lt])]
  have exp_log_pmf_at_in : ∀ (m : StutterModel) (_ : m.Valid) (_ : m.Positive)
    (Mn N : ℕ) (_ : m.motif_len_ = (Mn : ℤ)) (_ : Mn ∣ N + 1),
    Real.exp (m.log_pmf_at ((N + 1 : ℕ) : ℤ))
        = m.in_up_ * (1 - m.in_geom_) * m.in_geom_ ^ (N / Mn) ∧
      Real.exp (m.log_pmf_at (-((N + 1 : ℕ) : ℤ)))
        = m.in_down_ * (1 - m.in_geom_) * m.in_geom_ ^ (N / Mn) := by
    intro m hv hp Mn N hMn hdvd
    have hq : (N + 1) / Mn = N / Mn + 1 := by rw [Nat.succ_div, if_pos hdvd]
    have hmod : (((N + 1 : ℕ) : ℤ)).tmod (Mn : ℤ) = 0 := (natCast_tmod_eq_zero_iff _ _).2 hdvd
    have hdiv : (((N + 1 : ℕ) : ℤ)).tdiv (Mn : ℤ) = ((N / Mn : ℕ) : ℤ) + 1 := by
      rw [← Int.ofNat_tdiv, hq]
      rfl
    have hg1 : (0 : ℝ) < 1 - m.in_geom_ := by linarith [hp.in_geom_lt]
    generalize N / Mn = q at *
    constructor
    · have h : m.log_pmf_at ((N + 1 : ℕ) : ℤ)
          = Real.log m.in_up_ + Real.log (1 - m.in_geom_)
            + Real.log m.in_geom_ * ((q : ℕ) : ℝ) := by
        unfold StutterModel.log_pmf_at
        dsimp only [StutterModel.in_log_up_, StutterModel.in_log_nostep_, StutterModel.in_log_step_]
        simp only [hMn, hmod, hdiv, ne_eq, not_true_eq_false, if_false]
        have h0 : ¬ (((q : ℕ) : ℤ) + 1 = 0) := by omega
        have h1 : ¬ (((q : ℕ) : ℤ) + 1 < 0) := by omega
        rw [if_neg h0, if_neg h1]
        push_cast
        ring
      rw [h, exp_log_add_log_add _ _ _ hp.in_up_pos hg1 hv.in_geom_pos]
    · have hmod' : (-((N + 1 : ℕ) : ℤ)).tmod (Mn : ℤ) = 0 := by rw [neg_tmod_eq, hmod]; rfl
      have h : m.log_pmf_at (-((N + 1 : ℕ) : ℤ))
          = Real.log m.in_down_ + Real.log (1 - m.in_geom_)
            + Real.log m.in_geom_ * ((q : ℕ) : ℝ) := by
        unfold StutterModel.log_pmf_at
        dsimp only [StutterModel.in_log_down_, StutterModel.in_log_nostep_,
          StutterModel.in_log_step_]
        simp only [hMn, hmod', Int.neg_tdiv, hdiv, ne_eq, not_true_eq_false, if_false]
        have h0 : ¬ (-(((q : ℕ) : ℤ) + 1) = 0) := by omega
        have h1 : (-(((q : ℕ) : ℤ) + 1) < 0) := by omega
        rw [if_neg h0, if_pos h1]
        push_cast
        ring
      rw [h, exp_log_add_log_add _ _ _ hp.in_down_pos hg1 hv.in_geom_pos]
  have exp_log_pmf_at_out : ∀ (m : StutterModel) (_ : m.Valid) (_ : m.Positive)
    (Mn N : ℕ) (_ : m.motif_len_ = (Mn : ℤ)) (_ : ¬ Mn ∣ N + 1),
    Real.exp (m.log_pmf_at ((N + 1 : ℕ) : ℤ))
        = m.out_up_ * (1 - m.out_geom_) * m.out_geom_ ^ (N - N / Mn) ∧
      Real.exp (m.log_pmf_at (-((N + 1 : ℕ) : ℤ)))
        = m.out_down_ * (1 - m.out_geom_) * m.out_geom_ ^ (N - N / Mn) := by
    intro m hv hp Mn N hMn hdvd
    have hq : (N + 1) / Mn = N / Mn := by rw [Nat.succ_div, if_neg hdvd]; rfl
    have hle : N / Mn ≤ N := Nat.div_le_self _ _
    have hmod : ¬ (((N + 1 : ℕ) : ℤ)).tmod (Mn : ℤ) = 0 :=
      fun h => hdvd ((natCast_tmod_eq_zero_iff _ _).1 h)
    have hdiv : (((N + 1 : ℕ) : ℤ)).tdiv (Mn : ℤ) = ((N / Mn : ℕ) : ℤ) := by
      rw [← Int.ofNat_tdiv, hq]
    have hg1 : (0 : ℝ) < 1 - m.out_geom_ := by linarith [hp.out_geom_lt]
    generalize N / Mn = q at *
    constructor
    · have h : m.log_pmf_at ((N + 1 : ℕ) : ℤ)
          = Real.log m.out_up_ + Real.log (1 - m.out_geom_)
            + Real.log m.out_geom_ * ((N - q : ℕ) : ℝ) := by
        unfold StutterModel.log_pmf_at
        dsimp only [StutterModel.out_log_up_, StutterModel.out_log_nostep_,
          StutterModel.out_log_step_]
        simp only [hMn, hmod, hdiv, ne_eq, not_false_eq_true, if_true]
        have h1 : ¬ (((N + 1 : ℕ) : ℤ) - ((q : ℕ) : ℤ) < 0) := by omega
        rw [if_neg h1]
        have : (((N + 1 : ℕ) : ℤ) - ((q : ℕ) : ℤ) - 1) = ((N - q : ℕ) : ℤ) := by omega
        rw [this]
        norm_cast
      rw [h, exp_log_add_log_add _ _ _ hp.out_up_pos hg1 hv.out_geom_pos]
    · have hmod' : ¬ (-((N + 1 : ℕ) : ℤ)).tmod (Mn : ℤ) = 0 := by
        rw [neg_tmod_eq]
        omega
      have h : m.log_pmf_at (-((N + 1 : ℕ) : ℤ))
          = Real.log m.out_down_ + Real.log (1 - m.out_geom_)
            + Real.log m.out_geom_ * ((N - q : ℕ) : ℝ) := by
        unfold StutterModel.log_pmf_at
        dsimp only [StutterModel.out_log_down_, StutterModel.out_log_nostep_,
          StutterModel.out_log_step_]
        simp only [hMn, hmod', Int.neg_tdiv, hdiv, ne_eq, not_false_eq_true, if_true]
        have h1 : (-((N + 1 : ℕ) : ℤ) - -((q : ℕ) : ℤ) < 0) := by omega
        rw [if_pos h1]
        have : (-(-((N + 1 : ℕ) : ℤ) - -((q : ℕ) : ℤ)) - 1) = ((N - q : ℕ) : ℤ) := by
          omega
        rw [this]
        norm_cast
      rw [h, exp_log_add_log_add _ _ _ hp.out_down_pos hg1 hv.out_geom_pos]
  have Icc_neg_succ : ∀ (N : ℕ),
    Finset.Icc (-((N + 1 : ℕ) : ℤ)) ((N + 1 : ℕ) : ℤ)
      = insert (-((N + 1 : ℕ) : ℤ)) (insert ((N + 1 : ℕ) : ℤ) (Finset.Icc (-(N : ℤ)) (N : ℤ))) := by
    intro N
    ext x
    simp only [Finset.mem_Icc, Finset.mem_insert]
    push_cast
    omega
  have mass_closed_form : ∀ (m : StutterModel) (_ : m.Valid) (_ : m.Positive)
    (Mn : ℕ) (_ : m.motif_len_ = (Mn : ℤ)) (N : ℕ),
    ∑ d ∈ Finset.Icc (-(N : ℤ)) (N : ℤ), Real.exp (m.log_pmf_at d)
      = (1 - m.in_up_ - m.in_down_)
        + (m.in_up_ + m.in_down_) * (1 - m.in_geom_ ^ (N / Mn))
        + (m.out_up_ + m.out_down_) * (1 - m.out_geom_ ^ (N - N / Mn)) := by
    intro m hv hp Mn hMn N
    induction N with
    | zero =>
      simp only [Nat.cast_zero, neg_zero, Finset.Icc_self, Finset.sum_singleton, Nat.zero_div,
        pow_zero, sub_self, mul_zero, add_zero, Nat.sub_self]
      exact exp_log_pmf_at_zero m hv
    | succ N ih =>
      have hnot1 : (-((N + 1 : ℕ) : ℤ)) ∉
          insert ((N + 1 : ℕ) : ℤ) (Finset.Icc (-(N : ℤ)) (N : ℤ)) := by
        simp only [Finset.mem_insert, Finset.mem_Icc]
        push_cast
        omega
      have hnot2 : ((N + 1 : ℕ) : ℤ) ∉ Finset.Icc (-(N : ℤ)) (N : ℤ) := by
        simp only [Finset.mem_Icc]
        push_cast
        omega
      rw [Icc_neg_succ, Finset.sum_insert hnot1, Finset.sum_insert hnot2, ih]
      have hle : N / Mn ≤ N := Nat.div_le_self _ _
      by_cases hdvd : Mn ∣ N + 1
      · obtain ⟨hup, hdown⟩ := exp_log_pmf_at_in m hv hp Mn N hMn hdvd
        rw [hup, hdown]
        have hq : (N + 1) / Mn = N / Mn + 1 := by rw [Nat.succ_div, if_pos hdvd]
        have hsub : N + 1 - (N / Mn + 1) = N - N / Mn := by omega
        rw [hq, hsub, pow_succ]
        ring
      · obtain ⟨hup, hdown⟩ := exp_log_pmf_at_out m hv hp Mn N hMn hdvd
        rw [hup, hdown]
        have hq : (N + 1) / Mn = N / Mn := by rw [Nat.succ_div, if_neg hdvd]; rfl
        have hsub : N + 1 - N / Mn = (N - N / Mn) + 1 := by omega
        rw [hq, hsub, pow_succ]
        ring
  have mass_tendsto : ∀ (m : StutterModel) (_ : m.Valid) (_ : m.Positive)
    (_ : 1 ≤ m.motif_len_),
    Tendsto (fun N : ℕ => ∑ d ∈ Finset.Icc (-(N : ℤ)) (N : ℤ), Real.exp (m.log_pmf_at d))
      atTop (𝓝 (if m.motif_len_ = 1 then 1 else 1 + m.out_up_ + m.out_down_)) := by
    intro m hv hp hM
    obtain ⟨Mn, hMn⟩ : ∃ Mn : ℕ, m.motif_len_ = (Mn : ℤ) :=
      ⟨m.motif_len_.toNat, (Int.toNat_of_nonneg (by omega)).symm⟩
    have hMn1 : 1 ≤ Mn := by omega
    have hfun : (fun N : ℕ => ∑ d ∈ Finset.Icc (-(N : ℤ)) (N : ℤ), Real.exp (m.log_pmf_at d))
        = fun N : ℕ => (1 - m.in_up_ - m.in_down_)
          + (m.in_up_ + m.in_down_) * (1 - m.in_geom_ ^ (N / Mn))
          + (m.out_up_ + m.out_down_) * (1 - m.out_geom_ ^ (N - N / Mn)) := by
      funext N
      exact mass_closed_form m hv hp Mn hMn N
    rw [hfun]
    have hin : Tendsto (fun N : ℕ => m.in_geom_ ^ (N / Mn)) atTop (𝓝 0) :=
      (tendsto_pow_atTop_nhds_zero_of_lt_one hv.in_geom_pos.le hp.in_geom_lt).comp
        (Nat.tendsto_div_const_atTop (by omega))
    by_cases h1 : m.motif_len_ = 1
    · rw [if_pos h1]
      have hMn' : Mn = 1 := by omega
      subst hMn'
      simp only [Nat.div_one, Nat.sub_self, pow_zero, sub_self, mul_zero, add_zero]
      have hin' : Tendsto (fun N : ℕ => m.in_geom_ ^ N) atTop (𝓝 0) :=
        tendsto_pow_atTop_nhds_zero_of_lt_one hv.in_geom_pos.le hp.in_geom_lt
      have := (tendsto_const_nhds (x := 1 - m.in_up_ - m.in_down_)).add
        ((tendsto_const_nhds (x := m.in_up_ + m.in_down_)).mul
          ((tendsto_const_nhds (x := (1 : ℝ))).sub hin'))
      simpa using this
    · rw [if_neg h1]
      have hMn2 : 2 ≤ Mn := by omega
      have hidx : Tendsto (fun N : ℕ => N - N / Mn) atTop atTop := by
        refine tendsto_atTop_mono (fun N => ?_) (Nat.tendsto_div_const_atTop (n := 2) (by omega))
        have h2 : N / Mn ≤ N / 2 := Nat.div_le_div_left hMn2 (by omega)
        show N / 2 ≤ N - N / Mn
        omega
      have hout : Tendsto (fun N : ℕ => m.out_geom_ ^ (N - N / Mn)) atTop (𝓝 0) :=
        (tendsto_pow_atTop_nhds_zero_of_lt_one hv.out_geom_pos.le hp.out_geom_lt).comp hidx
      have := ((tendsto_const_nhds (x := 1 - m.in_up_ - m.in_down_)).add
        ((tendsto_const_nhds (x := m.in_up_ + m.in_down_)).mul
          ((tendsto_const_nhds (x := (1 : ℝ))).sub hin))).add
        ((tendsto_const_nhds (x := m.out_up_ + m.out_down_)).mul
          ((tendsto_const_nhds (x := (1 : ℝ))).sub hout))
      have e : 1 - m.in_up_ - m.in_down_ + (m.in_up_ + m.in_down_) * (1 - 0)
          + (m.out_up_ + m.out_down_) * (1 - 0) = 1 + m.out_up_ + m.out_down_ := by ring
      rw [e] at this
      exact this
  exact ⟨exp_log_pmf_at_zero, exp_log_pmf_at_in, exp_log_pmf_at_out, mass_tendsto⟩

/-! ## Claim on the total mass -/

open Filter Topology in
/-- C6, counterexample: for the default model of `init_stutter_model` with motif length
4, which satisfies the invariants of section 3, the sums of `exp(log_pmf)` over the
values `d` of `bp_diff` in `[-N, N]` do not converge to 1. -/
theorem C6_counterexample :
    default_model.Valid ∧ (1 : ℤ) ≤ default_model.motif_len_ ∧
      ¬ Tendsto
        (fun N : ℕ => ∑ d ∈ Finset.Icc (-(N : ℤ)) (N : ℤ), Real.exp (default_model.log_pmf_at d))
        atTop (𝓝 1) := by
  obtain ⟨_, _, _, _, _, _, _, default_model_valid, default_model_positive, _, _⟩ := log_pmf_facts
  obtain ⟨_, _, _, mass_tendsto⟩ := pmf_mass_facts
  refine ⟨default_model_valid, by dsimp only [default_model]; norm_num, fun h => ?_⟩
  have h2 := mass_tendsto default_model default_model_valid default_model_positive
    (by dsimp only [default_model]; norm_num)
  have e := tendsto_nhds_unique h h2
  dsimp only [default_model] at e
  norm_num at e

open Filter Topology in
/-- C6, amended: for a model that satisfies the invariants of section 3, with strictly
positive directional probabilities and geometric parameters strictly below 1, the sum
of `exp(log_pmf)` over the values `d` of `bp_diff` in `[-N, N]` converges, as `N` grows,
to `1 + out_pup + out_pdown` when the motif length is at least 2 and to `1` when it is
1. -/
theorem C6_total_mass_limit (m : StutterModel) (hv : m.Valid) (hp : m.Positive)
    (hM : 1 ≤ m.motif_len_) :
    Tendsto (fun N : ℕ => ∑ d ∈ Finset.Icc (-(N : ℤ)) (N : ℤ), Real.exp (m.log_pmf_at d))
      atTop (𝓝 (if m.motif_len_ = 1 then 1 else 1 + m.out_up_ + m.out_down_)) := by
  obtain ⟨_, _, _, mass_tendsto⟩ := pmf_mass_facts
  exact mass_tendsto m hv hp hM

open Filter Topology in
/-- Witness of the amended C6 at the default model with motif length 4. -/
theorem C6_total_mass_limit_witness :
    default_model.Valid ∧ default_model.Positive ∧ (1 : ℤ) ≤ default_model.motif_len_ ∧
      Tendsto
        (fun N : ℕ => ∑ d ∈ Finset.Icc (-(N : ℤ)) (N : ℤ), Real.exp (default_model.log_pmf_at d))
        atTop
        (𝓝 (if default_model.motif_len_ = 1 then 1
          else 1 + default_model.out_up_ + default_model.out_down_)) := by
  obtain ⟨_, _, _, _, _, _, _, default_model_valid, default_model_positive, _, _⟩ := log_pmf_facts
  exact ⟨default_model_valid, default_model_positive, by dsimp only [default_model]; norm_num,
      C6_total_mass_limit default_model default_model_valid default_model_positive
        (by dsimp only [default_model]; norm_num)⟩

/-! ## Log-sum-exp and the upper tail `log_stutter_geq` -/

open Filter Topology in
open EMStutterGenotyper StutterModel in
/-- Facts on log-sum-exp and on the upper tail, proved one after the other:
`sum_eq_list_sum`, `log_sum_exp_eq`, `exp_log_sum_exp`, `log_sum_exp2_eq`, `hasSum_from_zero`,
`homopolymer_model_valid`, `homopolymer_model_positive`. -/
theorem upper_tail_facts :
    (∀ (l : List ℝ),
      sum l = l.sum) ∧
    (∀ (l : List ℝ) (_ : l ≠ []),
      log_sum_exp l = some (Real.log ((l.map Real.exp).sum))) ∧
    (∀ (l : List ℝ) (_ : l ≠ []),
      ∃ v, log_sum_exp l = some v ∧ Real.exp v = (l.map Real.exp).sum) ∧
    (∀ (x y : ℝ),
      log_sum_exp2 x y = Real.log (Real.exp x + Real.exp y)) ∧
    (∀ (m : StutterModel) (_ : m.Valid) (_ : m.Positive)
      (Mn : ℕ) (_ : m.motif_len_ = (Mn : ℤ)) (_ : 1 ≤ Mn),
      HasSum (fun k : ℕ => Real.exp (m.log_pmf_at (k : ℤ)))
        ((1 - m.in_up_ - m.in_down_) + m.in_up_ + (if Mn = 1 then 0 else m.out_up_))) ∧
    (homopolymer_model.Valid) ∧
    (homopolymer_model.Positive) := by
  obtain ⟨exp_log_pmf_at_zero, exp_log_pmf_at_in, exp_log_pmf_at_out, _⟩ := pmf_mass_facts
  have foldl_add_map : ∀ (f : ℝ → ℝ) (l : List ℝ) (a : ℝ),
    l.foldl (fun total x => total + f x) a = a + (l.map f).sum := by
    intro f l a
    induction l generalizing a with
    | nil => simp
    | cons x xs ih =>
      simp only [List.foldl_cons, List.map_cons, List.sum_cons]
      rw [ih]
      ring
  have sum_eq_list_sum : ∀ (l : List ℝ),
    sum l = l.sum := by
    intro l
    unfold sum
    have h := foldl_add_map (fun x => x) l 0
    simpa using h
  have sum_map_exp_pos : ∀ (l : List ℝ) (_ : l ≠ []),
    0 < (l.map Real.exp).sum := by
    intro l hl
    induction l with
    | nil => exact absurd rfl hl
    | cons x xs ih =>
      simp only [List.map_cons, List.sum_cons]
      by_cases hxs : xs = []
      · subst hxs
        simpa using Real.exp_pos x
      · have := ih hxs
        have := Real.exp_pos x
        linarith
  have sum_map_exp_sub : ∀ (l : List ℝ) (c : ℝ),
    (l.map (fun x => Real.exp (x - c))).sum = Real.exp (-c) * (l.map Real.exp).sum := by
    intro l c
    induction l with
    | nil => simp
    | cons x xs ih =>
      simp only [List.map_cons, List.sum_cons]
      rw [ih, sub_eq_add_neg, Real.exp_add]
      ring
  have log_sum_exp_eq : ∀ (l : List ℝ) (_ : l ≠ []),
    log_sum_exp l = some (Real.log ((l.map Real.exp).sum)) := by
    intro l hl
    obtain ⟨x, xs, rfl⟩ := List.exists_cons_of_ne_nil hl
    unfold log_sum_exp
    dsimp only [max_element]
    simp only [Option.some_bind]
    rw [foldl_add_map, zero_add, sum_map_exp_sub]
    have hpos := sum_map_exp_pos (x :: xs) hl
    rw [Real.log_mul (Real.exp_pos _).ne' hpos.ne', Real.log_exp]
    congr 1
    ring
  have exp_log_sum_exp : ∀ (l : List ℝ) (_ : l ≠ []),
    ∃ v, log_sum_exp l = some v ∧ Real.exp v = (l.map Real.exp).sum := by
    intro l hl
    exact ⟨_, log_sum_exp_eq l hl, Real.exp_log (sum_map_exp_pos l hl)⟩
  have log_sum_exp2_eq : ∀ (x y : ℝ),
    log_sum_exp2 x y = Real.log (Real.exp x + Real.exp y) := by
    intro x y
    unfold log_sum_exp2
    have hx := Real.exp_pos x
    have hy := Real.exp_pos y
    split_ifs
    · have : Real.exp x + Real.exp y = Real.exp x * (1 + Real.exp (y - x)) := by
        rw [Real.exp_sub]
        field_simp
      rw [this, Real.log_mul hx.ne' (by positivity), Real.log_exp]
    · have : Real.exp x + Real.exp y = Real.exp y * (1 + Real.exp (x - y)) := by
        rw [Real.exp_sub]
        field_simp
        ring
      rw [this, Real.log_mul hy.ne' (by positivity), Real.log_exp]
  have exp_log_sum_exp2 : ∀ (x y : ℝ),
    Real.exp (log_sum_exp2 x y) = Real.exp x + Real.exp y := by
    intro x y
    rw [log_sum_exp2_eq, Real.exp_log (by positivity)]
  have tail_partial_sum : ∀ (m : StutterModel) (_ : m.Valid) (_ : m.Positive)
    (Mn : ℕ) (_ : m.motif_len_ = (Mn : ℤ)) (N0 n : ℕ),
    ∑ k ∈ Finset.range n, Real.exp (m.log_pmf_at ((N0 + k + 1 : ℕ) : ℤ))
      = m.in_up_ * (m.in_geom_ ^ (N0 / Mn) - m.in_geom_ ^ ((N0 + n) / Mn))
        + m.out_up_ * (m.out_geom_ ^ (N0 - N0 / Mn)
            - m.out_geom_ ^ ((N0 + n) - (N0 + n) / Mn)) := by
    intro m hv hp Mn hMn N0 n
    induction n with
    | zero => simp
    | succ n ih =>
      rw [Finset.sum_range_succ, ih]
      have hle : (N0 + n) / Mn ≤ N0 + n := Nat.div_le_self _ _
      by_cases hdvd : Mn ∣ N0 + n + 1
      · rw [(exp_log_pmf_at_in m hv hp Mn (N0 + n) hMn hdvd).1]
        have hq : (N0 + (n + 1)) / Mn = (N0 + n) / Mn + 1 := by
          rw [← add_assoc, Nat.succ_div, if_pos hdvd]
        have hsub : N0 + (n + 1) - ((N0 + n) / Mn + 1) = N0 + n - (N0 + n) / Mn := by omega
        rw [hq, hsub, pow_succ]
        ring
      · rw [(exp_log_pmf_at_out m hv hp Mn (N0 + n) hMn hdvd).1]
        have hq : (N0 + (n + 1)) / Mn = (N0 + n) / Mn := by
          rw [← add_assoc, Nat.succ_div, if_neg hdvd]
          rfl
        have hsub : N0 + (n + 1) - (N0 + n) / Mn = (N0 + n - (N0 + n) / Mn) + 1 := by omega
        rw [hq, hsub, pow_succ]
        ring
  have tail_hasSum : ∀ (m : StutterModel) (_ : m.Valid) (_ : m.Positive)
    (Mn : ℕ) (_ : m.motif_len_ = (Mn : ℤ)) (_ : 1 ≤ Mn) (N0 : ℕ),
    HasSum (fun k : ℕ => Real.exp (m.log_pmf_at ((N0 + k + 1 : ℕ) : ℤ)))
      (m.in_up_ * m.in_geom_ ^ (N0 / Mn)
        + (if Mn = 1 then 0 else m.out_up_ * m.out_geom_ ^ (N0 - N0 / Mn))) := by
    intro m hv hp Mn hMn h1 N0
    rw [hasSum_iff_tendsto_nat_of_nonneg (fun k => (Real.exp_pos _).le)]
    have hfun : (fun n : ℕ =>
          ∑ k ∈ Finset.range n, Real.exp (m.log_pmf_at ((N0 + k + 1 : ℕ) : ℤ)))
        = fun n : ℕ => m.in_up_ * (m.in_geom_ ^ (N0 / Mn) - m.in_geom_ ^ ((N0 + n) / Mn))
          + m.out_up_ * (m.out_geom_ ^ (N0 - N0 / Mn)
              - m.out_geom_ ^ ((N0 + n) - (N0 + n) / Mn)) := by
      funext n
      exact tail_partial_sum m hv hp Mn hMn N0 n
    rw [hfun]
    have hidx1 : Tendsto (fun n : ℕ => (N0 + n) / Mn) atTop atTop := by
      refine tendsto_atTop_mono (fun n => ?_) (Nat.tendsto_div_const_atTop (n := Mn) (by omega))
      exact Nat.div_le_div_right (by omega)
    have hin : Tendsto (fun n : ℕ => m.in_geom_ ^ ((N0 + n) / Mn)) atTop (𝓝 0) :=
      (tendsto_pow_atTop_nhds_zero_of_lt_one hv.in_geom_pos.le hp.in_geom_lt).comp hidx1
    have hinpart := (tendsto_const_nhds (x := m.in_up_)).mul
      ((tendsto_const_nhds (x := m.in_geom_ ^ (N0 / Mn))).sub hin)
    by_cases hone : Mn = 1
    · subst hone
      rw [if_pos rfl]
      simp only [Nat.div_one, Nat.sub_self, pow_zero, sub_self, mul_zero, add_zero]
      simp only [Nat.div_one, sub_zero] at hinpart
      exact hinpart
    · rw [if_neg hone]
      have hMn2 : 2 ≤ Mn := by omega
      have hidx : Tendsto (fun n : ℕ => (N0 + n) - (N0 + n) / Mn) atTop atTop := by
        refine tendsto_atTop_mono (fun n => ?_) (Nat.tendsto_div_const_atTop (n := 2) (by omega))
        have h2 : (N0 + n) / Mn ≤ (N0 + n) / 2 := Nat.div_le_div_left hMn2 (by omega)
        show n / 2 ≤ (N0 + n) - (N0 + n) / Mn
        omega
      have hout : Tendsto (fun n : ℕ => m.out_geom_ ^ ((N0 + n) - (N0 + n) / Mn)) atTop (𝓝 0) :=
        (tendsto_pow_atTop_nhds_zero_of_lt_one hv.out_geom_pos.le hp.out_geom_lt).comp hidx
      have := hinpart.add ((tendsto_const_nhds (x := m.out_up_)).mul
        ((tendsto_const_nhds (x := m.out_geom_ ^ (N0 - N0 / Mn))).sub hout))
      simp only [sub_zero] at this
      exact this
  have hasSum_from_zero : ∀ (m : StutterModel) (_ : m.Valid) (_ : m.Positive)
    (Mn : ℕ) (_ : m.motif_len_ = (Mn : ℤ)) (_ : 1 ≤ Mn),
    HasSum (fun k : ℕ => Real.exp (m.log_pmf_at (k : ℤ)))
      ((1 - m.in_up_ - m.in_down_) + m.in_up_ + (if Mn = 1 then 0 else m.out_up_)) := by
    intro m hv hp Mn hMn h1
    refine (hasSum_nat_add_iff' 1).1 ?_
    have h := tail_hasSum m hv hp Mn hMn h1 0
    simp only [Nat.zero_div, pow_zero, mul_one, Nat.sub_self, zero_add] at h
    have e : (1 - m.in_up_ - m.in_down_) + m.in_up_ + (if Mn = 1 then 0 else m.out_up_)
        - ∑ i ∈ Finset.range 1, Real.exp (m.log_pmf_at (i : ℤ))
        = m.in_up_ + (if Mn = 1 then 0 else m.out_up_) := by
      rw [Finset.sum_range_one]
      simp only [Nat.cast_zero]
      rw [exp_log_pmf_at_zero m hv]
      ring
    rw [e]
    exact h
  have homopolymer_model_valid : homopolymer_model.Valid := by
    constructor <;> (dsimp only [homopolymer_model]; norm_num)
  have homopolymer_model_positive : homopolymer_model.Positive := by
    constructor <;> (dsimp only [homopolymer_model]; norm_num)
  exact ⟨sum_eq_list_sum, log_sum_exp_eq, exp_log_sum_exp, log_sum_exp2_eq, hasSum_from_zero, homopolymer_model_valid, homopolymer_model_positive⟩

/-- C7, the code at a failing input: for the default parameters with motif length 1 (a
valid model), a sample of 20 bp and reads of at least 20 bp, `log_stutter_geq` returns a
value whose exponential is `73/80`: the in-frame terms `0.8` and `0.1`, and the
out-of-frame term `0.01 * 0.8^(-1)` that line 82 adds through `log_geom_geq` with
`eff_diff = 0`.  With motif length 1 every difference is in-frame:
`log_stutter_pmf(20, 20 + k)` is the in-frame value of `bp_diff = k` for every read
length that fits an `int`, these values add up to `9/10` over all `k >= 0`, and no
partial sum exceeds `9/10`. -/
theorem C7_log_stutter_geq_evaluation :
    homopolymer_model.Valid ∧ (1 : ℤ) ≤ homopolymer_model.motif_len_ ∧
      (∃ v, homopolymer_model.log_stutter_geq 20 20 = some v ∧ Real.exp v = 73 / 80) ∧
      (∀ k : ℕ, (20 : ℤ) + (k : ℤ) ≤ 2147483647 →
        homopolymer_model.log_stutter_pmf 20 (20 + (k : ℤ))
          = some (homopolymer_model.log_pmf_at (k : ℤ))) ∧
      HasSum (fun k : ℕ => Real.exp (homopolymer_model.log_pmf_at (k : ℤ))) (9 / 10) ∧
      ∀ n : ℕ,
        ∑ k ∈ Finset.range n, Real.exp (homopolymer_model.log_pmf_at (k : ℤ)) ≤ 9 / 10 := by
  obtain ⟨_, _, _, _, log_pmf_eq_log_pmf_at, _, _, _, _, log_stutter_pmf_eq_some, _⟩ :=
    log_pmf_facts
  obtain ⟨_, _, exp_log_sum_exp, _, hasSum_from_zero, homopolymer_model_valid,
    homopolymer_model_positive⟩ := upper_tail_facts
  have hM : (1 : ℤ) ≤ homopolymer_model.motif_len_ := by
    dsimp only [homopolymer_model]
    norm_num
  have hsum : HasSum (fun k : ℕ => Real.exp (homopolymer_model.log_pmf_at (k : ℤ)))
      (9 / 10) := by
    have h := hasSum_from_zero homopolymer_model homopolymer_model_valid
      homopolymer_model_positive 1 (by dsimp only [homopolymer_model]; norm_num) le_rfl
    rw [if_pos rfl] at h
    have e : (1 - homopolymer_model.in_up_ - homopolymer_model.in_down_)
        + homopolymer_model.in_up_ + 0 = (9 / 10 : ℝ) := by
      dsimp only [homopolymer_model]
      norm_num
    rw [e] at h
    exact h
  have hw0 : wrap_int (20 - 20) = 0 := by decide
  have hw1 : wrap_int (0 + 1) = 1 := by decide
  have hlist : homopolymer_model.log_stutter_geq 20 20
      = log_sum_exp [Real.log (1 - 0.1 - 0.1), Real.log 0.1,
          Real.log 0.01 + log_geom_geq 0.8 0] := by
    unfold StutterModel.log_stutter_geq
    dsimp only [homopolymer_model, StutterModel.log_equal_, StutterModel.in_log_up_,
      StutterModel.out_log_up_]
    rw [hw0]
    simp [hw1]
  obtain ⟨v, hv1, hv2⟩ := exp_log_sum_exp
    [Real.log (1 - 0.1 - 0.1), Real.log 0.1, Real.log 0.01 + log_geom_geq 0.8 0] (by simp)
  have hval : Real.exp v = 73 / 80 := by
    rw [hv2]
    dsimp only [log_geom_geq]
    simp only [List.map_cons, List.map_nil, List.sum_cons, List.sum_nil, add_zero]
    rw [Real.exp_add, Real.exp_log (by norm_num), Real.exp_log (by norm_num),
      Real.exp_log (by norm_num)]
    have : Real.exp (((0 - 1 : ℤ) : ℝ) * Real.log 0.8) = (0.8 : ℝ)⁻¹ := by
      have e : ((0 - 1 : ℤ) : ℝ) * Real.log 0.8 = -Real.log 0.8 := by
        push_cast
        ring
      rw [e, Real.exp_neg, Real.exp_log (by norm_num)]
    rw [this]
    norm_num
  refine ⟨homopolymer_model_valid, hM, ⟨v, hlist.trans hv1, hval⟩, ?_, hsum, ?_⟩
  · intro k hk
    rw [log_stutter_pmf_eq_some homopolymer_model homopolymer_model_valid hM,
      log_pmf_eq_log_pmf_at homopolymer_model 20 (20 + (k : ℤ)) (by omega) (by omega),
      add_sub_cancel_left]
  · intro n
    exact sum_le_hasSum (Finset.range n) (fun k _ => (Real.exp_pos _).le) hsum

/-! ## Loops and arrays -/

theorem forRange_succ {σ : Type} (n : ℕ) (body : ℕ → σ → Option σ) (s : σ) :
    forRange (n + 1) body s = (forRange n body s).bind (body n) := rfl

theorem forRange_zero {σ : Type} (body : ℕ → σ → Option σ) (s : σ) :
    forRange 0 body s = some s := rfl

/-! ## The read phase posteriors -/

theorem getElem?_eq_some_getD {α : Type} (l : List α) (i : ℕ) (d : α) (h : i < l.length) :
    l[i]? = some (l.getD i d) := by
  rw [List.getD_eq_getElem?_getD, List.getElem?_eq_getElem h]
  rfl

theorem getD_mem {α : Type} (l : List α) (i : ℕ) (d : α) (h : i < l.length) :
    l.getD i d ∈ l := by
  rw [List.getD_eq_getElem?_getD, List.getElem?_eq_getElem h]
  exact List.getElem_mem h

open EMStutterGenotyper StutterModel in
/-- Facts on the read phase posteriors, proved one after the other:
`write_eq_some`, `set_eq_take_append`, `length_flatMap_range`, `getElem?_flatMap_range`,
`read_phase_LLs_eq`, `phase_tensor_getElem?`, `exp_sub_log_add`,
`recalc_log_read_phase_posteriors_eq`, `single_read_state_wellFormed`,
`equal_phase_state_wellFormed`. -/
theorem read_phase_facts :
    (∀ {buf : List ℝ} {i : ℕ} (_ : i < buf.length) (v : ℝ),
      write buf i v = some (buf.set i v)) ∧
    (∀ (buf : List ℝ) (p : ℕ) (v : ℝ) (_ : p < buf.length),
      buf.set p v = buf.take p ++ [v] ++ buf.drop (p + 1)) ∧
    (∀ (n w : ℕ) (emit : ℕ → List ℝ)
      (_ : ∀ i, i < n → (emit i).length = w),
      ((List.range n).flatMap emit).length = n * w) ∧
    (∀ (n w : ℕ) (emit : ℕ → List ℝ)
      (_ : ∀ i, i < n → (emit i).length = w) (i j : ℕ) (_ : i < n) (_ : j < w),
      ((List.range n).flatMap emit)[i * w + j]? = (emit i)[j]?) ∧
    (∀ (g : EMStutterGenotyper) (sm : StutterModel)
      (_ : g.WellFormed) (_ : sm.Valid) (_ : 1 ≤ sm.motif_len_) (a b r : ℕ)
      (_ : r < g.num_reads_),
      g.read_phase_LLs sm (g.bps_per_allele_.getD a 0) (g.bps_per_allele_.getD b 0) r
        = some (g.phase_one_spec sm a r, g.phase_two_spec sm b r)) ∧
    (∀ (g : EMStutterGenotyper) (sm : StutterModel)
      (a b r ph : ℕ) (_ : a < g.num_alleles_) (_ : b < g.num_alleles_) (_ : r < g.num_reads_)
      (_ : ph < 2),
      ((List.range g.num_alleles_).flatMap fun a =>
          (List.range g.num_alleles_).flatMap fun b =>
            (List.range g.num_reads_).flatMap (g.phase_posteriors_spec sm a b))[
          2 * g.num_reads_ * (a * g.num_alleles_ + b) + 2 * r + ph]?
        = (g.phase_posteriors_spec sm a b r)[ph]?) ∧
    (∀ (u v : ℝ),
      Real.exp (u - Real.log (Real.exp u + Real.exp v))
        + Real.exp (v - Real.log (Real.exp u + Real.exp v)) = 1) ∧
    (∀ (g : EMStutterGenotyper)
      (sm : StutterModel) (_ : g.WellFormed) (_ : g.stutter_model_ = some sm) (_ : sm.Valid)
      (_ : 1 ≤ sm.motif_len_),
      g.recalc_log_read_phase_posteriors
        = some { g with log_read_phase_posteriors_ :=
            (List.range g.num_alleles_).flatMap fun a =>
              (List.range g.num_alleles_).flatMap fun b =>
                (List.range g.num_reads_).flatMap (g.phase_posteriors_spec sm a b) }) ∧
    (single_read_state.WellFormed) ∧
    (equal_phase_state.WellFormed) := by
  obtain ⟨_, _, _, _, _, _, _, _, _, log_stutter_pmf_eq_some, _⟩ := log_pmf_facts
  obtain ⟨_, _, _, log_sum_exp2_eq, _, _, _⟩ := upper_tail_facts
  have write_eq_some : ∀ {buf : List ℝ} {i : ℕ} (_ : i < buf.length) (v : ℝ),
    write buf i v = some (buf.set i v) := by
    intro buf i h v
    unfold write
    rw [if_pos h]
  have write_eq_none : ∀ {buf : List ℝ} {i : ℕ} (_ : buf.length ≤ i) (v : ℝ),
    write buf i v = none := by
    intro buf i h v
    unfold write
    rw [if_neg (by omega)]
  have set_eq_take_append : ∀ (buf : List ℝ) (p : ℕ) (v : ℝ) (_ : p < buf.length),
    buf.set p v = buf.take p ++ [v] ++ buf.drop (p + 1) := by
    intro buf p v h
    rw [List.set_eq_take_append_cons_drop, if_pos h]
    simp
  have take_append_drop_length : ∀ (pre blk post : List ℝ),
    (pre ++ blk ++ post).take (pre.length + blk.length) = pre ++ blk ∧
      (pre ++ blk ++ post).drop (pre.length + blk.length) = post := by
    intro pre blk post
    have h : (pre ++ blk).length = pre.length + blk.length := List.length_append _ _
    constructor
    · rw [← h, List.take_left']
      rfl
    · rw [← h, List.drop_left']
      rfl
  -- A loop whose iteration `i` overwrites the `w` cells at the pointer with the block
  -- `emit i` and advances the pointer by `w` writes the concatenation of the blocks.
  have forRange_blocks : ∀ (n w : ℕ) (body : ℕ → List ℝ × ℕ → Option (List ℝ × ℕ))
    (emit : ℕ → List ℝ) (_ : ∀ i, i < n → (emit i).length = w)
    (_ : ∀ i, i < n → ∀ (buf : List ℝ) (p : ℕ), p + w ≤ buf.length →
      body i (buf, p) = some (buf.take p ++ emit i ++ buf.drop (p + w), p + w))
    (buf : List ℝ) (p : ℕ) (_ : p + n * w ≤ buf.length),
    ((List.range n).flatMap emit).length = n * w ∧
      forRange n body (buf, p)
        = some (buf.take p ++ (List.range n).flatMap emit ++ buf.drop (p + n * w), p + n * w) := by
    intro n w body emit hlen hbody buf p hp
    induction n with
    | zero =>
      simp [forRange_zero]
    | succ n ih =>
      have hp' : p + n * w ≤ buf.length := by
        have : n * w ≤ (n + 1) * w := Nat.mul_le_mul_right _ (by omega)
        omega
      obtain ⟨hl, hrun⟩ := ih (fun i hi => hlen i (by omega)) (fun i hi => hbody i (by omega)) hp'
      have hmul : (n + 1) * w = n * w + w := by ring
      have hl' : ((List.range (n + 1)).flatMap emit).length = (n + 1) * w := by
        rw [List.range_succ, List.flatMap_append, List.length_append, hl]
        simp [hlen n (by omega), hmul]
      refine ⟨hl', ?_⟩
      rw [forRange_succ, hrun, Option.some_bind]
      have htl : (buf.take p).length = p := by
        rw [List.length_take]
        omega
      have hlen_new : (buf.take p ++ (List.range n).flatMap emit ++ buf.drop (p + n * w)).length
          = buf.length := by
        simp only [List.length_append, htl, hl, List.length_drop]
        omega
      rw [hbody n (by omega) _ _ (by rw [hlen_new]; omega)]
      congr 1
      have hpre : (buf.take p ++ (List.range n).flatMap emit).length = p + n * w := by
        rw [List.length_append, htl, hl]
      have e1 : (buf.take p ++ (List.range n).flatMap emit ++ buf.drop (p + n * w)).take (p + n * w)
          = buf.take p ++ (List.range n).flatMap emit := by
        rw [← hpre, List.take_left']
        rfl
      have e2 : (buf.take p ++ (List.range n).flatMap emit ++ buf.drop (p + n * w)).drop
          (p + n * w + w) = buf.drop (p + (n + 1) * w) := by
        rw [← List.drop_drop, ← hpre, List.drop_left' rfl, List.drop_drop, hpre]
        congr 1
        ring
      rw [e1, e2, List.range_succ, List.flatMap_append]
      simp [hmul, add_assoc]
  have length_flatMap_range : ∀ (n w : ℕ) (emit : ℕ → List ℝ)
    (_ : ∀ i, i < n → (emit i).length = w),
    ((List.range n).flatMap emit).length = n * w := by
    intro n w emit hlen
    induction n with
    | zero => simp
    | succ k ihk =>
      rw [List.range_succ, List.flatMap_append, List.length_append,
        ihk (fun i hi => hlen i (by omega))]
      simp [hlen k (by omega)]
      ring
  have getElem?_flatMap_range : ∀ (n w : ℕ) (emit : ℕ → List ℝ)
    (_ : ∀ i, i < n → (emit i).length = w) (i j : ℕ) (_ : i < n) (_ : j < w),
    ((List.range n).flatMap emit)[i * w + j]? = (emit i)[j]? := by
    intro n w emit hlen i j hi hj
    induction n with
    | zero => omega
    | succ n ih =>
      have hl : ((List.range n).flatMap emit).length = n * w :=
        length_flatMap_range n w emit (fun i hi => hlen i (by omega))
      rw [List.range_succ, List.flatMap_append]
      rcases Nat.lt_or_ge i n with hlt | hge
      · have hidx : i * w + j < n * w := by
          have : (i + 1) * w ≤ n * w := Nat.mul_le_mul_right _ (by omega)
          have e : (i + 1) * w = i * w + w := by ring
          omega
        rw [List.getElem?_append_left (by rw [hl]; exact hidx)]
        exact ih (fun i hi => hlen i (by omega)) hlt
      · have hin : i = n := by omega
        subst hin
        rw [List.getElem?_append_right (by rw [hl]; omega), hl]
        simp
  have set_set_eq_take_append : ∀ (buf : List ℝ) (p : ℕ) (x y : ℝ) (_ : p + 2 ≤ buf.length),
    (buf.set p x).set (p + 1) y = buf.take p ++ [x, y] ++ buf.drop (p + 2) := by
    intro buf p x y h
    apply List.ext_getElem?
    intro i
    have htl : (buf.take p).length = p := by
      rw [List.length_take]
      omega
    rcases Nat.lt_trichotomy i p with hlt | heq | hgt
    · rw [List.getElem?_set_ne (by omega), List.getElem?_set_ne (by omega), List.append_assoc,
        List.getElem?_append_left (by omega), List.getElem?_take_of_lt hlt]
    · subst heq
      rw [List.getElem?_set_ne (by omega), List.getElem?_set_eq_of_lt _ (by omega),
        List.append_assoc, List.getElem?_append_right (by omega), htl]
      simp
    · rcases Nat.eq_or_lt_of_le (Nat.succ_le_of_lt hgt) with h1 | h1
      · have hi : i = p + 1 := by omega
        subst hi
        rw [List.getElem?_set_eq_of_lt _ (by rw [List.length_set]; omega), List.append_assoc,
          List.getElem?_append_right (by omega), htl]
        simp
      · rw [List.getElem?_set_ne (by omega), List.getElem?_set_ne (by omega),
          List.getElem?_append_right (by simp [htl]; omega)]
        simp only [List.length_append, htl, List.length_cons, List.length_nil]
        rw [List.getElem?_drop]
        congr 1
        omega
  have read_phase_LLs_eq : ∀ (g : EMStutterGenotyper) (sm : StutterModel)
    (_ : g.WellFormed) (_ : sm.Valid) (_ : 1 ≤ sm.motif_len_) (a b r : ℕ)
    (_ : r < g.num_reads_),
    g.read_phase_LLs sm (g.bps_per_allele_.getD a 0) (g.bps_per_allele_.getD b 0) r
      = some (g.phase_one_spec sm a r, g.phase_two_spec sm b r) := by
    intro g sm hwf hv hM a b r hr
    have h1 : g.log_p1_[r]? = some (g.log_p1_.getD r 0) :=
      getElem?_eq_some_getD _ _ _ (by rw [hwf.log_p1_length]; exact hr)
    have h2 : g.log_p2_[r]? = some (g.log_p2_.getD r 0) :=
      getElem?_eq_some_getD _ _ _ (by rw [hwf.log_p2_length]; exact hr)
    have h3 : g.allele_index_[r]? = some (g.allele_index_.getD r 0) :=
      getElem?_eq_some_getD _ _ _ (by rw [hwf.allele_index_length]; exact hr)
    have hai : g.allele_index_.getD r 0 < g.num_alleles_ :=
      hwf.allele_index_lt _ (getD_mem _ _ _ (by rw [hwf.allele_index_length]; exact hr))
    have h4 : g.bps_per_allele_[g.allele_index_.getD r 0]?
        = some (g.bps_per_allele_.getD (g.allele_index_.getD r 0) 0) :=
      getElem?_eq_some_getD _ _ _ (by rw [hwf.bps_length]; exact hai)
    unfold EMStutterGenotyper.read_phase_LLs EMStutterGenotyper.phase_one_spec
      EMStutterGenotyper.phase_two_spec
    simp only [h1, h2, h3, h4, log_stutter_pmf_eq_some sm hv hM, Option.bind_eq_bind,
      Option.some_bind]
  have read_phase_step_eq : ∀ (g : EMStutterGenotyper) (sm : StutterModel)
    (_ : g.WellFormed) (_ : sm.Valid) (_ : 1 ≤ sm.motif_len_) (a b r : ℕ)
    (_ : r < g.num_reads_) (buf : List ℝ) (p : ℕ) (_ : p + 2 ≤ buf.length),
    g.read_phase_step sm (g.bps_per_allele_.getD a 0) (g.bps_per_allele_.getD b 0) r (buf, p)
      = some (buf.take p
          ++ [g.phase_one_spec sm a r
                - log_sum_exp2 (g.phase_one_spec sm a r) (g.phase_two_spec sm b r),
              g.phase_two_spec sm b r
                - log_sum_exp2 (g.phase_one_spec sm a r) (g.phase_two_spec sm b r)]
          ++ buf.drop (p + 2), p + 2) := by
    intro g sm hwf hv hM a b r hr buf p hp
    unfold EMStutterGenotyper.read_phase_step
    simp only [read_phase_LLs_eq g sm hwf hv hM a b r hr, Option.bind_eq_bind, Option.some_bind]
    rw [write_eq_some (by omega : p < buf.length), Option.some_bind,
      write_eq_some (by rw [List.length_set]; omega), Option.some_bind,
      set_set_eq_take_append buf p _ _ hp]
  have phase_read_loop : ∀ (g : EMStutterGenotyper) (sm : StutterModel)
    (_ : g.WellFormed) (_ : sm.Valid) (_ : 1 ≤ sm.motif_len_) (a b : ℕ)
    (buf : List ℝ) (p : ℕ) (_ : p + g.num_reads_ * 2 ≤ buf.length),
    ((List.range g.num_reads_).flatMap (g.phase_posteriors_spec sm a b)).length
        = g.num_reads_ * 2 ∧
      forRange g.num_reads_
        (g.read_phase_step sm (g.bps_per_allele_.getD a 0) (g.bps_per_allele_.getD b 0)) (buf, p)
      = some (buf.take p ++ (List.range g.num_reads_).flatMap (g.phase_posteriors_spec sm a b)
          ++ buf.drop (p + g.num_reads_ * 2), p + g.num_reads_ * 2) := by
    intro g sm hwf hv hM a b buf p hp
    refine forRange_blocks g.num_reads_ 2 _ (g.phase_posteriors_spec sm a b) (fun i _ => rfl) ?_
      buf p hp
    intro r hr buf' p' hp'
    rw [read_phase_step_eq g sm hwf hv hM a b r hr buf' p' hp']
    dsimp only [EMStutterGenotyper.phase_posteriors_spec]
    simp only [log_sum_exp2_eq]
  have phase_allele2_loop : ∀ (g : EMStutterGenotyper) (sm : StutterModel)
    (_ : g.WellFormed) (_ : sm.Valid) (_ : 1 ≤ sm.motif_len_) (a : ℕ)
    (buf : List ℝ) (p : ℕ) (_ : p + g.num_alleles_ * (g.num_reads_ * 2) ≤ buf.length),
    ((List.range g.num_alleles_).flatMap fun b =>
        (List.range g.num_reads_).flatMap (g.phase_posteriors_spec sm a b)).length
        = g.num_alleles_ * (g.num_reads_ * 2) ∧
      forRange g.num_alleles_
        (fun index_2 st => do
          let len_2 ← g.bps_per_allele_[index_2]?
          forRange g.num_reads_ (g.read_phase_step sm (g.bps_per_allele_.getD a 0) len_2) st)
        (buf, p)
      = some (buf.take p
          ++ ((List.range g.num_alleles_).flatMap fun b =>
              (List.range g.num_reads_).flatMap (g.phase_posteriors_spec sm a b))
          ++ buf.drop (p + g.num_alleles_ * (g.num_reads_ * 2)),
          p + g.num_alleles_ * (g.num_reads_ * 2)) := by
    intro g sm hwf hv hM a buf p hp
    refine forRange_blocks g.num_alleles_ (g.num_reads_ * 2) _
      (fun b => (List.range g.num_reads_).flatMap (g.phase_posteriors_spec sm a b))
      (fun b _ => length_flatMap_range _ 2 _ (fun i _ => rfl)) ?_ buf p hp
    intro b hb buf' p' hp'
    have hb' : g.bps_per_allele_[b]? = some (g.bps_per_allele_.getD b 0) :=
      getElem?_eq_some_getD _ _ _ (by rw [hwf.bps_length]; exact hb)
    simp only [hb', Option.bind_eq_bind, Option.some_bind]
    exact (phase_read_loop g sm hwf hv hM a b buf' p' hp').2
  have phase_allele1_loop : ∀ (g : EMStutterGenotyper) (sm : StutterModel)
    (_ : g.WellFormed) (_ : sm.Valid) (_ : 1 ≤ sm.motif_len_)
    (buf : List ℝ) (p : ℕ)
    (_ : p + g.num_alleles_ * (g.num_alleles_ * (g.num_reads_ * 2)) ≤ buf.length),
    forRange g.num_alleles_
        (fun index_1 st => do
          let len_1 ← g.bps_per_allele_[index_1]?
          forRange g.num_alleles_
            (fun index_2 st => do
              let len_2 ← g.bps_per_allele_[index_2]?
              forRange g.num_reads_ (g.read_phase_step sm len_1 len_2) st) st)
        (buf, p)
      = some (buf.take p
          ++ ((List.range g.num_alleles_).flatMap fun a =>
              (List.range g.num_alleles_).flatMap fun b =>
                (List.range g.num_reads_).flatMap (g.phase_posteriors_spec sm a b))
          ++ buf.drop (p + g.num_alleles_ * (g.num_alleles_ * (g.num_reads_ * 2))),
          p + g.num_alleles_ * (g.num_alleles_ * (g.num_reads_ * 2))) := by
    intro g sm hwf hv hM buf p hp
    refine (forRange_blocks g.num_alleles_ (g.num_alleles_ * (g.num_reads_ * 2)) _
      (fun a => (List.range g.num_alleles_).flatMap fun b =>
        (List.range g.num_reads_).flatMap (g.phase_posteriors_spec sm a b))
      (fun a _ => length_flatMap_range _ (g.num_reads_ * 2) _
        (fun b _ => length_flatMap_range _ 2 _ (fun i _ => rfl))) ?_ buf p hp).2
    intro a ha buf' p' hp'
    have ha' : g.bps_per_allele_[a]? = some (g.bps_per_allele_.getD a 0) :=
      getElem?_eq_some_getD _ _ _ (by rw [hwf.bps_length]; exact ha)
    simp only [ha', Option.bind_eq_bind, Option.some_bind]
    exact (phase_allele2_loop g sm hwf hv hM a buf' p' hp').2
  have phase_tensor_getElem? : ∀ (g : EMStutterGenotyper) (sm : StutterModel)
    (a b r ph : ℕ) (_ : a < g.num_alleles_) (_ : b < g.num_alleles_) (_ : r < g.num_reads_)
    (_ : ph < 2),
    ((List.range g.num_alleles_).flatMap fun a =>
        (List.range g.num_alleles_).flatMap fun b =>
          (List.range g.num_reads_).flatMap (g.phase_posteriors_spec sm a b))[
        2 * g.num_reads_ * (a * g.num_alleles_ + b) + 2 * r + ph]?
      = (g.phase_posteriors_spec sm a b r)[ph]? := by
    intro g sm a b r ph ha hb hr hph
    have e : 2 * g.num_reads_ * (a * g.num_alleles_ + b) + 2 * r + ph
        = a * (g.num_alleles_ * (g.num_reads_ * 2)) + (b * (g.num_reads_ * 2) + (r * 2 + ph)) := by
      ring
    have h1 : r * 2 + ph < g.num_reads_ * 2 := by omega
    have h2 : b * (g.num_reads_ * 2) + (r * 2 + ph) < g.num_alleles_ * (g.num_reads_ * 2) := by
      have : (b + 1) * (g.num_reads_ * 2) ≤ g.num_alleles_ * (g.num_reads_ * 2) :=
        Nat.mul_le_mul_right _ (by omega)
      have e' : (b + 1) * (g.num_reads_ * 2) = b * (g.num_reads_ * 2) + g.num_reads_ * 2 := by ring
      omega
    rw [e, getElem?_flatMap_range g.num_alleles_ (g.num_alleles_ * (g.num_reads_ * 2))
        (fun a => (List.range g.num_alleles_).flatMap fun b =>
          (List.range g.num_reads_).flatMap (g.phase_posteriors_spec sm a b))
        (fun a _ => length_flatMap_range _ (g.num_reads_ * 2) _
          (fun b _ => length_flatMap_range _ 2 (g.phase_posteriors_spec sm a b) (fun i _ => rfl)))
        a _ ha h2,
      getElem?_flatMap_range g.num_alleles_ (g.num_reads_ * 2)
        (fun b => (List.range g.num_reads_).flatMap (g.phase_posteriors_spec sm a b))
        (fun b _ => length_flatMap_range _ 2 (g.phase_posteriors_spec sm a b) (fun i _ => rfl))
        b _ hb h1,
      getElem?_flatMap_range g.num_reads_ 2 (g.phase_posteriors_spec sm a b) (fun i _ => rfl)
        r ph hr hph]
  have exp_sub_log_add : ∀ (u v : ℝ),
    Real.exp (u - Real.log (Real.exp u + Real.exp v))
      + Real.exp (v - Real.log (Real.exp u + Real.exp v)) = 1 := by
    intro u v
    have hpos : 0 < Real.exp u + Real.exp v := by positivity
    rw [Real.exp_sub, Real.exp_sub, Real.exp_log hpos]
    field_simp
  have recalc_log_read_phase_posteriors_eq : ∀ (g : EMStutterGenotyper)
    (sm : StutterModel) (_ : g.WellFormed) (_ : g.stutter_model_ = some sm) (_ : sm.Valid)
    (_ : 1 ≤ sm.motif_len_),
    g.recalc_log_read_phase_posteriors
      = some { g with log_read_phase_posteriors_ :=
          (List.range g.num_alleles_).flatMap fun a =>
            (List.range g.num_alleles_).flatMap fun b =>
              (List.range g.num_reads_).flatMap (g.phase_posteriors_spec sm a b) } := by
    intro g sm hwf hsm hv hM
    have hlen : 0 + g.num_alleles_ * (g.num_alleles_ * (g.num_reads_ * 2))
        = g.log_read_phase_posteriors_.length := by
      rw [hwf.phase_length]
      ring
    have hloop := phase_allele1_loop g sm hwf hv hM g.log_read_phase_posteriors_ 0 hlen.le
    unfold EMStutterGenotyper.recalc_log_read_phase_posteriors
    rw [hsm]
    simp only [Option.bind_eq_bind, Option.some_bind] at hloop ⊢
    rw [hloop]
    simp only [Option.some_bind, hlen, List.take_zero, List.nil_append, List.drop_length,
      List.append_nil]
  have single_read_state_wellFormed : single_read_state.WellFormed := by
    constructor <;> (dsimp only [single_read_state]; simp)
  have equal_phase_state_wellFormed : equal_phase_state.WellFormed := by
    refine ⟨?_, ?_, ?_, ?_, ?_, ?_, ?_, ?_, ?_, ?_, ?_, ?_, ?_, ?_⟩
    · decide
    · decide
    · exact rfl
    · exact rfl
    · exact rfl
    · exact rfl
    · exact rfl
    · exact rfl
    · exact rfl
    · exact rfl
    · exact rfl
    · dsimp only [equal_phase_state]; simp
    · dsimp only [equal_phase_state]; simp
    · intro s hs
      have hs0 : s = 0 := by
        have : s < 1 := hs
        omega
      subst hs0
      dsimp only [equal_phase_state]
      simp
  exact ⟨write_eq_some, set_eq_take_append, length_flatMap_range, getElem?_flatMap_range, read_phase_LLs_eq, phase_tensor_getElem?, exp_sub_log_add, recalc_log_read_phase_posteriors_eq, single_read_state_wellFormed, equal_phase_state_wellFormed⟩

theorem take_left_eq {α : Type} (pre post : List α) (k : ℕ) (h : pre.length = k) :
    (pre ++ post).take k = pre := by
  subst h
  exact List.take_left' rfl

theorem drop_left_eq {α : Type} (pre post : List α) (k : ℕ) (h : pre.length = k) :
    (pre ++ post).drop k = post := by
  subst h
  exact List.drop_left' rfl

theorem map_eq_map_range_getD {α : Type} (l : List ℕ) (f : ℕ → α) :
    l.map f = (List.range l.length).map (fun i => f (l.getD i 0)) := by
  apply List.ext_getElem?
  intro i
  rcases Nat.lt_or_ge i l.length with h | h
  · rw [List.getElem?_map, List.getElem?_map, getElem?_eq_some_getD l i 0 h,
      List.getElem?_range h]
    rfl
  · rw [List.getElem?_eq_none (by simpa using h), List.getElem?_eq_none (by simpa using h)]

open EMStutterGenotyper StutterModel in
/-- Facts on the initialisation of the priors, proved one after the other:
`fill_eq`, `sum_prior_weights`, `prior_weight_spec_pos`, `init_log_gt_priors_eq`. -/
theorem prior_init_facts :
    (∀ (buf : List ℝ) (start n : ℕ) (v : ℝ) (_ : start + n ≤ buf.length),
      fill buf start n v
        = some (buf.take start ++ List.replicate n v ++ buf.drop (start + n))) ∧
    (∀ (g : EMStutterGenotyper) (_ : g.WellFormed),
      ∑ a ∈ Finset.range g.num_alleles_, g.prior_weight_spec g.num_reads_ a
        = (g.num_alleles_ : ℝ)
          + (((Finset.range g.num_samples_).filter (fun s => s ∈ g.sample_label_)).card : ℝ)) ∧
    (∀ (g : EMStutterGenotyper) (k a : ℕ),
      0 < g.prior_weight_spec k a) ∧
    (∀ (g : EMStutterGenotyper) (_ : g.WellFormed),
      g.init_log_gt_priors
        = some { g with log_gt_priors_ :=
            (List.range g.num_alleles_).map (fun a =>
              Real.log (g.prior_weight_spec g.num_reads_ a)
                - Real.log ((g.num_alleles_ : ℝ)
                  + (((Finset.range g.num_samples_).filter
                      (fun s => s ∈ g.sample_label_)).card : ℝ))) }) := by
  obtain ⟨sum_eq_list_sum, _, _, _, _, _, _⟩ := upper_tail_facts
  obtain ⟨write_eq_some, set_eq_take_append, _, _, _, _, _, _, _, _⟩ := read_phase_facts
  have fill_eq : ∀ (buf : List ℝ) (start n : ℕ) (v : ℝ) (_ : start + n ≤ buf.length),
    fill buf start n v
      = some (buf.take start ++ List.replicate n v ++ buf.drop (start + n)) := by
    intro buf start n v h
    unfold fill
    induction n with
    | zero => simp [forRange_zero]
    | succ n ih =>
      rw [forRange_succ, ih (by omega), Option.some_bind]
      have htl : (buf.take start).length = start := by
        rw [List.length_take]
        omega
      have hlen : (buf.take start ++ List.replicate n v ++ buf.drop (start + n)).length
          = buf.length := by
        simp only [List.length_append, htl, List.length_replicate, List.length_drop]
        omega
      rw [write_eq_some (by rw [hlen]; omega), set_eq_take_append _ _ _ (by rw [hlen]; omega)]
      have hpre : (buf.take start ++ List.replicate n v).length = start + n := by
        rw [List.length_append, htl, List.length_replicate]
      congr 1
      have e1 : (buf.take start ++ List.replicate n v ++ buf.drop (start + n)).take (start + n)
          = buf.take start ++ List.replicate n v := take_left_eq _ _ _ hpre
      have e2 : (buf.take start ++ List.replicate n v ++ buf.drop (start + n)).drop (start + n + 1)
          = buf.drop (start + (n + 1)) := by
        rw [← List.drop_drop, drop_left_eq _ _ _ hpre, List.drop_drop, Nat.add_assoc]
      rw [e1, e2, List.replicate_succ']
      simp only [List.append_assoc]
  have fill_all : ∀ (buf : List ℝ) (v : ℝ),
    fill buf 0 buf.length v = some (List.replicate buf.length v) := by
    intro buf v
    rw [fill_eq buf 0 buf.length v (by omega)]
    simp
  -- A loop that replaces every cell `pr[i]` by `f pr[i]`.
  have forRange_map_cells : ∀ (f : ℝ → ℝ) (l : List ℝ) (k : ℕ) (_ : k ≤ l.length),
    forRange k (fun i pr => do
        let x ← pr[i]?
        write pr i (f x)) l
      = some ((l.take k).map f ++ l.drop k) := by
    intro f l k hk
    induction k with
    | zero => simp [forRange_zero]
    | succ k ih =>
      rw [forRange_succ, ih (by omega), Option.some_bind]
      have hlen : ((l.take k).map f ++ l.drop k).length = l.length := by
        simp only [List.length_append, List.length_map, List.length_take, List.length_drop]
        omega
      have hpre : ((l.take k).map f).length = k := by
        rw [List.length_map, List.length_take]
        omega
      have hget : ((l.take k).map f ++ l.drop k)[k]? = some (l.getD k 0) := by
        rw [List.getElem?_append_right (by omega), hpre, Nat.sub_self, List.getElem?_drop,
          add_zero]
        exact getElem?_eq_some_getD _ _ _ (by omega)
      simp only [hget, Option.bind_eq_bind, Option.some_bind]
      rw [write_eq_some (by rw [hlen]; omega), set_eq_take_append _ _ _ (by rw [hlen]; omega)]
      congr 1
      have e1 : ((l.take k).map f ++ l.drop k).take k = (l.take k).map f :=
        take_left_eq _ _ _ hpre
      have e2 : ((l.take k).map f ++ l.drop k).drop (k + 1) = l.drop (k + 1) := by
        rw [← List.drop_drop, drop_left_eq _ _ _ hpre, List.drop_drop]
      have e3 : (l.take (k + 1)).map f = (l.take k).map f ++ [f (l.getD k 0)] := by
        rw [List.take_succ, List.map_append, getElem?_eq_some_getD l k 0 (by omega)]
        rfl
      rw [e1, e2, e3]
  have forRange_map_all : ∀ (f : ℝ → ℝ) (l : List ℝ),
    forRange l.length (fun i pr => do
        let x ← pr[i]?
        write pr i (f x)) l
      = some (l.map f) := by
    intro f l
    rw [forRange_map_cells f l l.length le_rfl]
    simp
  have slice_all : ∀ (l : List ℝ),
    slice l 0 l.length = some l := by
    intro l
    unfold slice
    simp
  have sum_map_range : ∀ (f : ℕ → ℝ) (n : ℕ),
    ((List.range n).map f).sum = ∑ i ∈ Finset.range n, f i := by
    intro f n
    induction n with
    | zero => simp
    | succ n ih =>
      rw [List.range_succ, List.map_append, List.sum_append, ih, Finset.sum_range_succ]
      simp
  have fill_all' : ∀ (buf : List ℝ) (n : ℕ) (v : ℝ) (_ : buf.length = n),
    fill buf 0 n v = some (List.replicate n v) := by
    intro buf n v h
    subst h
    exact fill_all buf v
  have forRange_map_all' : ∀ (f : ℝ → ℝ) (l : List ℝ) (n : ℕ) (_ : l.length = n),
    forRange n (fun i pr => do
        let x ← pr[i]?
        write pr i (f x)) l
      = some (l.map f) := by
    intro f l n h
    subst h
    exact forRange_map_all f l
  have slice_all' : ∀ (l : List ℝ) (n : ℕ) (_ : l.length = n),
    slice l 0 n = some l := by
    intro l n h
    subst h
    exact slice_all l
  have prior_weight_spec_succ : ∀ (g : EMStutterGenotyper) (k a : ℕ),
    g.prior_weight_spec (k + 1) a
      = g.prior_weight_spec k a
        + (if g.allele_index_.getD k 0 = a then g.read_weight_spec k else 0) := by
    intro g k a
    unfold EMStutterGenotyper.prior_weight_spec
    rw [Finset.range_succ, Finset.filter_insert]
    split_ifs with h
    · rw [Finset.sum_insert (by simp)]
      ring
    · ring
  have init_reads_loop : ∀ (g : EMStutterGenotyper) (_ : g.WellFormed)
    (k : ℕ) (_ : k ≤ g.num_reads_),
    forRange k g.init_log_gt_priors_step (List.replicate g.num_alleles_ 1)
      = some ((List.range g.num_alleles_).map (g.prior_weight_spec k)) := by
    intro g hwf k hk
    induction k with
    | zero =>
      rw [forRange_zero]
      congr 1
      apply List.ext_getElem?
      intro i
      rcases Nat.lt_or_ge i g.num_alleles_ with h | h
      · rw [List.getElem?_replicate, if_pos h, List.getElem?_map, List.getElem?_range h]
        rw [Option.map_some', Option.some.injEq]
        unfold EMStutterGenotyper.prior_weight_spec
        simp
      · rw [List.getElem?_eq_none (by simpa using h), List.getElem?_eq_none (by simpa using h)]
    | succ k ih =>
      rw [forRange_succ, ih (by omega), Option.some_bind]
      have hr : k < g.num_reads_ := by omega
      have h1 : g.allele_index_[k]? = some (g.allele_index_.getD k 0) :=
        getElem?_eq_some_getD _ _ _ (by rw [hwf.allele_index_length]; exact hr)
      have h2 : g.sample_label_[k]? = some (g.sample_label_.getD k 0) :=
        getElem?_eq_some_getD _ _ _ (by rw [hwf.sample_label_length]; exact hr)
      have hai : g.allele_index_.getD k 0 < g.num_alleles_ :=
        hwf.allele_index_lt _ (getD_mem _ _ _ (by rw [hwf.allele_index_length]; exact hr))
      have hsl : g.sample_label_.getD k 0 < g.num_samples_ :=
        hwf.sample_label_lt _ (getD_mem _ _ _ (by rw [hwf.sample_label_length]; exact hr))
      have h3 : g.reads_per_sample_[g.sample_label_.getD k 0]?
          = some (g.reads_per_sample_.getD (g.sample_label_.getD k 0) 0) :=
        getElem?_eq_some_getD _ _ _ (by rw [hwf.reads_per_sample_length]; exact hsl)
      have h4 : ((List.range g.num_alleles_).map (g.prior_weight_spec k))[
          g.allele_index_.getD k 0]? = some (g.prior_weight_spec k (g.allele_index_.getD k 0)) := by
        rw [List.getElem?_map, List.getElem?_range hai]
        rfl
      unfold EMStutterGenotyper.init_log_gt_priors_step
      simp only [h1, h2, h3, h4, Option.bind_eq_bind, Option.some_bind]
      rw [write_eq_some (by simpa using hai)]
      congr 1
      apply List.ext_getElem?
      intro i
      rcases Nat.lt_or_ge i g.num_alleles_ with h | h
      · rw [List.getElem?_map, List.getElem?_range h, Option.map_some',
          prior_weight_spec_succ g]
        by_cases hia : g.allele_index_.getD k 0 = i
        · subst hia
          rw [List.getElem?_set_eq_of_lt _ (by simpa using hai), if_pos rfl]
          dsimp only [EMStutterGenotyper.read_weight_spec]
          norm_num
        · rw [List.getElem?_set_ne hia, if_neg hia, List.getElem?_map, List.getElem?_range h]
          simp
      · rw [List.getElem?_eq_none (by simpa using h), List.getElem?_eq_none (by simpa using h)]
  have sum_inv_count : ∀ (l : List ℕ),
    (l.map (fun s => 1 / ((l.count s : ℕ) : ℝ))).sum = (l.toFinset.card : ℝ) := by
    intro l
    rw [Finset.sum_list_map_count, Finset.card_eq_sum_ones]
    push_cast
    refine Finset.sum_congr rfl (fun m hm => ?_)
    have hpos : 0 < l.count m := List.count_pos_iff.2 (List.mem_toFinset.1 hm)
    have hne : ((l.count m : ℕ) : ℝ) ≠ 0 := by
      exact_mod_cast hpos.ne'
    rw [nsmul_eq_mul]
    field_simp
  have sum_read_weights : ∀ (g : EMStutterGenotyper) (_ : g.WellFormed),
    ∑ r ∈ Finset.range g.num_reads_, g.read_weight_spec r
      = (((Finset.range g.num_samples_).filter (fun s => s ∈ g.sample_label_)).card : ℝ) := by
    intro g hwf
    have hset : (Finset.range g.num_samples_).filter (fun s => s ∈ g.sample_label_)
        = g.sample_label_.toFinset := by
      ext s
      simp only [Finset.mem_filter, Finset.mem_range, List.mem_toFinset]
      exact ⟨fun h => h.2, fun h => ⟨hwf.sample_label_lt s h, h⟩⟩
    rw [hset, ← sum_inv_count, map_eq_map_range_getD, sum_map_range, hwf.sample_label_length]
    refine Finset.sum_congr rfl (fun r hr => ?_)
    have hr' : r < g.num_reads_ := Finset.mem_range.1 hr
    have hsl : g.sample_label_.getD r 0 < g.num_samples_ :=
      hwf.sample_label_lt _ (getD_mem _ _ _ (by rw [hwf.sample_label_length]; exact hr'))
    have hc := hwf.reads_per_sample_eq _ hsl
    unfold EMStutterGenotyper.read_weight_spec
    rw [List.getD_eq_getElem?_getD, hc]
    rfl
  have sum_prior_weights : ∀ (g : EMStutterGenotyper) (_ : g.WellFormed),
    ∑ a ∈ Finset.range g.num_alleles_, g.prior_weight_spec g.num_reads_ a
      = (g.num_alleles_ : ℝ)
        + (((Finset.range g.num_samples_).filter (fun s => s ∈ g.sample_label_)).card : ℝ) := by
    intro g hwf
    unfold EMStutterGenotyper.prior_weight_spec
    rw [Finset.sum_add_distrib, Finset.sum_const, Finset.card_range, nsmul_eq_mul, mul_one,
      Finset.sum_fiberwise_of_maps_to, sum_read_weights g hwf]
    intro r hr
    have hr' : r < g.num_reads_ := Finset.mem_range.1 hr
    exact Finset.mem_range.2
      (hwf.allele_index_lt _ (getD_mem _ _ _ (by rw [hwf.allele_index_length]; exact hr')))
  have read_weight_spec_nonneg : ∀ (g : EMStutterGenotyper) (r : ℕ),
    0 ≤ g.read_weight_spec r := by
    intro g r
    unfold EMStutterGenotyper.read_weight_spec
    positivity
  have prior_weight_spec_pos : ∀ (g : EMStutterGenotyper) (k a : ℕ),
    0 < g.prior_weight_spec k a := by
    intro g k a
    unfold EMStutterGenotyper.prior_weight_spec
    have := Finset.sum_nonneg (s := (Finset.range k).filter (fun r => g.allele_index_.getD r 0 = a))
      (f := g.read_weight_spec) (fun r _ => read_weight_spec_nonneg g r)
    linarith
  have init_log_gt_priors_eq : ∀ (g : EMStutterGenotyper) (_ : g.WellFormed),
    g.init_log_gt_priors
      = some { g with log_gt_priors_ :=
          (List.range g.num_alleles_).map (fun a =>
            Real.log (g.prior_weight_spec g.num_reads_ a)
              - Real.log ((g.num_alleles_ : ℝ)
                + (((Finset.range g.num_samples_).filter
                    (fun s => s ∈ g.sample_label_)).card : ℝ))) } := by
    intro g hwf
    have hlen : ((List.range g.num_alleles_).map (g.prior_weight_spec g.num_reads_)).length
        = g.num_alleles_ := by simp
    have hsum : sum ((List.range g.num_alleles_).map (g.prior_weight_spec g.num_reads_))
        = (g.num_alleles_ : ℝ)
          + (((Finset.range g.num_samples_).filter (fun s => s ∈ g.sample_label_)).card : ℝ) := by
      rw [sum_eq_list_sum, sum_map_range, sum_prior_weights g hwf]
    have hloop := forRange_map_all'
      (fun x => Real.log x - Real.log ((g.num_alleles_ : ℝ)
        + (((Finset.range g.num_samples_).filter (fun s => s ∈ g.sample_label_)).card : ℝ)))
      ((List.range g.num_alleles_).map (g.prior_weight_spec g.num_reads_)) g.num_alleles_ hlen
    unfold EMStutterGenotyper.init_log_gt_priors
    simp only [Option.bind_eq_bind] at hloop ⊢
    rw [fill_all' _ _ _ hwf.priors_length, Option.some_bind, init_reads_loop g hwf _ le_rfl,
      Option.some_bind, slice_all' _ _ hlen, Option.some_bind, hsum, hloop, Option.some_bind,
      List.map_map]
    rfl
  exact ⟨fill_eq, sum_prior_weights, prior_weight_spec_pos, init_log_gt_priors_eq⟩

/-- C9: on a well-formed state `init_log_gt_priors` returns, and for every allele `a`
the new `pi[a]` is `log(1 + sum over the reads r with allele_idx[r] = a of
1/reads_per_sample[sample_label[r]]) - log(T)` with `T` equal to `A` plus the number of
samples that have at least one read; the exponentials of the new priors add up to 1. -/
theorem C9_init_log_gt_priors (g : EMStutterGenotyper) (hwf : g.WellFormed) :
    ∃ g', g.init_log_gt_priors = some g' ∧
      (∀ a, a < g.num_alleles_ →
        g'.log_gt_priors_[a]?
          = some (Real.log (1 + ∑ r ∈ (Finset.range g.num_reads_).filter
                  (fun r => g.allele_index_.getD r 0 = a),
                1 / ((g.reads_per_sample_.getD (g.sample_label_.getD r 0) 0 : ℕ) : ℝ))
              - Real.log ((g.num_alleles_ : ℝ)
                + (((Finset.range g.num_samples_).filter
                    (fun s => s ∈ g.sample_label_)).card : ℝ)))) ∧
      ∑ a ∈ Finset.range g.num_alleles_, Real.exp (g'.log_gt_priors_.getD a 0) = 1 := by
  obtain ⟨_, sum_prior_weights, prior_weight_spec_pos, init_log_gt_priors_eq⟩ := prior_init_facts
  refine ⟨_, init_log_gt_priors_eq g hwf, ?_, ?_⟩
  · intro a ha
    simp only [List.getElem?_map, List.getElem?_range ha, Option.map_some']
    rfl
  · have hT := sum_prior_weights g hwf
    have hTpos : (0 : ℝ) < (g.num_alleles_ : ℝ)
        + (((Finset.range g.num_samples_).filter (fun s => s ∈ g.sample_label_)).card : ℝ) := by
      rw [← hT]
      exact Finset.sum_pos (fun a _ => prior_weight_spec_pos g _ a)
        ⟨0, Finset.mem_range.2 hwf.alleles_pos⟩
    have hterm : ∀ a ∈ Finset.range g.num_alleles_,
        Real.exp (((List.range g.num_alleles_).map fun a =>
            Real.log (g.prior_weight_spec g.num_reads_ a)
              - Real.log ((g.num_alleles_ : ℝ)
                + (((Finset.range g.num_samples_).filter
                    (fun s => s ∈ g.sample_label_)).card : ℝ))).getD a 0)
          = g.prior_weight_spec g.num_reads_ a
            / ((g.num_alleles_ : ℝ)
              + (((Finset.range g.num_samples_).filter
                  (fun s => s ∈ g.sample_label_)).card : ℝ)) := by
      intro a ha
      have ha' : a < g.num_alleles_ := Finset.mem_range.1 ha
      rw [List.getD_eq_getElem?_getD, List.getElem?_map, List.getElem?_range ha',
        Option.map_some', Option.getD_some, Real.exp_sub,
        Real.exp_log (prior_weight_spec_pos g _ a), Real.exp_log hTpos]
    rw [Finset.sum_congr rfl hterm, ← Finset.sum_div, hT]
    exact div_self hTpos.ne'

/-- Witness of C9 at the single-read state. -/
theorem C9_init_log_gt_priors_witness :
    single_read_state.WellFormed ∧
      ∃ g', single_read_state.init_log_gt_priors = some g' ∧
        (∀ a, a < single_read_state.num_alleles_ →
          g'.log_gt_priors_[a]?
            = some (Real.log (1 + ∑ r ∈ (Finset.range single_read_state.num_reads_).filter
                    (fun r => single_read_state.allele_index_.getD r 0 = a),
                  1 / ((single_read_state.reads_per_sample_.getD
                    (single_read_state.sample_label_.getD r 0) 0 : ℕ) : ℝ))
                - Real.log ((single_read_state.num_alleles_ : ℝ)
                  + (((Finset.range single_read_state.num_samples_).filter
                      (fun s => s ∈ single_read_state.sample_label_)).card : ℝ)))) ∧
        ∑ a ∈ Finset.range single_read_state.num_alleles_,
          Real.exp (g'.log_gt_priors_.getD a 0) = 1 := by
  obtain ⟨_, _, _, _, _, _, _, _, single_read_state_wellFormed, _⟩ := read_phase_facts
  exact ⟨single_read_state_wellFormed, C9_init_log_gt_priors single_read_state
      single_read_state_wellFormed⟩

/-! ## The M-step for the priors and the E-step for the phased genotype posteriors -/

open EMStutterGenotyper StutterModel in
/-- Facts on the M-step for the priors and on the E-step at concrete states, proved one after the other:
`two_sample_state_wellFormed`, `log_sum_exp2_log`, `two_sample_state_recalc`,
`two_sample_state_prior_marginal`, `single_read_state_accumulate`,
`single_read_state_totals_none`, `single_read_state_recalc_none`,
`single_read_state_total_LL_spec`. -/
theorem prior_and_posterior_facts :
    (two_sample_state.WellFormed) ∧
    (∀ (x y : ℝ) (_ : 0 < x) (_ : 0 < y),
      log_sum_exp2 (Real.log x) (Real.log y) = Real.log (x + y)) ∧
    (two_sample_state.recalc_log_gt_priors
        = some { two_sample_state with log_gt_priors_ :=
            [Real.log (3 / 4) - Real.log (9 / 8), Real.log (3 / 8) - Real.log (9 / 8)] }) ∧
    (two_sample_state.prior_marginal_spec 0 = Real.log (3 / 2) ∧
        two_sample_state.prior_marginal_spec 1 = Real.log (1 / 2)) ∧
    (single_read_state.accumulate_LLs default_model
        = some ([Real.log 0.8], [max DBL_MIN (Real.log 0.8)], 1)) ∧
    (∀ (buf sample_max_LLs : List ℝ),
      single_read_state.accumulate_totals buf sample_max_LLs [] = none) ∧
    (single_read_state.recalc_log_sample_posteriors = none) ∧
    (single_read_state.total_LL_spec default_model = Real.log 0.8) := by
  obtain ⟨_, _, _, _, _, log_pmf_self, _, default_model_valid, _, log_stutter_pmf_eq_some, _⟩ :=
    log_pmf_facts
  obtain ⟨_, log_sum_exp_eq, _, log_sum_exp2_eq, _, _, _⟩ := upper_tail_facts
  have two_sample_state_wellFormed : two_sample_state.WellFormed := by
    constructor <;> (dsimp only [two_sample_state]; simp)
    intro s hs
    interval_cases s <;> simp
  have log_sum_exp2_log : ∀ (x y : ℝ) (_ : 0 < x) (_ : 0 < y),
    log_sum_exp2 (Real.log x) (Real.log y) = Real.log (x + y) := by
    intro x y hx hy
    rw [log_sum_exp2_eq, Real.exp_log hx, Real.exp_log hy]
  have two_sample_state_recalc : two_sample_state.recalc_log_gt_priors
      = some { two_sample_state with log_gt_priors_ :=
          [Real.log (3 / 4) - Real.log (9 / 8), Real.log (3 / 8) - Real.log (9 / 8)] } := by
    have h01 : log_sum_exp2 (Real.log (1 / 2)) (Real.log (1 / 4)) = Real.log (3 / 4) := by
      rw [log_sum_exp2_log _ _ (by norm_num) (by norm_num)]
      norm_num
    have h12 : log_sum_exp2 (Real.log (1 / 4)) (Real.log (1 / 8)) = Real.log (3 / 8) := by
      rw [log_sum_exp2_log _ _ (by norm_num) (by norm_num)]
      norm_num
    have htot : log_sum_exp [Real.log (3 / 4), Real.log (3 / 8)] = some (Real.log (9 / 8)) := by
      rw [log_sum_exp_eq _ (by simp)]
      simp only [List.map_cons, List.map_nil, List.sum_cons, List.sum_nil, add_zero]
      rw [Real.exp_log (by norm_num), Real.exp_log (by norm_num)]
      norm_num
    unfold EMStutterGenotyper.recalc_log_gt_priors
    dsimp only [two_sample_state]
    simp only [Option.bind_eq_bind]
    dsimp only [fill, write, slice]
    simp only [forRange, Option.some_bind, List.replicate, zero_mul, zero_add, one_mul,
      List.getElem?_cons_zero, List.getElem?_cons_succ, h01, h12, List.length_cons,
      List.length_nil, Nat.lt_add_one, Nat.zero_lt_succ, if_true, List.set_cons_zero,
      List.set_cons_succ, List.drop_zero, List.take_succ_cons, List.take_zero, htot,
      Nat.reduceAdd, Nat.reduceMul, Nat.reduceLeDiff, Nat.reduceLT, Nat.one_lt_ofNat, le_refl]
  have two_sample_state_prior_marginal : two_sample_state.prior_marginal_spec 0 = Real.log (3 / 2) ∧
      two_sample_state.prior_marginal_spec 1 = Real.log (1 / 2) := by
    constructor
    · unfold EMStutterGenotyper.prior_marginal_spec
      dsimp only [two_sample_state]
      simp only [Finset.sum_range_succ, Finset.sum_range_zero, zero_add]
      simp only [List.getD_eq_getElem?_getD, zero_mul, zero_add, one_mul, add_zero, Nat.reduceAdd,
        Nat.reduceMul, List.getElem?_cons_zero, List.getElem?_cons_succ, Option.getD_some]
      rw [Real.exp_log (by norm_num), Real.exp_log (by norm_num)]
      norm_num
    · unfold EMStutterGenotyper.prior_marginal_spec
      dsimp only [two_sample_state]
      simp only [Finset.sum_range_succ, Finset.sum_range_zero, zero_add]
      simp only [List.getD_eq_getElem?_getD, zero_mul, zero_add, one_mul, add_zero, Nat.reduceAdd,
        Nat.reduceMul, List.getElem?_cons_zero, List.getElem?_cons_succ, Option.getD_some]
      rw [Real.exp_log (by norm_num)]
      norm_num
  have default_model_log_stutter_pmf_same : default_model.log_stutter_pmf 20 20 = some (Real.log 0.8) := by
    rw [log_stutter_pmf_eq_some default_model default_model_valid (by dsimp only [default_model]; norm_num)]
    congr 1
    rw [log_pmf_self]
    dsimp only [StutterModel.log_equal_, default_model]
    norm_num
  have log_sum_exp2_half : ∀ (x : ℝ) (_ : 0 < x),
    log_sum_exp2 (Real.log 0.5 + Real.log x) (Real.log 0.5 + Real.log x) = Real.log x := by
    intro x hx
    rw [log_sum_exp2_eq, Real.exp_add, Real.exp_log (by norm_num), Real.exp_log hx]
    congr 1
    norm_num
    ring
  have single_read_state_accumulate : single_read_state.accumulate_LLs default_model
      = some ([Real.log 0.8], [max DBL_MIN (Real.log 0.8)], 1) := by
    have hpmf := default_model_log_stutter_pmf_same
    have hlse := log_sum_exp2_half 0.8 (by norm_num)
    unfold EMStutterGenotyper.accumulate_LLs EMStutterGenotyper.read_phase_LLs
    dsimp only [single_read_state, fill, write]
    simp [forRange, hpmf, hlse]
  have single_read_state_totals_none : ∀ (buf sample_max_LLs : List ℝ),
    single_read_state.accumulate_totals buf sample_max_LLs [] = none := by
    intro buf sample_max_LLs
    unfold EMStutterGenotyper.accumulate_totals
    dsimp only [single_read_state]
    simp [forRange]
  have single_read_state_recalc_none : single_read_state.recalc_log_sample_posteriors = none := by
    unfold EMStutterGenotyper.recalc_log_sample_posteriors
    have hsm : single_read_state.stutter_model_ = some default_model := rfl
    simp only [hsm, Option.bind_eq_bind, Option.some_bind, single_read_state_accumulate,
      single_read_state_totals_none, Option.none_bind]
  have single_read_state_total_LL_spec : single_read_state.total_LL_spec default_model = Real.log 0.8 := by
    have hpmf : default_model.log_pmf 20 20 = Real.log 0.8 := by
      rw [log_pmf_self]
      dsimp only [StutterModel.log_equal_, default_model]
      norm_num
    have hfilter : (Finset.range 1).filter (fun r => [0].getD r 0 = 0) = {0} := by
      decide
    unfold EMStutterGenotyper.total_LL_spec EMStutterGenotyper.phase_one_spec
      EMStutterGenotyper.phase_two_spec
    dsimp only [single_read_state]
    simp only [Finset.sum_range_one, List.getD_cons_zero, hfilter,
      Finset.sum_singleton, hpmf, zero_add]
    rw [← log_sum_exp2_eq, log_sum_exp2_half 0.8 (by norm_num), Real.exp_log (by norm_num)]
  exact ⟨two_sample_state_wellFormed, log_sum_exp2_log, two_sample_state_recalc, two_sample_state_prior_marginal, single_read_state_accumulate, single_read_state_totals_none, single_read_state_recalc_none, single_read_state_total_LL_spec⟩

/-- C10, the code at a failing input: on the two-sample state (two alleles, two samples,
normalised posteriors) `recalc_log_gt_priors` returns `pi[0] = log(2/3)`, the normalised
`logsumexp` of the two cells `P[0][0][0]` and `P[0][1][0]` only, whereas the marginal of
section 4.4 over all partners and samples gives `log(3/4)`; with a single sample the
second cell `log_sample_posteriors_[(i+1)*A]` of the last allele lies outside the tensor
and the function has no result. -/
theorem C10_recalc_log_gt_priors_evaluation :
    two_sample_state.WellFormed ∧
      (∃ g', two_sample_state.recalc_log_gt_priors = some g' ∧
        g'.log_gt_priors_[0]? = some (Real.log (2 / 3))) ∧
      two_sample_state.recalc_prior_spec 0 = Real.log (3 / 4) ∧
      Real.log (2 / 3) ≠ Real.log (3 / 4) ∧
      single_read_state.WellFormed ∧
      single_read_state.recalc_log_gt_priors = none := by
  obtain ⟨_, _, _, _, _, _, _, _, single_read_state_wellFormed, _⟩ := read_phase_facts
  obtain ⟨two_sample_state_wellFormed, _, two_sample_state_recalc,
    two_sample_state_prior_marginal, _, _, _, _⟩ := prior_and_posterior_facts
  refine ⟨two_sample_state_wellFormed, ⟨_, two_sample_state_recalc, ?_⟩, ?_, ?_,
    single_read_state_wellFormed, ?_⟩
  · have e : Real.log (3 / 4) - Real.log (9 / 8) = Real.log (2 / 3) := by
      rw [← Real.log_div (by norm_num) (by norm_num)]
      norm_num
    simp [e]
  · unfold EMStutterGenotyper.recalc_prior_spec
    have hA : two_sample_state.num_alleles_ = 2 := rfl
    rw [hA]
    simp only [Finset.sum_range_succ, Finset.sum_range_zero, zero_add]
    rw [two_sample_state_prior_marginal.1, two_sample_state_prior_marginal.2,
      Real.exp_log (by norm_num), Real.exp_log (by norm_num),
      ← Real.log_div (by norm_num) (by norm_num)]
    norm_num
  · intro h
    have := Real.log_injOn_pos (by norm_num : (2 / 3 : ℝ) ∈ Set.Ioi 0)
      (by norm_num : (3 / 4 : ℝ) ∈ Set.Ioi 0) h
    norm_num at this
  · unfold EMStutterGenotyper.recalc_log_gt_priors
    dsimp only [single_read_state, fill, write]
    simp [forRange]

/-- C1, the code at a failing input: on the single-read state the accumulation loops
leave the un-normalised value `log 0.8` in `P[0][0][0]` and `LL_ptr` at offset 1, the
end of the tensor; the normalising loops resume from that offset, so their first access
is outside the tensor whatever `sample_total_LLs` holds, and the vector
`sample_total_LLs` itself is indexed while empty: the function has no result, and the
value in the tensor has exponential `0.8`, not 1. -/
theorem C1_recalc_log_sample_posteriors_evaluation :
    single_read_state.WellFormed ∧
      single_read_state.accumulate_LLs default_model
        = some ([Real.log 0.8], [max DBL_MIN (Real.log 0.8)], 1) ∧
      Real.exp (Real.log 0.8) ≠ 1 ∧
      (∀ sample_total_LLs : List ℝ,
        single_read_state.normalize_LLs [Real.log 0.8] sample_total_LLs 1 = none) ∧
      single_read_state.accumulate_totals [Real.log 0.8] [max DBL_MIN (Real.log 0.8)] [] = none ∧
      single_read_state.recalc_log_sample_posteriors = none := by
  obtain ⟨_, _, _, _, _, _, _, _, single_read_state_wellFormed, _⟩ := read_phase_facts
  obtain ⟨_, _, _, _, single_read_state_accumulate, single_read_state_totals_none,
    single_read_state_recalc_none, _⟩ := prior_and_posterior_facts
  refine ⟨single_read_state_wellFormed, single_read_state_accumulate, ?_, ?_,
    single_read_state_totals_none _ _, single_read_state_recalc_none⟩
  · rw [Real.exp_log (by norm_num)]
    norm_num
  · intro totals
    unfold EMStutterGenotyper.normalize_LLs
    dsimp only [single_read_state]
    simp [forRange]

/-- C2, the code at a failing input: on the single-read state
`recalc_log_sample_posteriors` has no result (it indexes the vector `sample_total_LLs`,
declared empty on line 159), and the sum it would return is taken over that vector of
size 0, which is 0; the total log-likelihood of section 4.3 is `log 0.8` there. -/
theorem C2_recalc_log_sample_posteriors_return :
    single_read_state.WellFormed ∧
      single_read_state.recalc_log_sample_posteriors = none ∧
      sum [] = 0 ∧
      single_read_state.total_LL_spec default_model = Real.log 0.8 ∧
      Real.log 0.8 ≠ 0 := by
  obtain ⟨_, _, _, _, _, _, _, _, single_read_state_wellFormed, _⟩ := read_phase_facts
  obtain ⟨_, _, _, _, _, _, single_read_state_recalc_none, single_read_state_total_LL_spec⟩ :=
    prior_and_posterior_facts
  refine ⟨single_read_state_wellFormed, single_read_state_recalc_none, by dsimp only [sum]; simp,
    single_read_state_total_LL_spec, ?_⟩
  have : Real.log 0.8 < 0 := Real.log_neg (by norm_num) (by norm_num)
  exact this.ne

/-! ## The M-step for the stutter model -/

theorem forRange_inv {σ : Type} (n : ℕ) (body : ℕ → σ → Option σ) (I : ℕ → σ → Prop) (s0 : σ)
    (h0 : I 0 s0)
    (hstep : ∀ i s, i < n → I i s → ∃ s', body i s = some s' ∧ I (i + 1) s') :
    ∃ s', forRange n body s0 = some s' ∧ I n s' := by
  induction n with
  | zero => exact ⟨s0, rfl, h0⟩
  | succ n ih =>
    obtain ⟨s1, h1, hI1⟩ := ih (fun i s hi => hstep i s (by omega))
    obtain ⟨s2, h2, hI2⟩ := hstep n s1 (by omega) hI1
    exact ⟨s2, by rw [forRange_succ, h1, Option.some_bind, h2], hI2⟩

/-! ## Claims on `recalc_stutter_model` -/

open EMStutterGenotyper StutterModel in
/-- Facts on the M-step for the stutter model, proved one after the other:
`posterior_index_lt`, `bucket_spec_pos`, `recalc_stutter_model_eq`,
`two_sample_state_recalc_stutter_model_none`, `two_sample_state_bucket_spec`,
`duplicate_length_state_wellFormed`, `duplicate_length_state_buckets`,
`geometric_parameters_of_nodup`. -/
theorem stutter_refit_facts :
    (∀ (g : EMStutterGenotyper) (a b s : ℕ)
      (_ : a < g.num_alleles_) (_ : b < g.num_alleles_) (_ : s < g.num_samples_),
      (a * g.num_alleles_ + b) * g.num_samples_ + s
        < g.num_alleles_ * g.num_alleles_ * g.num_samples_) ∧
    (∀ (g : EMStutterGenotyper) (_ : g.WellFormed)
      (_ : 1 ≤ g.num_reads_) (k : Bucket),
      0 < g.bucket_spec k) ∧
    (∀ (g : EMStutterGenotyper)
      (_ : g.WellFormed) (_ : 1 ≤ g.num_reads_),
      g.recalc_stutter_model = some { g with stutter_model_ := some g.stutter_model_spec }) ∧
    (two_sample_state.recalc_stutter_model = none) ∧
    (∀ (k : Bucket),
      two_sample_state.bucket_spec k = pseudo_count_spec k) ∧
    (duplicate_length_state.WellFormed) ∧
    (duplicate_length_state.bucket_spec .in_up = 1 ∧
        duplicate_length_state.bucket_spec .in_down = 5 ∧
        duplicate_length_state.bucket_spec .in_diffs = 3) ∧
    (∀ (g : EMStutterGenotyper)
      (_ : g.WellFormed)
      (_ : 1 ≤ g.num_reads_) (_ : g.bps_per_allele_.Nodup),
      ∃ sm, g.recalc_stutter_model = some { g with stutter_model_ := some sm } ∧
        0 < sm.in_geom_ ∧ sm.in_geom_ < 1 ∧ 0 < sm.out_geom_ ∧ sm.out_geom_ < 1) := by
  obtain ⟨_, _, eff_diff_ne_zero, _, _, _, _, _, _, _, _⟩ := log_pmf_facts
  obtain ⟨_, log_sum_exp_eq, _, log_sum_exp2_eq, _, _, _⟩ := upper_tail_facts
  have exp_total_append : ∀ (l : List ℝ) (x : ℝ),
    exp_total (l ++ [x]) = exp_total l + Real.exp x := by
    intro l x
    dsimp only [exp_total]
    simp
  have exp_total_push_back_scaled : ∀ (l : List ℝ) (x : ℝ) (e : ℤ),
    exp_total (push_back_scaled l x e) = exp_total l + Real.exp x * ((|e| : ℤ) : ℝ) := by
    intro l x e
    unfold push_back_scaled
    split_ifs with h
    · subst h
      simp
    · have hpos : (0 : ℝ) < ((|e| : ℤ) : ℝ) := by
        exact_mod_cast abs_pos.2 h
      rw [exp_total_append, Real.exp_add, Real.exp_log hpos]
  have stutter_phase_step_eq : ∀ (g : EMStutterGenotyper) (_ : g.WellFormed)
    (a b r ph : ℕ) (_ : a < g.num_alleles_) (_ : b < g.num_alleles_) (_ : r < g.num_reads_)
    (_ : ph < 2) (st : StutterLoopState)
    (_ : st.log_phase_ptr = 2 * g.num_reads_ * (a * g.num_alleles_ + b) + 2 * r + ph),
    ∃ st', g.stutter_phase_step a b r
          (g.log_sample_posteriors_.getD
            ((a * g.num_alleles_ + b) * g.num_samples_ + g.sample_label_.getD r 0) 0) ph st
        = some st' ∧
      st'.log_posterior_ptr = st.log_posterior_ptr ∧
      st'.log_phase_ptr = st.log_phase_ptr + 1 ∧
      st'.counts.mass = st.counts.mass + g.contribution_spec a b r ph := by
    intro g hwf a b r ph ha hb hr hph st hq
    have h1 : g.allele_index_[r]? = some (g.allele_index_.getD r 0) :=
      getElem?_eq_some_getD _ _ _ (by rw [hwf.allele_index_length]; exact hr)
    have hai : g.allele_index_.getD r 0 < g.num_alleles_ :=
      hwf.allele_index_lt _ (getD_mem _ _ _ (by rw [hwf.allele_index_length]; exact hr))
    have h2 : g.bps_per_allele_[g.allele_index_.getD r 0]?
        = some (g.bps_per_allele_.getD (g.allele_index_.getD r 0) 0) :=
      getElem?_eq_some_getD _ _ _ (by rw [hwf.bps_length]; exact hai)
    have hgt : (if ph = 0 then a else b) < g.num_alleles_ := by
      split_ifs
      · exact ha
      · exact hb
    have h3 : g.bps_per_allele_[if ph = 0 then a else b]?
        = some (g.bps_per_allele_.getD (if ph = 0 then a else b) 0) :=
      getElem?_eq_some_getD _ _ _ (by rw [hwf.bps_length]; exact hgt)
    have hidx : 2 * g.num_reads_ * (a * g.num_alleles_ + b) + 2 * r + ph
        < g.log_read_phase_posteriors_.length := by
      rw [hwf.phase_length]
      have h5 : a * g.num_alleles_ + b + 1 ≤ g.num_alleles_ * g.num_alleles_ := by
        have : (a + 1) * g.num_alleles_ ≤ g.num_alleles_ * g.num_alleles_ :=
          Nat.mul_le_mul_right _ (by omega)
        have e : (a + 1) * g.num_alleles_ = a * g.num_alleles_ + g.num_alleles_ := by ring
        omega
      have h6 : 2 * g.num_reads_ * (a * g.num_alleles_ + b + 1)
          ≤ 2 * g.num_reads_ * (g.num_alleles_ * g.num_alleles_) := Nat.mul_le_mul_left _ h5
      have e : 2 * g.num_reads_ * (a * g.num_alleles_ + b + 1)
          = 2 * g.num_reads_ * (a * g.num_alleles_ + b) + 2 * g.num_reads_ := by ring
      omega
    have h4 : g.log_read_phase_posteriors_[st.log_phase_ptr]?
        = some (g.log_read_phase_posteriors_.getD
            (2 * g.num_reads_ * (a * g.num_alleles_ + b) + 2 * r + ph) 0) := by
      rw [hq]
      exact getElem?_eq_some_getD _ _ _ hidx
    unfold EMStutterGenotyper.stutter_phase_step
    simp only [h1, h2, h3, h4, Option.bind_eq_bind, Option.some_bind]
    refine ⟨_, rfl, rfl, rfl, ?_⟩
    funext k
    unfold EMStutterGenotyper.contribution_spec
    dsimp only [EMStutterGenotyper.bp_diff_spec, EMStutterGenotyper.weight_spec]
    simp only [Pi.add_apply]
    generalize g.bps_per_allele_.getD (g.allele_index_.getD r 0) 0
      - g.bps_per_allele_.getD (if ph = 0 then a else b) 0 = d
    generalize g.log_sample_posteriors_.getD
        ((a * g.num_alleles_ + b) * g.num_samples_ + g.sample_label_.getD r 0) 0
      + g.log_read_phase_posteriors_.getD
        (2 * g.num_reads_ * (a * g.num_alleles_ + b) + 2 * r + ph) 0 = x
    by_cases hc1 : g.allele_index_.getD r 0 = (if ph = 0 then a else b)
    · rw [if_pos hc1, if_pos hc1]
      cases k <;> (dsimp only [EMStutterGenotyper.StutterCounts.mass]; simp [exp_total_append])
    · rw [if_neg hc1, if_neg hc1]
      by_cases hc2 : d.tmod g.motif_len_ ≠ 0
      · rw [if_pos hc2, if_pos hc2]
        by_cases hc3 : d > 0
        · rw [if_pos hc3]
          cases k <;> (dsimp only [EMStutterGenotyper.StutterCounts.mass]; simp [exp_total_append,
            exp_total_push_back_scaled, hc3])
        · rw [if_neg hc3]
          cases k <;> (dsimp only [EMStutterGenotyper.StutterCounts.mass]; simp [exp_total_append,
            exp_total_push_back_scaled, hc3])
      · rw [if_neg hc2, if_neg hc2]
        by_cases hc3 : d > 0
        · rw [if_pos hc3]
          cases k <;> (dsimp only [EMStutterGenotyper.StutterCounts.mass]; simp [exp_total_append,
            exp_total_push_back_scaled, hc3])
        · rw [if_neg hc3]
          cases k <;> (dsimp only [EMStutterGenotyper.StutterCounts.mass]; simp [exp_total_append,
            exp_total_push_back_scaled, hc3])
  have posterior_index_lt : ∀ (g : EMStutterGenotyper) (a b s : ℕ)
    (_ : a < g.num_alleles_) (_ : b < g.num_alleles_) (_ : s < g.num_samples_),
    (a * g.num_alleles_ + b) * g.num_samples_ + s
      < g.num_alleles_ * g.num_alleles_ * g.num_samples_ := by
    intro g a b s ha hb hs
    have h5 : a * g.num_alleles_ + b + 1 ≤ g.num_alleles_ * g.num_alleles_ := by
      have : (a + 1) * g.num_alleles_ ≤ g.num_alleles_ * g.num_alleles_ :=
        Nat.mul_le_mul_right _ (by omega)
      have e : (a + 1) * g.num_alleles_ = a * g.num_alleles_ + g.num_alleles_ := by ring
      omega
    have h6 : (a * g.num_alleles_ + b + 1) * g.num_samples_
        ≤ g.num_alleles_ * g.num_alleles_ * g.num_samples_ := Nat.mul_le_mul_right _ h5
    have e : (a * g.num_alleles_ + b + 1) * g.num_samples_
        = (a * g.num_alleles_ + b) * g.num_samples_ + g.num_samples_ := by ring
    omega
  have stutter_read_step_eq : ∀ (g : EMStutterGenotyper) (_ : g.WellFormed)
    (a b r : ℕ) (_ : a < g.num_alleles_) (_ : b < g.num_alleles_) (_ : r < g.num_reads_)
    (st : StutterLoopState)
    (_ : st.log_posterior_ptr = (a * g.num_alleles_ + b) * g.num_samples_)
    (_ : st.log_phase_ptr = 2 * g.num_reads_ * (a * g.num_alleles_ + b) + 2 * r),
    ∃ st', g.stutter_read_step a b r st = some st' ∧
      st'.log_posterior_ptr = st.log_posterior_ptr ∧
      st'.log_phase_ptr = st.log_phase_ptr + 2 ∧
      st'.counts.mass = st.counts.mass
        + ∑ ph ∈ Finset.range 2, g.contribution_spec a b r ph := by
    intro g hwf a b r ha hb hr st hp hq
    have h1 : g.sample_label_[r]? = some (g.sample_label_.getD r 0) :=
      getElem?_eq_some_getD _ _ _ (by rw [hwf.sample_label_length]; exact hr)
    have hsl : g.sample_label_.getD r 0 < g.num_samples_ :=
      hwf.sample_label_lt _ (getD_mem _ _ _ (by rw [hwf.sample_label_length]; exact hr))
    have h2 : g.log_sample_posteriors_[st.log_posterior_ptr + g.sample_label_.getD r 0]?
        = some (g.log_sample_posteriors_.getD
            ((a * g.num_alleles_ + b) * g.num_samples_ + g.sample_label_.getD r 0) 0) := by
      rw [hp]
      exact getElem?_eq_some_getD _ _ _
        (by rw [hwf.posteriors_length]; exact posterior_index_lt g a b _ ha hb hsl)
    unfold EMStutterGenotyper.stutter_read_step
    simp only [h1, h2, Option.bind_eq_bind, Option.some_bind]
    obtain ⟨st', hrun, hI⟩ := forRange_inv 2 _
      (fun ph s => s.log_posterior_ptr = st.log_posterior_ptr ∧
        s.log_phase_ptr = st.log_phase_ptr + ph ∧
        s.counts.mass = st.counts.mass + ∑ ph' ∈ Finset.range ph, g.contribution_spec a b r ph')
      st ⟨rfl, rfl, by simp⟩
      (fun ph s hph hI => by
        obtain ⟨hI1, hI2, hI3⟩ := hI
        obtain ⟨s', hs', h1', h2', h3'⟩ := stutter_phase_step_eq g hwf a b r ph ha hb hr hph s
          (by rw [hI2, hq])
        refine ⟨s', hs', by rw [h1', hI1], by rw [h2', hI2]; ring, ?_⟩
        conv_rhs => rw [Finset.sum_range_succ]
        rw [h3', hI3, add_assoc])
    exact ⟨st', hrun, hI.1, hI.2.1, hI.2.2⟩
  have stutter_allele2_step_eq : ∀ (g : EMStutterGenotyper)
    (_ : g.WellFormed) (a b : ℕ) (_ : a < g.num_alleles_) (_ : b < g.num_alleles_)
    (st : StutterLoopState)
    (_ : st.log_posterior_ptr = (a * g.num_alleles_ + b) * g.num_samples_)
    (_ : st.log_phase_ptr = 2 * g.num_reads_ * (a * g.num_alleles_ + b)),
    ∃ st', (do
          let st ← forRange g.num_reads_ (g.stutter_read_step a b) st
          some { st with log_posterior_ptr := st.log_posterior_ptr + g.num_samples_ })
        = some st' ∧
      st'.log_posterior_ptr = (a * g.num_alleles_ + (b + 1)) * g.num_samples_ ∧
      st'.log_phase_ptr = 2 * g.num_reads_ * (a * g.num_alleles_ + (b + 1)) ∧
      st'.counts.mass = st.counts.mass
        + ∑ r ∈ Finset.range g.num_reads_, ∑ ph ∈ Finset.range 2,
            g.contribution_spec a b r ph := by
    intro g hwf a b ha hb st hp hq
    obtain ⟨st', hrun, hI⟩ := forRange_inv g.num_reads_ (g.stutter_read_step a b)
      (fun r s => s.log_posterior_ptr = st.log_posterior_ptr ∧
        s.log_phase_ptr = st.log_phase_ptr + 2 * r ∧
        s.counts.mass = st.counts.mass
          + ∑ r' ∈ Finset.range r, ∑ ph ∈ Finset.range 2, g.contribution_spec a b r' ph)
      st ⟨rfl, rfl, by simp⟩
      (fun r s hr hI => by
        obtain ⟨hI1, hI2, hI3⟩ := hI
        obtain ⟨s', hs', h1', h2', h3'⟩ := stutter_read_step_eq g hwf a b r ha hb hr s
          (by rw [hI1, hp]) (by rw [hI2, hq])
        refine ⟨s', hs', by rw [h1', hI1], by rw [h2', hI2]; ring, ?_⟩
        conv_rhs => rw [Finset.sum_range_succ]
        rw [h3', hI3, add_assoc])
    refine ⟨{ st' with log_posterior_ptr := st'.log_posterior_ptr + g.num_samples_ }, ?_, ?_, ?_,
      hI.2.2⟩
    · simp only [hrun, Option.bind_eq_bind, Option.some_bind]
    · show st'.log_posterior_ptr + g.num_samples_ = _
      rw [hI.1, hp]
      ring
    · show st'.log_phase_ptr = _
      rw [hI.2.1, hq]
      ring
  have stutter_allele1_step_eq : ∀ (g : EMStutterGenotyper)
    (_ : g.WellFormed) (a : ℕ) (_ : a < g.num_alleles_) (st : StutterLoopState)
    (_ : st.log_posterior_ptr = (a * g.num_alleles_) * g.num_samples_)
    (_ : st.log_phase_ptr = 2 * g.num_reads_ * (a * g.num_alleles_)),
    ∃ st', forRange g.num_alleles_
          (fun index_2 st => do
            let st ← forRange g.num_reads_ (g.stutter_read_step a index_2) st
            some { st with log_posterior_ptr := st.log_posterior_ptr + g.num_samples_ }) st
        = some st' ∧
      st'.log_posterior_ptr = ((a + 1) * g.num_alleles_) * g.num_samples_ ∧
      st'.log_phase_ptr = 2 * g.num_reads_ * ((a + 1) * g.num_alleles_) ∧
      st'.counts.mass = st.counts.mass
        + ∑ b ∈ Finset.range g.num_alleles_, ∑ r ∈ Finset.range g.num_reads_,
            ∑ ph ∈ Finset.range 2, g.contribution_spec a b r ph := by
    intro g hwf a ha st hp hq
    obtain ⟨st', hrun, hI⟩ := forRange_inv g.num_alleles_ _
      (fun b s => s.log_posterior_ptr = (a * g.num_alleles_ + b) * g.num_samples_ ∧
        s.log_phase_ptr = 2 * g.num_reads_ * (a * g.num_alleles_ + b) ∧
        s.counts.mass = st.counts.mass
          + ∑ b' ∈ Finset.range b, ∑ r ∈ Finset.range g.num_reads_,
              ∑ ph ∈ Finset.range 2, g.contribution_spec a b' r ph)
      st ⟨by rw [hp]; ring, by rw [hq]; ring, by simp⟩
      (fun b s hb hI => by
        obtain ⟨hI1, hI2, hI3⟩ := hI
        obtain ⟨s', hs', h1', h2', h3'⟩ := stutter_allele2_step_eq g hwf a b ha hb s hI1 hI2
        refine ⟨s', hs', h1', h2', ?_⟩
        conv_rhs => rw [Finset.sum_range_succ]
        rw [h3', hI3, add_assoc])
    refine ⟨st', hrun, ?_, ?_, hI.2.2⟩
    · rw [hI.1]
      ring
    · rw [hI.2.1]
      ring
  have pseudo_count_mass : EMStutterGenotyper.StutterCounts.mass
        { in_log_up := [0.0], in_log_down := [0.0], in_log_eq := [],
          in_log_diffs := [0.0, Real.log 2], out_log_up := [0.0], out_log_down := [0.0],
          out_log_diffs := [0.0, Real.log 2] }
      = pseudo_count_spec := by
    funext k
    cases k <;>
      (dsimp only [EMStutterGenotyper.StutterCounts.mass, pseudo_count_spec, exp_total]
       norm_num [Real.exp_log])
  have stutter_counts_eq : ∀ (g : EMStutterGenotyper) (_ : g.WellFormed),
    ∃ st, g.stutter_counts = some st ∧ st.counts.mass = g.bucket_spec := by
    intro g hwf
    obtain ⟨st', hrun, hI⟩ := forRange_inv g.num_alleles_
      (fun index_1 st => forRange g.num_alleles_
        (fun index_2 st => do
          let st ← forRange g.num_reads_ (g.stutter_read_step index_1 index_2) st
          some { st with log_posterior_ptr := st.log_posterior_ptr + g.num_samples_ }) st)
      (fun a s => s.log_posterior_ptr = (a * g.num_alleles_) * g.num_samples_ ∧
        s.log_phase_ptr = 2 * g.num_reads_ * (a * g.num_alleles_) ∧
        s.counts.mass = pseudo_count_spec
          + ∑ a' ∈ Finset.range a, ∑ b ∈ Finset.range g.num_alleles_,
              ∑ r ∈ Finset.range g.num_reads_, ∑ ph ∈ Finset.range 2,
                g.contribution_spec a' b r ph)
      { counts :=
          { in_log_up := [0.0], in_log_down := [0.0], in_log_eq := [],
            in_log_diffs := [0.0, Real.log 2], out_log_up := [0.0], out_log_down := [0.0],
            out_log_diffs := [0.0, Real.log 2] },
        log_posterior_ptr := 0, log_phase_ptr := 0 }
      ⟨by simp, by simp, by simp [pseudo_count_mass]⟩
      (fun a s ha hI => by
        obtain ⟨hI1, hI2, hI3⟩ := hI
        obtain ⟨s', hs', h1', h2', h3'⟩ := stutter_allele1_step_eq g hwf a ha s hI1 hI2
        refine ⟨s', hs', h1', h2', ?_⟩
        conv_rhs => rw [Finset.sum_range_succ]
        rw [h3', hI3, add_assoc])
    refine ⟨st', hrun, ?_⟩
    rw [hI.2.2]
    funext k
    dsimp only [EMStutterGenotyper.bucket_spec]
    simp only [Pi.add_apply, Finset.sum_apply]
  have log_sum_exp_of_pos : ∀ (l : List ℝ) (_ : 0 < exp_total l),
    log_sum_exp l = some (Real.log (exp_total l)) := by
    intro l h
    have hne : l ≠ [] := by
      rintro rfl
      dsimp only [exp_total] at h
      simp at h
    exact log_sum_exp_eq l hne
  have log_sum_exp3_eq : ∀ (x y z : ℝ),
    log_sum_exp3 x y z = Real.log (Real.exp x + Real.exp y + Real.exp z) := by
    intro x y z
    unfold log_sum_exp3
    have hpos : 0 < Real.exp x + Real.exp y + Real.exp z := by positivity
    have e : Real.exp x + Real.exp y + Real.exp z
        = Real.exp (max (max x y) z)
          * (Real.exp (x - max (max x y) z) + Real.exp (y - max (max x y) z)
            + Real.exp (z - max (max x y) z)) := by
      rw [mul_add, mul_add, ← Real.exp_add, ← Real.exp_add, ← Real.exp_add]
      simp
    rw [e, Real.log_mul (Real.exp_pos _).ne' (by positivity), Real.log_exp]
  have stutter_estimate_eq : ∀ (c : EMStutterGenotyper.StutterCounts) (motif_len : ℤ)
    (_ : ∀ k, 0 < c.mass k),
    EMStutterGenotyper.stutter_estimate c motif_len
      = some ⟨(c.mass .in_up + c.mass .in_down) / c.mass .in_diffs,
          c.mass .in_up / (c.mass .in_up + c.mass .in_down + c.mass .in_eq),
          c.mass .in_down / (c.mass .in_up + c.mass .in_down + c.mass .in_eq),
          (c.mass .out_up + c.mass .out_down) / c.mass .out_diffs,
          c.mass .out_up / (c.mass .out_up + c.mass .out_down),
          c.mass .out_down / (c.mass .out_up + c.mass .out_down), motif_len⟩ := by
    intro c motif_len hpos
    have h1 := hpos .in_up
    have h2 := hpos .in_down
    have h3 := hpos .in_eq
    have h4 := hpos .in_diffs
    have h5 := hpos .out_up
    have h6 := hpos .out_down
    have h7 := hpos .out_diffs
    dsimp only [EMStutterGenotyper.StutterCounts.mass] at h1 h2 h3 h4 h5 h6 h7 ⊢
    unfold EMStutterGenotyper.stutter_estimate
    simp only [log_sum_exp_of_pos _ h1, log_sum_exp_of_pos _ h2, log_sum_exp_of_pos _ h3,
      log_sum_exp_of_pos _ h4, log_sum_exp_of_pos _ h5, log_sum_exp_of_pos _ h6,
      log_sum_exp_of_pos _ h7, Option.bind_eq_bind, Option.some_bind, log_sum_exp2_eq,
      log_sum_exp3_eq, Real.exp_log h1, Real.exp_log h2, Real.exp_log h3, Real.exp_log h5,
      Real.exp_log h6]
    rw [Real.exp_sub, Real.exp_sub, Real.exp_sub, Real.exp_sub, Real.exp_sub, Real.exp_sub,
      Real.exp_log h1, Real.exp_log h2, Real.exp_log h4, Real.exp_log h5, Real.exp_log h6,
      Real.exp_log h7, Real.exp_log (by positivity), Real.exp_log (by positivity),
      Real.exp_log (by positivity)]
  have weight_spec_pos : ∀ (g : EMStutterGenotyper) (a b r ph : ℕ),
    0 < g.weight_spec a b r ph := by
    intro g a b r ph
    exact Real.exp_pos _
  have contribution_spec_nonneg : ∀ (g : EMStutterGenotyper) (a b r ph : ℕ)
    (k : Bucket),
    0 ≤ g.contribution_spec a b r ph k := by
    intro g a b r ph k
    have hw := (weight_spec_pos g a b r ph).le
    have habs : ∀ e : ℤ, (0 : ℝ) ≤ ((|e| : ℤ) : ℝ) := fun e => by exact_mod_cast abs_nonneg e
    unfold EMStutterGenotyper.contribution_spec
    split_ifs <;> cases k <;> (try dsimp only) <;> first
      | exact hw
      | exact le_rfl
      | exact mul_nonneg hw (habs _)
  have contribution_sum_nonneg : ∀ (g : EMStutterGenotyper) (k : Bucket),
    0 ≤ ∑ a ∈ Finset.range g.num_alleles_, ∑ b ∈ Finset.range g.num_alleles_,
        ∑ r ∈ Finset.range g.num_reads_, ∑ phase ∈ Finset.range 2,
          g.contribution_spec a b r phase k := by
    intro g k
    exact Finset.sum_nonneg fun a _ => Finset.sum_nonneg fun b _ => Finset.sum_nonneg fun r _ =>
        Finset.sum_nonneg fun ph _ => contribution_spec_nonneg g a b r ph k
  have bucket_spec_ge : ∀ (g : EMStutterGenotyper) (k : Bucket),
    pseudo_count_spec k ≤ g.bucket_spec k := by
    intro g k
    unfold EMStutterGenotyper.bucket_spec
    linarith [contribution_sum_nonneg g k]
  have bucket_spec_in_eq_pos : ∀ (g : EMStutterGenotyper) (_ : g.WellFormed)
    (_ : 1 ≤ g.num_reads_),
    0 < g.bucket_spec .in_eq := by
    intro g hwf hR
    have hai : g.allele_index_.getD 0 0 < g.num_alleles_ :=
      hwf.allele_index_lt _ (getD_mem _ _ _ (by rw [hwf.allele_index_length]; omega))
    have hterm : g.contribution_spec (g.allele_index_.getD 0 0) 0 0 0 .in_eq
        = g.weight_spec (g.allele_index_.getD 0 0) 0 0 0 := by
      dsimp only [EMStutterGenotyper.contribution_spec]
      simp
    have h4 : g.contribution_spec (g.allele_index_.getD 0 0) 0 0 0 .in_eq
        ≤ ∑ phase ∈ Finset.range 2, g.contribution_spec (g.allele_index_.getD 0 0) 0 0 phase .in_eq :=
      Finset.single_le_sum (f := fun ph => g.contribution_spec (g.allele_index_.getD 0 0) 0 0 ph .in_eq)
        (fun ph _ => contribution_spec_nonneg g _ _ _ ph _) (Finset.mem_range.2 (by omega))
    have h3 : ∑ phase ∈ Finset.range 2, g.contribution_spec (g.allele_index_.getD 0 0) 0 0 phase .in_eq
        ≤ ∑ r ∈ Finset.range g.num_reads_, ∑ phase ∈ Finset.range 2,
            g.contribution_spec (g.allele_index_.getD 0 0) 0 r phase .in_eq :=
      Finset.single_le_sum
        (f := fun r => ∑ phase ∈ Finset.range 2,
          g.contribution_spec (g.allele_index_.getD 0 0) 0 r phase .in_eq)
        (fun r _ => Finset.sum_nonneg fun ph _ => contribution_spec_nonneg g _ _ _ ph _)
        (Finset.mem_range.2 (by omega))
    have h2 : ∑ r ∈ Finset.range g.num_reads_, ∑ phase ∈ Finset.range 2,
            g.contribution_spec (g.allele_index_.getD 0 0) 0 r phase .in_eq
        ≤ ∑ b ∈ Finset.range g.num_alleles_, ∑ r ∈ Finset.range g.num_reads_,
            ∑ phase ∈ Finset.range 2,
              g.contribution_spec (g.allele_index_.getD 0 0) b r phase .in_eq :=
      Finset.single_le_sum
        (f := fun b => ∑ r ∈ Finset.range g.num_reads_, ∑ phase ∈ Finset.range 2,
          g.contribution_spec (g.allele_index_.getD 0 0) b r phase .in_eq)
        (fun b _ => Finset.sum_nonneg fun r _ => Finset.sum_nonneg fun ph _ =>
          contribution_spec_nonneg g _ _ _ ph _)
        (Finset.mem_range.2 hwf.alleles_pos)
    have h1 : ∑ b ∈ Finset.range g.num_alleles_, ∑ r ∈ Finset.range g.num_reads_,
            ∑ phase ∈ Finset.range 2,
              g.contribution_spec (g.allele_index_.getD 0 0) b r phase .in_eq
        ≤ ∑ a ∈ Finset.range g.num_alleles_, ∑ b ∈ Finset.range g.num_alleles_,
            ∑ r ∈ Finset.range g.num_reads_, ∑ phase ∈ Finset.range 2,
              g.contribution_spec a b r phase .in_eq :=
      Finset.single_le_sum
        (f := fun a => ∑ b ∈ Finset.range g.num_alleles_, ∑ r ∈ Finset.range g.num_reads_,
          ∑ phase ∈ Finset.range 2, g.contribution_spec a b r phase .in_eq)
        (fun a _ => Finset.sum_nonneg fun b _ => Finset.sum_nonneg fun r _ =>
          Finset.sum_nonneg fun ph _ => contribution_spec_nonneg g _ _ _ ph _)
        (Finset.mem_range.2 hai)
    have hw := weight_spec_pos g (g.allele_index_.getD 0 0) 0 0 0
    unfold EMStutterGenotyper.bucket_spec
    dsimp only [pseudo_count_spec]
    simp only [zero_add]
    linarith
  have bucket_spec_pos : ∀ (g : EMStutterGenotyper) (_ : g.WellFormed)
    (_ : 1 ≤ g.num_reads_) (k : Bucket),
    0 < g.bucket_spec k := by
    intro g hwf hR k
    have h := bucket_spec_ge g k
    cases k
    case in_eq => exact bucket_spec_in_eq_pos g hwf hR
    all_goals (dsimp only [pseudo_count_spec] at h); linarith
  have recalc_stutter_model_eq : ∀ (g : EMStutterGenotyper)
    (_ : g.WellFormed) (_ : 1 ≤ g.num_reads_),
    g.recalc_stutter_model = some { g with stutter_model_ := some g.stutter_model_spec } := by
    intro g hwf hR
    obtain ⟨st, hst, hmass⟩ := stutter_counts_eq g hwf
    have hpos : ∀ k, 0 < st.counts.mass k := fun k => by
      rw [hmass]
      exact bucket_spec_pos g hwf hR k
    unfold EMStutterGenotyper.recalc_stutter_model
    simp only [hst, Option.bind_eq_bind, Option.some_bind, stutter_estimate_eq _ _ hpos, hmass]
    rfl
  have two_sample_state_recalc_stutter_model_none : two_sample_state.recalc_stutter_model = none := by
    unfold EMStutterGenotyper.recalc_stutter_model EMStutterGenotyper.stutter_counts
      EMStutterGenotyper.stutter_estimate
    dsimp only [two_sample_state, log_sum_exp, max_element]
    simp [forRange]
  have two_sample_state_bucket_spec : ∀ (k : Bucket),
    two_sample_state.bucket_spec k = pseudo_count_spec k := by
    intro k
    have hR : two_sample_state.num_reads_ = 0 := rfl
    unfold EMStutterGenotyper.bucket_spec
    rw [hR]
    simp
  have duplicate_length_state_wellFormed : duplicate_length_state.WellFormed := by
    constructor <;> (dsimp only [duplicate_length_state]; simp)
  have duplicate_length_state_buckets : duplicate_length_state.bucket_spec .in_up = 1 ∧
      duplicate_length_state.bucket_spec .in_down = 5 ∧
      duplicate_length_state.bucket_spec .in_diffs = 3 := by
    have hA : duplicate_length_state.num_alleles_ = 2 := rfl
    have hR : duplicate_length_state.num_reads_ = 1 := rfl
    have hw : ∀ a b r ph, a < 2 → b < 2 → r < 1 → ph < 2 →
        duplicate_length_state.weight_spec a b r ph = 1 := by
      intro a b r ph ha hb hr hph
      interval_cases a <;> interval_cases b <;> interval_cases r <;> interval_cases ph <;>
        (dsimp only [EMStutterGenotyper.weight_spec, duplicate_length_state]
         simp)
    have hd : ∀ a b r ph, a < 2 → b < 2 → r < 1 → ph < 2 →
        duplicate_length_state.bp_diff_spec a b r ph = 0 := by
      intro a b r ph ha hb hr hph
      interval_cases a <;> interval_cases b <;> interval_cases r <;> interval_cases ph <;>
        (dsimp only [EMStutterGenotyper.bp_diff_spec, duplicate_length_state]
         simp)
    have hai : duplicate_length_state.allele_index_.getD 0 0 = 0 := rfl
    have hM : duplicate_length_state.motif_len_ = 4 := rfl
    refine ⟨?_, ?_, ?_⟩ <;>
    · unfold EMStutterGenotyper.bucket_spec
      rw [hA, hR]
      dsimp only [EMStutterGenotyper.contribution_spec]
      simp only [Finset.sum_range_succ, Finset.sum_range_zero, zero_add, hai, hM]
      simp only [hw 0 0 0 0 (by omega) (by omega) (by omega) (by omega),
        hw 0 0 0 1 (by omega) (by omega) (by omega) (by omega),
        hw 0 1 0 0 (by omega) (by omega) (by omega) (by omega),
        hw 0 1 0 1 (by omega) (by omega) (by omega) (by omega),
        hw 1 0 0 0 (by omega) (by omega) (by omega) (by omega),
        hw 1 0 0 1 (by omega) (by omega) (by omega) (by omega),
        hw 1 1 0 0 (by omega) (by omega) (by omega) (by omega),
        hw 1 1 0 1 (by omega) (by omega) (by omega) (by omega),
        hd 0 0 0 0 (by omega) (by omega) (by omega) (by omega),
        hd 0 0 0 1 (by omega) (by omega) (by omega) (by omega),
        hd 0 1 0 0 (by omega) (by omega) (by omega) (by omega),
        hd 0 1 0 1 (by omega) (by omega) (by omega) (by omega),
        hd 1 0 0 0 (by omega) (by omega) (by omega) (by omega),
        hd 1 0 0 1 (by omega) (by omega) (by omega) (by omega),
        hd 1 1 0 0 (by omega) (by omega) (by omega) (by omega),
        hd 1 1 0 1 (by omega) (by omega) (by omega) (by omega)]
      dsimp only [pseudo_count_spec]
      simp <;> norm_num
  have one_le_abs_cast : ∀ {e : ℤ} (_ : e ≠ 0),
    (1 : ℝ) ≤ ((|e| : ℤ) : ℝ) := by
    intro e h
    have : (1 : ℤ) ≤ |e| := Int.one_le_abs h
    exact_mod_cast this
  have bp_diff_spec_ne_zero : ∀ (g : EMStutterGenotyper) (_ : g.WellFormed)
    (_ : g.bps_per_allele_.Nodup) (a b r ph : ℕ) (_ : a < g.num_alleles_)
    (_ : b < g.num_alleles_) (_ : r < g.num_reads_)
    (_ : ¬ g.allele_index_.getD r 0 = (if ph = 0 then a else b)),
    g.bp_diff_spec a b r ph ≠ 0 := by
    intro g hwf hnodup a b r ph ha hb hr hne
    have hai : g.allele_index_.getD r 0 < g.bps_per_allele_.length := by
      rw [hwf.bps_length]
      exact hwf.allele_index_lt _ (getD_mem _ _ _ (by rw [hwf.allele_index_length]; exact hr))
    have hgt : (if ph = 0 then a else b) < g.bps_per_allele_.length := by
      rw [hwf.bps_length]
      split_ifs
      · exact ha
      · exact hb
    unfold EMStutterGenotyper.bp_diff_spec
    rw [List.getD_eq_getElem _ _ hai, List.getD_eq_getElem _ _ hgt]
    intro h
    have h' : g.bps_per_allele_[g.allele_index_.getD r 0] = g.bps_per_allele_[if ph = 0 then a else b] := by
      omega
    exact hne (hnodup.getElem_inj_iff.1 h')
  have contribution_in_le : ∀ (g : EMStutterGenotyper) (_ : g.WellFormed)
    (_ : g.bps_per_allele_.Nodup) (a b r ph : ℕ) (_ : a < g.num_alleles_)
    (_ : b < g.num_alleles_) (_ : r < g.num_reads_),
    g.contribution_spec a b r ph .in_up + g.contribution_spec a b r ph .in_down
      ≤ g.contribution_spec a b r ph .in_diffs := by
    intro g hwf hnodup a b r ph ha hb hr
    have hw := (weight_spec_pos g a b r ph).le
    unfold EMStutterGenotyper.contribution_spec
    by_cases hc1 : g.allele_index_.getD r 0 = (if ph = 0 then a else b)
    · rw [if_pos hc1, if_pos hc1, if_pos hc1]
      simp
    · have hd := bp_diff_spec_ne_zero g hwf hnodup a b r ph ha hb hr hc1
      rw [if_neg hc1, if_neg hc1, if_neg hc1]
      by_cases hc2 : (g.bp_diff_spec a b r ph).tmod g.motif_len_ ≠ 0
      · rw [if_pos hc2, if_pos hc2, if_pos hc2]
        norm_num
      · rw [if_neg hc2, if_neg hc2, if_neg hc2]
        have hq : (g.bp_diff_spec a b r ph).tdiv g.motif_len_ ≠ 0 := by
          intro h0
          have := Int.tmod_add_tdiv (g.bp_diff_spec a b r ph) g.motif_len_
          rw [h0, not_not.1 hc2] at this
          simp at this
          exact hd this.symm
        have h1 := one_le_abs_cast hq
        have hmul : g.weight_spec a b r ph
            ≤ g.weight_spec a b r ph * ((|(g.bp_diff_spec a b r ph).tdiv g.motif_len_| : ℤ) : ℝ) :=
          le_mul_of_one_le_right hw h1
        dsimp only
        split_ifs <;> linarith
  have contribution_out_le : ∀ (g : EMStutterGenotyper) (_ : g.WellFormed)
    (a b r ph : ℕ),
    g.contribution_spec a b r ph .out_up + g.contribution_spec a b r ph .out_down
      ≤ g.contribution_spec a b r ph .out_diffs := by
    intro g hwf a b r ph
    have hw := (weight_spec_pos g a b r ph).le
    unfold EMStutterGenotyper.contribution_spec
    by_cases hc1 : g.allele_index_.getD r 0 = (if ph = 0 then a else b)
    · rw [if_pos hc1, if_pos hc1, if_pos hc1]
      simp
    · rw [if_neg hc1, if_neg hc1, if_neg hc1]
      by_cases hc2 : (g.bp_diff_spec a b r ph).tmod g.motif_len_ ≠ 0
      · rw [if_pos hc2, if_pos hc2, if_pos hc2]
        have h1 := one_le_abs_cast (eff_diff_ne_zero hwf.motif_pos hc2)
        have hmul : g.weight_spec a b r ph
            ≤ g.weight_spec a b r ph
              * ((|g.bp_diff_spec a b r ph - (g.bp_diff_spec a b r ph).tdiv g.motif_len_| : ℤ) : ℝ) :=
          le_mul_of_one_le_right hw h1
        dsimp only
        split_ifs <;> linarith
      · rw [if_neg hc2, if_neg hc2, if_neg hc2]
        norm_num
  have bucket_in_diffs_gt : ∀ (g : EMStutterGenotyper) (_ : g.WellFormed)
    (_ : g.bps_per_allele_.Nodup),
    g.bucket_spec .in_up + g.bucket_spec .in_down + 1 ≤ g.bucket_spec .in_diffs := by
    intro g hwf hnodup
    have hsum : ∑ a ∈ Finset.range g.num_alleles_, ∑ b ∈ Finset.range g.num_alleles_,
          ∑ r ∈ Finset.range g.num_reads_, ∑ ph ∈ Finset.range 2,
            (g.contribution_spec a b r ph .in_up + g.contribution_spec a b r ph .in_down)
        ≤ ∑ a ∈ Finset.range g.num_alleles_, ∑ b ∈ Finset.range g.num_alleles_,
          ∑ r ∈ Finset.range g.num_reads_, ∑ ph ∈ Finset.range 2,
            g.contribution_spec a b r ph .in_diffs :=
      Finset.sum_le_sum fun a ha => Finset.sum_le_sum fun b hb => Finset.sum_le_sum fun r hr =>
        Finset.sum_le_sum fun ph _ => contribution_in_le g hwf hnodup a b r ph
          (Finset.mem_range.1 ha) (Finset.mem_range.1 hb) (Finset.mem_range.1 hr)
    simp only [Finset.sum_add_distrib] at hsum
    unfold EMStutterGenotyper.bucket_spec
    dsimp only [pseudo_count_spec]
    linarith
  have bucket_out_diffs_gt : ∀ (g : EMStutterGenotyper) (_ : g.WellFormed),
    g.bucket_spec .out_up + g.bucket_spec .out_down + 1 ≤ g.bucket_spec .out_diffs := by
    intro g hwf
    have hsum : ∑ a ∈ Finset.range g.num_alleles_, ∑ b ∈ Finset.range g.num_alleles_,
          ∑ r ∈ Finset.range g.num_reads_, ∑ ph ∈ Finset.range 2,
            (g.contribution_spec a b r ph .out_up + g.contribution_spec a b r ph .out_down)
        ≤ ∑ a ∈ Finset.range g.num_alleles_, ∑ b ∈ Finset.range g.num_alleles_,
          ∑ r ∈ Finset.range g.num_reads_, ∑ ph ∈ Finset.range 2,
            g.contribution_spec a b r ph .out_diffs :=
      Finset.sum_le_sum fun a _ => Finset.sum_le_sum fun b _ => Finset.sum_le_sum fun r _ =>
        Finset.sum_le_sum fun ph _ => contribution_out_le g hwf a b r ph
    simp only [Finset.sum_add_distrib] at hsum
    unfold EMStutterGenotyper.bucket_spec
    dsimp only [pseudo_count_spec]
    linarith
  have geometric_parameters_of_nodup : ∀ (g : EMStutterGenotyper)
    (_ : g.WellFormed)
    (_ : 1 ≤ g.num_reads_) (_ : g.bps_per_allele_.Nodup),
    ∃ sm, g.recalc_stutter_model = some { g with stutter_model_ := some sm } ∧
      0 < sm.in_geom_ ∧ sm.in_geom_ < 1 ∧ 0 < sm.out_geom_ ∧ sm.out_geom_ < 1 := by
    intro g hwf hR hnodup
    have h1 := bucket_in_diffs_gt g hwf hnodup
    have h2 := bucket_out_diffs_gt g hwf
    have hp := bucket_spec_pos g hwf hR
    refine ⟨g.stutter_model_spec, recalc_stutter_model_eq g hwf hR, ?_, ?_, ?_, ?_⟩
    · exact div_pos (add_pos (hp _) (hp _)) (hp _)
    · show (g.bucket_spec .in_up + g.bucket_spec .in_down) / g.bucket_spec .in_diffs < 1
      rw [div_lt_one (hp _)]
      linarith
    · exact div_pos (add_pos (hp _) (hp _)) (hp _)
    · show (g.bucket_spec .out_up + g.bucket_spec .out_down) / g.bucket_spec .out_diffs < 1
      rw [div_lt_one (hp _)]
      linarith
  exact ⟨posterior_index_lt, bucket_spec_pos, recalc_stutter_model_eq, two_sample_state_recalc_stutter_model_none, two_sample_state_bucket_spec, duplicate_length_state_wellFormed, duplicate_length_state_buckets, geometric_parameters_of_nodup⟩

/-- C11, the code at a failing input: on the two-sample state, which is well formed and
has no read, the vector `in_log_eq` stays empty (it is the only one that line 77 does
not seed with a pseudo-count) and `log_sum_exp` dereferences the end of an empty range
on line 118: `recalc_stutter_model` has no result and installs no model.  The bucket
sums of the claim are the pseudo-counts there and its six ratios are defined:
`in_pup = in_pdown = 1/2`, `in_pgeom = 2/3`, `out_pup = out_pdown = 1/2` and
`out_pgeom = 2/3`. -/
theorem C11_recalc_stutter_model_evaluation :
    two_sample_state.WellFormed ∧ two_sample_state.num_reads_ = 0 ∧
      two_sample_state.recalc_stutter_model = none ∧
      two_sample_state.stutter_model_spec.in_up_ = 1 / 2 ∧
      two_sample_state.stutter_model_spec.in_down_ = 1 / 2 ∧
      two_sample_state.stutter_model_spec.in_geom_ = 2 / 3 ∧
      two_sample_state.stutter_model_spec.out_up_ = 1 / 2 ∧
      two_sample_state.stutter_model_spec.out_down_ = 1 / 2 ∧
      two_sample_state.stutter_model_spec.out_geom_ = 2 / 3 := by
  obtain ⟨two_sample_state_wellFormed, _, _, _, _, _, _, _⟩ := prior_and_posterior_facts
  obtain ⟨_, _, _, two_sample_state_recalc_stutter_model_none, two_sample_state_bucket_spec, _, _,
    _⟩ := stutter_refit_facts
  refine ⟨two_sample_state_wellFormed, rfl, two_sample_state_recalc_stutter_model_none,
    ?_, ?_, ?_, ?_, ?_, ?_⟩ <;>
    (dsimp only [EMStutterGenotyper.stutter_model_spec]
     simp only [two_sample_state_bucket_spec]
     dsimp only [pseudo_count_spec]
     norm_num)

/-- C12, the code at a failing input: on the state with two alleles of the same length
20 bp (motif length 4, one read of allele 0, tensor cells all 0) the weights of the
iterations with `g = 1` have `bp_diff = 0`: they enter `in_log_down` but add
`exp(log 0) = 0` to `in_log_diffs`, and `recalc_stutter_model` produces
`in_pgeom = (1 + 5)/3 = 2`, which is not below 1. -/
theorem C12_geometric_parameters_evaluation :
    duplicate_length_state.WellFormed ∧ (1 : ℤ) ≤ duplicate_length_state.motif_len_ ∧
      ∃ g' sm, duplicate_length_state.recalc_stutter_model = some g' ∧
        g'.stutter_model_ = some sm ∧ sm.in_geom_ = 2 ∧ ¬ sm.in_geom_ < 1 := by
  obtain ⟨_, _, recalc_stutter_model_eq, _, _, duplicate_length_state_wellFormed,
    duplicate_length_state_buckets, _⟩ := stutter_refit_facts
  have hrun := recalc_stutter_model_eq duplicate_length_state duplicate_length_state_wellFormed
    le_rfl
  obtain ⟨h1, h2, h3⟩ := duplicate_length_state_buckets
  have hval : duplicate_length_state.stutter_model_spec.in_geom_ = 2 := by
    dsimp only [EMStutterGenotyper.stutter_model_spec]
    simp only [h1, h2, h3]
    norm_num
  refine ⟨duplicate_length_state_wellFormed, by dsimp only [duplicate_length_state]; norm_num, _, _, hrun,
    rfl, hval, ?_⟩
  rw [hval]
  norm_num

/-- C13: on a well-formed state with at least one read, the model that
`recalc_stutter_model` produces has `in_pup`, `in_pdown`, `out_pup`, `out_pdown` in
`[0, 1)`, `in_pup + in_pdown < 1` and `out_pup + out_pdown <= 1`; the default model of
`init_stutter_model` satisfies the same relations. -/
theorem C13_stutter_invariants_preserved (g : EMStutterGenotyper) (hwf : g.WellFormed)
    (hR : 1 ≤ g.num_reads_) :
    (∃ sm, g.recalc_stutter_model = some { g with stutter_model_ := some sm } ∧
      0 ≤ sm.in_up_ ∧ sm.in_up_ < 1 ∧ 0 ≤ sm.in_down_ ∧ sm.in_down_ < 1 ∧
      0 ≤ sm.out_up_ ∧ sm.out_up_ < 1 ∧ 0 ≤ sm.out_down_ ∧ sm.out_down_ < 1 ∧
      sm.in_up_ + sm.in_down_ < 1 ∧ sm.out_up_ + sm.out_down_ ≤ 1) ∧
    (∃ sm, g.init_stutter_model.stutter_model_ = some sm ∧
      0 ≤ sm.in_up_ ∧ sm.in_up_ < 1 ∧ 0 ≤ sm.in_down_ ∧ sm.in_down_ < 1 ∧
      0 ≤ sm.out_up_ ∧ sm.out_up_ < 1 ∧ 0 ≤ sm.out_down_ ∧ sm.out_down_ < 1 ∧
      sm.in_up_ + sm.in_down_ < 1 ∧ sm.out_up_ + sm.out_down_ ≤ 1) := by
  obtain ⟨_, bucket_spec_pos, recalc_stutter_model_eq, _, _, _, _, _⟩ := stutter_refit_facts
  have hp := bucket_spec_pos g hwf hR
  have hU := hp .in_up
  have hD := hp .in_down
  have hE := hp .in_eq
  have hOU := hp .out_up
  have hOD := hp .out_down
  have hin : 0 < g.bucket_spec .in_up + g.bucket_spec .in_down + g.bucket_spec .in_eq := by
    linarith
  have hout : 0 < g.bucket_spec .out_up + g.bucket_spec .out_down := by linarith
  constructor
  · refine ⟨g.stutter_model_spec, recalc_stutter_model_eq g hwf hR, ?_, ?_, ?_, ?_, ?_, ?_, ?_,
      ?_, ?_, ?_⟩
    · exact (div_pos hU hin).le
    · show g.bucket_spec .in_up / _ < 1
      rw [div_lt_one hin]
      linarith
    · exact (div_pos hD hin).le
    · show g.bucket_spec .in_down / _ < 1
      rw [div_lt_one hin]
      linarith
    · exact (div_pos hOU hout).le
    · show g.bucket_spec .out_up / _ < 1
      rw [div_lt_one hout]
      linarith
    · exact (div_pos hOD hout).le
    · show g.bucket_spec .out_down / _ < 1
      rw [div_lt_one hout]
      linarith
    · show g.bucket_spec .in_up / _ + g.bucket_spec .in_down / _ < 1
      rw [← add_div, div_lt_one hin]
      linarith
    · show g.bucket_spec .out_up / _ + g.bucket_spec .out_down / _ ≤ 1
      rw [← add_div, div_self hout.ne']
  · refine ⟨_, rfl, ?_, ?_, ?_, ?_, ?_, ?_, ?_, ?_, ?_, ?_⟩ <;> norm_num

/-- Witness of C13 at the single-read state. -/
theorem C13_stutter_invariants_preserved_witness :
    single_read_state.WellFormed ∧ 1 ≤ single_read_state.num_reads_ ∧
      (∃ sm, single_read_state.recalc_stutter_model
          = some { single_read_state with stutter_model_ := some sm } ∧
        0 ≤ sm.in_up_ ∧ sm.in_up_ < 1 ∧ 0 ≤ sm.in_down_ ∧ sm.in_down_ < 1 ∧
        0 ≤ sm.out_up_ ∧ sm.out_up_ < 1 ∧ 0 ≤ sm.out_down_ ∧ sm.out_down_ < 1 ∧
        sm.in_up_ + sm.in_down_ < 1 ∧ sm.out_up_ + sm.out_down_ ≤ 1) ∧
      (∃ sm, single_read_state.init_stutter_model.stutter_model_ = some sm ∧
        0 ≤ sm.in_up_ ∧ sm.in_up_ < 1 ∧ 0 ≤ sm.in_down_ ∧ sm.in_down_ < 1 ∧
        0 ≤ sm.out_up_ ∧ sm.out_up_ < 1 ∧ 0 ≤ sm.out_down_ ∧ sm.out_down_ < 1 ∧
        sm.in_up_ + sm.in_down_ < 1 ∧ sm.out_up_ + sm.out_down_ ≤ 1) := by
  obtain ⟨_, _, _, _, _, _, _, _, single_read_state_wellFormed, _⟩ := read_phase_facts
  exact ⟨single_read_state_wellFormed, le_rfl,
      C13_stutter_invariants_preserved single_read_state single_read_state_wellFormed le_rfl⟩

/-! ## The training loop -/

theorem forRange_none_of_first {σ : Type} (n : ℕ) (hn : 1 ≤ n) (body : ℕ → σ → Option σ) (s : σ)
    (h : body 0 s = none) : forRange n body s = none := by
  induction n with
  | zero => omega
  | succ k ih =>
    rw [forRange_succ]
    rcases Nat.eq_zero_or_pos k with hk | hk
    · subst hk
      rw [forRange_zero]
      exact h
    · rw [ih hk]
      rfl

open EMStutterGenotyper StutterModel in
/-- Facts on the training loop, proved one after the other:
`recalc_log_sample_posteriors_none`, `train_none`, `train_nonpos`, `DBL_MIN_pos`,
`not_converged_sentinel`, `two_sample_state_total_LL_spec`. -/
theorem training_facts :
    (∀ (g : EMStutterGenotyper)
      (_ : 1 ≤ g.num_alleles_) (_ : 1 ≤ g.num_samples_),
      g.recalc_log_sample_posteriors = none) ∧
    (∀ (g : EMStutterGenotyper)
      (_ : 1 ≤ g.num_alleles_) (_ : 1 ≤ g.num_samples_) (max_iter : ℤ) (_ : 1 ≤ max_iter)
      (min_LL_abs_change min_LL_frac_change : ℝ),
      g.train max_iter min_LL_abs_change min_LL_frac_change = none) ∧
    (∀ (g : EMStutterGenotyper) (_ : g.WellFormed)
      (max_iter : ℤ) (_ : max_iter ≤ 0) (min_LL_abs_change min_LL_frac_change : ℝ),
      ∃ g1, g.train max_iter min_LL_abs_change min_LL_frac_change = some (g1, false)) ∧
    (0 < DBL_MIN) ∧
    (∀ (new_LL min_LL_abs_change
      min_LL_frac_change : ℝ) (_ : new_LL ≤ 0) (_ : min_LL_frac_change ≤ 1),
      ¬ EMStutterGenotyper.converged DBL_MIN new_LL min_LL_abs_change min_LL_frac_change) ∧
    (two_sample_state.total_LL_spec default_model = 0) := by
  obtain ⟨_, _, _, init_log_gt_priors_eq⟩ := prior_init_facts
  have accumulate_totals_nil : ∀ (g : EMStutterGenotyper)
    (_ : 1 ≤ g.num_alleles_) (_ : 1 ≤ g.num_samples_) (buf sample_max_LLs : List ℝ),
    g.accumulate_totals buf sample_max_LLs [] = none := by
    intro g hA hS buf sample_max_LLs
    unfold EMStutterGenotyper.accumulate_totals
    rw [forRange_none_of_first _ hA _ _
      (forRange_none_of_first _ hA _ _ (forRange_none_of_first _ hS _ _ (by simp)))]
    rfl
  have recalc_log_sample_posteriors_none : ∀ (g : EMStutterGenotyper)
    (_ : 1 ≤ g.num_alleles_) (_ : 1 ≤ g.num_samples_),
    g.recalc_log_sample_posteriors = none := by
    intro g hA hS
    unfold EMStutterGenotyper.recalc_log_sample_posteriors
    cases hsm : g.stutter_model_ with
    | none => rfl
    | some sm =>
      cases hacc : g.accumulate_LLs sm with
      | none => simp [hacc]
      | some r =>
        obtain ⟨buf, mx, p⟩ := r
        simp [hacc, accumulate_totals_nil g hA hS]
  have init_log_gt_priors_sizes : ∀ (g g1 : EMStutterGenotyper)
    (_ : g.init_log_gt_priors = some g1),
    g1.num_alleles_ = g.num_alleles_ ∧ g1.num_samples_ = g.num_samples_ := by
    intro g g1 h
    unfold EMStutterGenotyper.init_log_gt_priors at h
    simp only [Option.bind_eq_bind, Option.bind_eq_some, Option.some.injEq] at h
    obtain ⟨_, _, _, _, _, _, _, _, rfl⟩ := h
    exact ⟨rfl, rfl⟩
  have train_none : ∀ (g : EMStutterGenotyper)
    (_ : 1 ≤ g.num_alleles_) (_ : 1 ≤ g.num_samples_) (max_iter : ℤ) (_ : 1 ≤ max_iter)
    (min_LL_abs_change min_LL_frac_change : ℝ),
    g.train max_iter min_LL_abs_change min_LL_frac_change = none := by
    intro g hA hS max_iter hn min_LL_abs_change min_LL_frac_change
    unfold EMStutterGenotyper.train
    cases hinit : g.init_log_gt_priors with
    | none => rfl
    | some g1 =>
      obtain ⟨h1, h2⟩ := init_log_gt_priors_sizes g g1 hinit
      obtain ⟨n, hn⟩ : ∃ n, max_iter.toNat = n + 1 := ⟨max_iter.toNat - 1, by omega⟩
      rw [Option.some_bind, hn]
      change Option.bind (EMStutterGenotyper.recalc_log_sample_posteriors _) _ = none
      rw [recalc_log_sample_posteriors_none _
        (by show 1 ≤ g1.num_alleles_; omega) (by show 1 ≤ g1.num_samples_; omega)]
      rfl
  have train_nonpos : ∀ (g : EMStutterGenotyper) (_ : g.WellFormed)
    (max_iter : ℤ) (_ : max_iter ≤ 0) (min_LL_abs_change min_LL_frac_change : ℝ),
    ∃ g1, g.train max_iter min_LL_abs_change min_LL_frac_change = some (g1, false) := by
    intro g hwf max_iter hn min_LL_abs_change min_LL_frac_change
    unfold EMStutterGenotyper.train
    have h0 : max_iter.toNat = 0 := by omega
    rw [init_log_gt_priors_eq g hwf, Option.some_bind, h0]
    exact ⟨_, rfl⟩
  have DBL_MIN_pos : 0 < DBL_MIN := by
    unfold DBL_MIN
    positivity
  -- Against the sentinel of line 206 the test of line 217 fails for every total
  -- log-likelihood that is at most 0 when the fractional threshold is at most 1.
  have not_converged_sentinel : ∀ (new_LL min_LL_abs_change
    min_LL_frac_change : ℝ) (_ : new_LL ≤ 0) (_ : min_LL_frac_change ≤ 1),
    ¬ EMStutterGenotyper.converged DBL_MIN new_LL min_LL_abs_change min_LL_frac_change := by
    intro new_LL min_LL_abs_change min_LL_frac_change hLL hf
    rintro ⟨_, h2⟩
    have hpos := DBL_MIN_pos
    have : 1 ≤ -(new_LL - DBL_MIN) / DBL_MIN := by
      rw [le_div_iff₀ hpos]
      linarith
    linarith
  have two_sample_state_total_LL_spec : two_sample_state.total_LL_spec default_model = 0 := by
    unfold EMStutterGenotyper.total_LL_spec
    have hr : two_sample_state.num_reads_ = 0 := rfl
    have hs : two_sample_state.num_samples_ = 2 := rfl
    have ha : two_sample_state.num_alleles_ = 2 := rfl
    have hp : two_sample_state.log_gt_priors_ = [Real.log (1 / 2), Real.log (1 / 2)] := rfl
    have he : Real.exp (Real.log (1 / 2) + Real.log (1 / 2)) = 1 / 4 := by
      rw [Real.exp_add, Real.exp_log (by norm_num)]
      norm_num
    simp only [hr, hs, ha, hp, Finset.range_zero, Finset.filter_empty, Finset.sum_empty, add_zero,
      Finset.sum_range_succ, zero_add, List.getD_cons_zero, List.getD_cons_succ, he]
    norm_num
  exact ⟨recalc_log_sample_posteriors_none, train_none, train_nonpos, DBL_MIN_pos, not_converged_sentinel, two_sample_state_total_LL_spec⟩

/-- C14, the code at a failing input: on the state with two samples and no read,
`train(1, 0.01, 2)` has no result, because the E-step of its first iteration indexes
the vector `sample_total_LLs` that line 159 declares empty; and the sentinel of line 206
is the positive number `DBL_MIN`, against which the test of line 217 holds for the total
log-likelihood 0 that section 4.3 gives this input. -/
theorem C14_train_first_iteration :
    two_sample_state.WellFormed ∧
      two_sample_state.train 1 (1 / 100) 2 = none ∧
      0 < DBL_MIN ∧
      two_sample_state.total_LL_spec default_model = 0 ∧
      EMStutterGenotyper.converged DBL_MIN 0 (1 / 100) 2 := by
  obtain ⟨two_sample_state_wellFormed, _, _, _, _, _, _, _⟩ := prior_and_posterior_facts
  obtain ⟨_, train_none, _, DBL_MIN_pos, _, two_sample_state_total_LL_spec⟩ := training_facts
  refine ⟨two_sample_state_wellFormed,
    train_none two_sample_state (by decide) (by decide) 1 le_rfl _ _, DBL_MIN_pos,
    two_sample_state_total_LL_spec, ?_, ?_⟩
  · have := DBL_MIN_pos
    linarith
  · have := DBL_MIN_pos
    rw [zero_sub, neg_neg, div_self this.ne']
    norm_num

/-- C15, the code at a failing input: on the single-read state `train(100, 0.01, 0.001)`
has no result, because the E-step of its first iteration indexes the vector
`sample_total_LLs` that line 159 declares empty; with `max_iter = 0` the loop body is
not entered and the call returns `false`. -/
theorem C15_train_evaluation :
    single_read_state.WellFormed ∧
      single_read_state.train 100 (1 / 100) (1 / 1000) = none ∧
      ∃ g, single_read_state.train 0 (1 / 100) (1 / 1000) = some (g, false) := by
  obtain ⟨_, _, _, _, _, _, _, _, single_read_state_wellFormed, _⟩ := read_phase_facts
  obtain ⟨_, train_none, train_nonpos, _, _, _⟩ := training_facts
  exact ⟨single_read_state_wellFormed,
      train_none single_read_state (by decide) (by decide) 100 (by norm_num) _ _,
      train_nonpos single_read_state single_read_state_wellFormed 0 le_rfl _ _⟩

/-! ## The record of `write_vcf_record` -/

open EMStutterGenotyper StutterModel in
/-- Facts on the record of `write_vcf_record`, proved one after the other:
`map_genotypes_of_nonpos`, `two_sample_state_nonpos`, `two_sample_state_map_genotypes`,
`one_lt_exp_DBL_MIN`, `het_state_wellFormed`, `het_state_map_genotypes`,
`het_state_phase_probabilities_default`, `het_state_phase_probabilities_map`,
`single_read_state_read_phases`, `single_read_state_write_vcf_record`,
`two_sample_state_phase_probabilities`, `two_sample_state_read_phases`,
`two_sample_state_sample_column`, `get_parameter_in_P`, `get_parameter_in_U`,
`get_parameter_in_D`, `get_parameter_out_P`, `get_parameter_out_U`, `get_parameter_out_D`. -/
theorem record_facts :
    (∀ (g : EMStutterGenotyper)
      (_ : g.log_sample_posteriors_.length = g.num_alleles_ * g.num_alleles_ * g.num_samples_)
      (_ : ∀ v ∈ g.log_sample_posteriors_, v ≤ 0),
      g.map_genotypes
        = some (List.replicate g.num_samples_ ((-1 : ℤ), (-1 : ℤ)),
            List.replicate g.num_samples_ DBL_MIN)) ∧
    (∀ v ∈ two_sample_state.log_sample_posteriors_, v ≤ 0) ∧
    (two_sample_state.map_genotypes = some ([(-1, -1), (-1, -1)], [DBL_MIN, DBL_MIN])) ∧
    (1 < Real.exp DBL_MIN) ∧
    (het_state.WellFormed) ∧
    (het_state.map_genotypes = some ([(-1, -1)], [DBL_MIN])) ∧
    (het_state.phase_probabilities [(-1, -1)] [DBL_MIN] = some ([DBL_MIN], [1])) ∧
    (het_state.phase_probabilities [(0, 1)] [Real.log (1 / 2)] = some ([0], [1 / 2])) ∧
    (∀ (gts : List (ℤ × ℤ)),
      single_read_state.read_phases gts = none) ∧
    (∀ (sample_indices_ : String → Option ℕ)
      (fmt : ℝ → String) (chrom : String) (pos : ℕ) (sample_names : List String),
      single_read_state.write_vcf_record sample_indices_ fmt chrom pos sample_names = none) ∧
    (two_sample_state.phase_probabilities [(-1, -1), (-1, -1)] [DBL_MIN, DBL_MIN]
        = some ([DBL_MIN, DBL_MIN], [1, 1])) ∧
    (∀ (gts : List (ℤ × ℤ)),
      two_sample_state.read_phases gts = some []) ∧
    (∀ (fmt : ℝ → String) (gts : List (ℤ × ℤ))
      (log_phased_posteriors : List ℝ) (sample_index : ℕ),
      two_sample_state.sample_column fmt gts log_phased_posteriors [] sample_index = none) ∧
    (∀ (m : StutterModel),
      m.get_parameter true 'P' = some m.in_geom_) ∧
    (∀ (m : StutterModel),
      m.get_parameter true 'U' = some m.in_up_) ∧
    (∀ (m : StutterModel),
      m.get_parameter true 'D' = some m.in_down_) ∧
    (∀ (m : StutterModel),
      m.get_parameter false 'P' = some m.out_geom_) ∧
    (∀ (m : StutterModel),
      m.get_parameter false 'U' = some m.out_up_) ∧
    (∀ (m : StutterModel),
      m.get_parameter false 'D' = some m.out_down_) := by
  obtain ⟨_, log_sum_exp2_log, _, _, _, _, _, _⟩ := prior_and_posterior_facts
  obtain ⟨posterior_index_lt, _, _, _, _, _, _, _⟩ := stutter_refit_facts
  obtain ⟨_, _, _, DBL_MIN_pos, _, _⟩ := training_facts
  have map_genotype_step_of_nonpos : ∀ (g : EMStutterGenotyper)
    (index_1 index_2 sample_index ptr : ℕ) (gts : List (ℤ × ℤ)) (v : ℝ)
    (_ : g.log_sample_posteriors_[ptr]? = some v) (_ : v ≤ 0)
    (_ : sample_index < g.num_samples_),
    g.map_genotype_step index_1 index_2 sample_index
        (gts, List.replicate g.num_samples_ DBL_MIN, ptr)
      = some (gts, List.replicate g.num_samples_ DBL_MIN, ptr + 1) := by
    intro g index_1 index_2 sample_index ptr gts v hv hle hs
    have hcur : (List.replicate g.num_samples_ DBL_MIN)[sample_index]? = some DBL_MIN := by
      rw [List.getElem?_replicate, if_pos hs]
    have hlt : ¬ v > DBL_MIN := by
      have := DBL_MIN_pos
      intro h
      linarith
    unfold EMStutterGenotyper.map_genotype_step
    simp only [hv, hcur, Option.bind_eq_bind, Option.some_bind]
    rw [if_neg hlt]
  have map_genotypes_of_nonpos : ∀ (g : EMStutterGenotyper)
    (_ : g.log_sample_posteriors_.length = g.num_alleles_ * g.num_alleles_ * g.num_samples_)
    (_ : ∀ v ∈ g.log_sample_posteriors_, v ≤ 0),
    g.map_genotypes
      = some (List.replicate g.num_samples_ ((-1 : ℤ), (-1 : ℤ)),
          List.replicate g.num_samples_ DBL_MIN) := by
    intro g hlen hle
    have h3 : ∀ i1 i2, i1 < g.num_alleles_ → i2 < g.num_alleles_ →
        forRange g.num_samples_ (g.map_genotype_step i1 i2)
            (List.replicate g.num_samples_ ((-1 : ℤ), (-1 : ℤ)),
              List.replicate g.num_samples_ DBL_MIN, (i1 * g.num_alleles_ + i2) * g.num_samples_)
          = some (List.replicate g.num_samples_ ((-1 : ℤ), (-1 : ℤ)),
              List.replicate g.num_samples_ DBL_MIN,
              (i1 * g.num_alleles_ + (i2 + 1)) * g.num_samples_) := by
      intro i1 i2 h1 h2
      obtain ⟨s', hs', hI⟩ := forRange_inv g.num_samples_ (g.map_genotype_step i1 i2)
        (fun k st => st = (List.replicate g.num_samples_ ((-1 : ℤ), (-1 : ℤ)),
          List.replicate g.num_samples_ DBL_MIN, (i1 * g.num_alleles_ + i2) * g.num_samples_ + k))
        (List.replicate g.num_samples_ ((-1 : ℤ), (-1 : ℤ)),
          List.replicate g.num_samples_ DBL_MIN, (i1 * g.num_alleles_ + i2) * g.num_samples_)
        (by simp) (by
          intro k st hk hst
          subst hst
          have hidx := posterior_index_lt g i1 i2 k h1 h2 hk
          rw [← hlen] at hidx
          have hv : g.log_sample_posteriors_[(i1 * g.num_alleles_ + i2) * g.num_samples_ + k]?
              = some (g.log_sample_posteriors_[(i1 * g.num_alleles_ + i2) * g.num_samples_ + k]) :=
            List.getElem?_eq_getElem hidx
          exact ⟨_, map_genotype_step_of_nonpos g i1 i2 k _ _ _ hv
            (hle _ (List.getElem_mem _)) hk, rfl⟩)
      rw [hs', hI]
      congr 3
      ring
    have h2 : ∀ i1, i1 < g.num_alleles_ →
        forRange g.num_alleles_
            (fun index_2 st => forRange g.num_samples_ (g.map_genotype_step i1 index_2) st)
            (List.replicate g.num_samples_ ((-1 : ℤ), (-1 : ℤ)),
              List.replicate g.num_samples_ DBL_MIN, i1 * g.num_alleles_ * g.num_samples_)
          = some (List.replicate g.num_samples_ ((-1 : ℤ), (-1 : ℤ)),
              List.replicate g.num_samples_ DBL_MIN,
              (i1 + 1) * g.num_alleles_ * g.num_samples_) := by
      intro i1 h1
      obtain ⟨s', hs', hI⟩ := forRange_inv g.num_alleles_
        (fun index_2 st => forRange g.num_samples_ (g.map_genotype_step i1 index_2) st)
        (fun k st => st = (List.replicate g.num_samples_ ((-1 : ℤ), (-1 : ℤ)),
          List.replicate g.num_samples_ DBL_MIN, (i1 * g.num_alleles_ + k) * g.num_samples_))
        (List.replicate g.num_samples_ ((-1 : ℤ), (-1 : ℤ)),
          List.replicate g.num_samples_ DBL_MIN, i1 * g.num_alleles_ * g.num_samples_)
        (by simp) (by
          intro k st hk hst
          subst hst
          exact ⟨_, h3 i1 k h1 hk, rfl⟩)
      rw [hs', hI]
      congr 3
      ring
    obtain ⟨s', hs', hI⟩ := forRange_inv g.num_alleles_
      (fun index_1 st => forRange g.num_alleles_
        (fun index_2 st => forRange g.num_samples_ (g.map_genotype_step index_1 index_2) st) st)
      (fun k st => st = (List.replicate g.num_samples_ ((-1 : ℤ), (-1 : ℤ)),
        List.replicate g.num_samples_ DBL_MIN, k * g.num_alleles_ * g.num_samples_))
      (List.replicate g.num_samples_ ((-1 : ℤ), (-1 : ℤ)),
        List.replicate g.num_samples_ DBL_MIN, 0) (by simp) (by
        intro k st hk hst
        subst hst
        exact ⟨_, h2 k hk, rfl⟩)
    unfold EMStutterGenotyper.map_genotypes
    rw [hs', hI]
    rfl
  have two_sample_state_nonpos : ∀ v ∈ two_sample_state.log_sample_posteriors_, v ≤ 0 := by
    have h2 : Real.log (1 / 2) ≤ 0 := Real.log_nonpos (by norm_num) (by norm_num)
    have h4 : Real.log (1 / 4) ≤ 0 := Real.log_nonpos (by norm_num) (by norm_num)
    have h8 : Real.log (1 / 8) ≤ 0 := Real.log_nonpos (by norm_num) (by norm_num)
    intro v hv
    dsimp only [two_sample_state] at hv
    simp only [List.mem_cons, List.mem_singleton, List.not_mem_nil,
      or_false] at hv
    rcases hv with rfl | rfl | rfl | rfl | rfl | rfl | rfl | rfl <;> assumption
  have two_sample_state_map_genotypes : two_sample_state.map_genotypes = some ([(-1, -1), (-1, -1)], [DBL_MIN, DBL_MIN]) := by
    exact map_genotypes_of_nonpos two_sample_state rfl two_sample_state_nonpos
  have one_lt_exp_DBL_MIN : 1 < Real.exp DBL_MIN := by
    have := Real.add_one_lt_exp DBL_MIN_pos.ne'
    have := DBL_MIN_pos
    linarith
  have het_state_wellFormed : het_state.WellFormed := by
    refine ⟨?_, ?_, ?_, ?_, ?_, ?_, ?_, ?_, ?_, ?_, ?_, ?_, ?_, ?_⟩
    · decide
    · decide
    · exact rfl
    · exact rfl
    · exact rfl
    · exact rfl
    · exact rfl
    · exact rfl
    · exact rfl
    · exact rfl
    · exact rfl
    · dsimp only [het_state]; simp
    · dsimp only [het_state]; simp
    · intro s hs
      have hs0 : s = 0 := by
        have : s < 1 := hs
        omega
      subst hs0
      dsimp only [het_state]
      simp
  have het_state_nonpos : ∀ v ∈ het_state.log_sample_posteriors_, v ≤ 0 := by
    have h2 : Real.log (1 / 2) ≤ 0 := Real.log_nonpos (by norm_num) (by norm_num)
    have h4 : Real.log (1 / 4) ≤ 0 := Real.log_nonpos (by norm_num) (by norm_num)
    have h8 : Real.log (1 / 8) ≤ 0 := Real.log_nonpos (by norm_num) (by norm_num)
    intro v hv
    dsimp only [het_state] at hv
    simp only [List.mem_cons, List.mem_singleton, List.not_mem_nil, or_false] at hv
    rcases hv with rfl | rfl | rfl | rfl <;> assumption
  have het_state_map_genotypes : het_state.map_genotypes = some ([(-1, -1)], [DBL_MIN]) := by
    exact map_genotypes_of_nonpos het_state rfl het_state_nonpos
  have het_state_phase_probabilities_default : het_state.phase_probabilities [(-1, -1)] [DBL_MIN] = some ([DBL_MIN], [1]) := by
    unfold EMStutterGenotyper.phase_probabilities
    have hS : het_state.num_samples_ = 1 := rfl
    rw [hS]
    simp [forRange]
    norm_num
  have het_state_phase_probabilities_map : het_state.phase_probabilities [(0, 1)] [Real.log (1 / 2)] = some ([0], [1 / 2]) := by
    have hsum : log_sum_exp2 (Real.log (1 / 2)) (Real.log (1 / 2)) = 0 := by
      rw [log_sum_exp2_log _ _ (by norm_num) (by norm_num)]
      norm_num
    have hread : read_at het_state.log_sample_posteriors_
        ((0 : ℤ) * (het_state.num_alleles_ : ℤ) * (het_state.num_samples_ : ℤ)
          + 1 * (het_state.num_samples_ : ℤ) + ((0 : ℕ) : ℤ)) = some (Real.log (1 / 2)) := by
      dsimp only [read_at, het_state]
      simp
    unfold EMStutterGenotyper.phase_probabilities
    have hS : het_state.num_samples_ = 1 := rfl
    rw [hS]
    simp only [forRange, Option.some_bind, List.getElem?_cons_zero, Option.bind_eq_bind]
    rw [if_neg (by decide)]
    rw [← hS, hread]
    simp only [Option.some_bind, hsum, List.nil_append, sub_zero]
    rw [Real.exp_log (by norm_num)]
  have single_read_state_read_phases : ∀ (gts : List (ℤ × ℤ)),
    single_read_state.read_phases gts = none := by
    intro gts
    unfold EMStutterGenotyper.read_phases
    have hR : single_read_state.num_reads_ = 1 := rfl
    have hl : single_read_state.sample_label_ = [0] := rfl
    rw [hR, hl]
    cases hg : gts[0]? <;> simp [forRange, hg]
  have single_read_state_write_vcf_record : ∀ (sample_indices_ : String → Option ℕ)
    (fmt : ℝ → String) (chrom : String) (pos : ℕ) (sample_names : List String),
    single_read_state.write_vcf_record sample_indices_ fmt chrom pos sample_names = none := by
    intro sample_indices_ fmt chrom pos sample_names
    unfold EMStutterGenotyper.write_vcf_record
    cases hm : single_read_state.map_genotypes with
    | none => rfl
    | some r =>
      obtain ⟨gts, lp⟩ := r
      cases hp : single_read_state.phase_probabilities gts lp with
      | none => simp [hp]
      | some q => simp [hp, single_read_state_read_phases]
  have two_sample_state_phase_probabilities : two_sample_state.phase_probabilities [(-1, -1), (-1, -1)] [DBL_MIN, DBL_MIN]
      = some ([DBL_MIN, DBL_MIN], [1, 1]) := by
    unfold EMStutterGenotyper.phase_probabilities
    have hS : two_sample_state.num_samples_ = 2 := rfl
    rw [hS]
    simp [forRange]
    norm_num
  have two_sample_state_read_phases : ∀ (gts : List (ℤ × ℤ)),
    two_sample_state.read_phases gts = some [] := by
    intro gts
    exact rfl
  have two_sample_state_sample_column : ∀ (fmt : ℝ → String) (gts : List (ℤ × ℤ))
    (log_phased_posteriors : List ℝ) (sample_index : ℕ),
    two_sample_state.sample_column fmt gts log_phased_posteriors [] sample_index = none := by
    intro fmt gts log_phased_posteriors sample_index
    unfold EMStutterGenotyper.sample_column
    cases two_sample_state.reads_per_sample_[sample_index]? <;> simp
  have get_parameter_in_P : ∀ (m : StutterModel),
    m.get_parameter true 'P' = some m.in_geom_ := by
    intro m
    exact rfl
  have get_parameter_in_U : ∀ (m : StutterModel),
    m.get_parameter true 'U' = some m.in_up_ := by
    intro m
    exact rfl
  have get_parameter_in_D : ∀ (m : StutterModel),
    m.get_parameter true 'D' = some m.in_down_ := by
    intro m
    exact rfl
  have get_parameter_out_P : ∀ (m : StutterModel),
    m.get_parameter false 'P' = some m.out_geom_ := by
    intro m
    exact rfl
  have get_parameter_out_U : ∀ (m : StutterModel),
    m.get_parameter false 'U' = some m.out_up_ := by
    intro m
    exact rfl
  have get_parameter_out_D : ∀ (m : StutterModel),
    m.get_parameter false 'D' = some m.out_down_ := by
    intro m
    exact rfl
  exact ⟨map_genotypes_of_nonpos, two_sample_state_nonpos, two_sample_state_map_genotypes, one_lt_exp_DBL_MIN, het_state_wellFormed, het_state_map_genotypes, het_state_phase_probabilities_default, het_state_phase_probabilities_map, single_read_state_read_phases, single_read_state_write_vcf_record, two_sample_state_phase_probabilities, two_sample_state_read_phases, two_sample_state_sample_column, get_parameter_in_P, get_parameter_in_U, get_parameter_in_D, get_parameter_out_P, get_parameter_out_U, get_parameter_out_D⟩

/-- C17, the code at a failing input: on the state with two samples, whose tensor of
genotype posteriors is normalised (all entries at most 0) and has its maximum for sample
0 at `P[0][0][0] = log (1/2)`, lines 239 to 256 of `write_vcf_record` leave every pair
at `(-1, -1)` and every `log_phased_posteriors` entry at `DBL_MIN`, because line 240
starts the running maximum at the positive number `DBL_MIN`, which no entry exceeds;
the posterior `exp(DBL_MIN)` exceeds 1. -/
theorem C17_map_genotype_extraction :
    two_sample_state.WellFormed ∧
      (∀ v ∈ two_sample_state.log_sample_posteriors_, v ≤ 0) ∧
      two_sample_state.log_sample_posteriors_[0]? = some (Real.log (1 / 2)) ∧
      two_sample_state.map_genotypes = some ([(-1, -1), (-1, -1)], [DBL_MIN, DBL_MIN]) ∧
      0 < DBL_MIN ∧ 1 < Real.exp DBL_MIN := by
  obtain ⟨two_sample_state_wellFormed, _, _, _, _, _, _, _⟩ := prior_and_posterior_facts
  obtain ⟨_, _, _, DBL_MIN_pos, _, _⟩ := training_facts
  obtain ⟨_, two_sample_state_nonpos, two_sample_state_map_genotypes, one_lt_exp_DBL_MIN, _, _, _,
    _, _, _, _, _, _, _, _, _, _, _, _⟩ := record_facts
  exact ⟨two_sample_state_wellFormed, two_sample_state_nonpos, rfl, two_sample_state_map_genotypes,
      DBL_MIN_pos, one_lt_exp_DBL_MIN⟩

/-- C18, the code at a failing input: on the state whose normalised tensor has its
maximum at the heterozygous cell `P[0][1][0] = log (1/2)`, with `P[1][0][0] = log (1/4)`,
lines 258 to 272 of `write_vcf_record` receive the pair `(-1, -1)` and `DBL_MIN` from
lines 239 to 256 and yield `DBL_MIN` and 1; given the maximal pair `(0, 1)` and its
value they yield `log_sum_exp(P[0][1][0], P[0][1][0]) = 0` and `1/2`, because line 266
reads the cell `P[0][1][0]` a second time; the values of the claim are `log (3/4)` and
`2/3`. -/
theorem C18_unphased_posterior_evaluation :
    het_state.WellFormed ∧
      het_state.map_genotypes = some ([(-1, -1)], [DBL_MIN]) ∧
      het_state.phase_probabilities [(-1, -1)] [DBL_MIN] = some ([DBL_MIN], [1]) ∧
      het_state.phase_probabilities [(0, 1)] [Real.log (1 / 2)] = some ([0], [1 / 2]) ∧
      log_sum_exp2 (Real.log (1 / 2)) (Real.log (1 / 4)) = Real.log (3 / 4) ∧
      Real.exp (Real.log (1 / 2) - Real.log (3 / 4)) = 2 / 3 ∧
      Real.log (3 / 4) ≠ 0 := by
  obtain ⟨_, log_sum_exp2_log, _, _, _, _, _, _⟩ := prior_and_posterior_facts
  obtain ⟨_, _, _, _, het_state_wellFormed, het_state_map_genotypes,
    het_state_phase_probabilities_default, het_state_phase_probabilities_map, _, _, _, _, _, _,
    _, _, _, _, _⟩ := record_facts
  refine ⟨het_state_wellFormed, het_state_map_genotypes, het_state_phase_probabilities_default,
    het_state_phase_probabilities_map, ?_, ?_, ?_⟩
  · rw [log_sum_exp2_log _ _ (by norm_num) (by norm_num)]
    norm_num
  · rw [Real.exp_sub, Real.exp_log (by norm_num), Real.exp_log (by norm_num)]
    norm_num
  · have : Real.log (3 / 4) < 0 := Real.log_neg (by norm_num) (by norm_num)
    exact this.ne

/-- C19, the code at a failing input: on the single-read state lines 274 to 279 of
`write_vcf_record` have no result whatever the genotypes, because they index the vector
`log_read_phases` that line 241 declares without a size; on the state with two samples
and no read the column of the sample `s1` of the index has no result for the same
reason, and `log_sum_exp` has no result on the empty vector of a sample without reads;
the claim gives this sample the read counts 0 and 0. -/
theorem C19_phase_read_counts_evaluation :
    single_read_state.WellFormed ∧ two_sample_state.WellFormed ∧
      (∀ gts, single_read_state.read_phases gts = none) ∧
      (∀ fmt gts log_phased_posteriors,
        two_sample_state.sample_column fmt gts log_phased_posteriors [] 0 = none) ∧
      (∀ fmt, two_sample_state.write_vcf_record one_sample_index fmt "chr1" 100 ["s1"] = none) ∧
      log_sum_exp [] = none ∧
      two_sample_state.reads_per_sample_[0]? = some 0 := by
  obtain ⟨_, _, _, _, _, _, _, _, single_read_state_wellFormed, _⟩ := read_phase_facts
  obtain ⟨two_sample_state_wellFormed, _, _, _, _, _, _, _⟩ := prior_and_posterior_facts
  obtain ⟨_, _, two_sample_state_map_genotypes, _, _, _, _, _, single_read_state_read_phases, _,
    two_sample_state_phase_probabilities, two_sample_state_read_phases,
    two_sample_state_sample_column, get_parameter_in_P, get_parameter_in_U, get_parameter_in_D,
    get_parameter_out_P, get_parameter_out_U, get_parameter_out_D⟩ := record_facts
  refine ⟨single_read_state_wellFormed, two_sample_state_wellFormed,
    single_read_state_read_phases, fun fmt gts lp => two_sample_state_sample_column fmt gts lp 0,
    ?_, rfl, rfl⟩
  intro fmt
  unfold EMStutterGenotyper.write_vcf_record
  have hsm : two_sample_state.stutter_model_ = some default_model := rfl
  have hidx : one_sample_index "s1" = some 0 := rfl
  simp only [two_sample_state_map_genotypes, two_sample_state_phase_probabilities,
    two_sample_state_read_phases, hsm, Option.bind_eq_bind, Option.some_bind,
    get_parameter_in_P, get_parameter_in_U,
    get_parameter_in_D, get_parameter_out_P,
    get_parameter_out_U, get_parameter_out_D,
    List.length_singleton, forRange, List.getElem?_cons_zero, hidx,
    two_sample_state_sample_column, Option.none_bind]

/-- C20, the code at a failing input: on the single-read state `write_vcf_record` has no
result for any index, any list of names and any position, because lines 274 to 279
index the vector `log_read_phases` that line 241 declares without a size; on the state
with two samples and no read, with an empty index, the record for the requested name
`s1` is the line of 6 tab-separated fields that ends in the placeholder. -/
theorem C20_record_evaluation :
    single_read_state.WellFormed ∧
      (∀ sample_indices_ fmt chrom pos sample_names,
        single_read_state.write_vcf_record sample_indices_ fmt chrom pos sample_names = none) ∧
      (∀ fmt, two_sample_state.write_vcf_record empty_sample_index fmt "chr1" 100 ["s1"]
        = some ("chr1" ++ "\t" ++ "100" ++ "\t" ++ "."
          ++ "\tINFRAME_PGEOM=" ++ fmt 0.9 ++ ";"
          ++ "INFRAME_UP=" ++ fmt 0.1 ++ ";"
          ++ "INFRAME_DOWN=" ++ fmt 0.1 ++ ";"
          ++ "OUTFRAME_PGEOM=" ++ fmt 0.8 ++ ";"
          ++ "OUTFRAME_UP=" ++ fmt 0.01 ++ ";"
          ++ "OUTFRAME_DOWN=" ++ fmt 0.01 ++ ";"
          ++ "\tGT:POSTERIOR:TOTALREADS:CHROMREADS:PHASEDREADS"
          ++ "\t" ++ ".")) := by
  obtain ⟨_, _, _, _, _, _, _, _, single_read_state_wellFormed, _⟩ := read_phase_facts
  obtain ⟨_, _, two_sample_state_map_genotypes, _, _, _, _, _, _,
    single_read_state_write_vcf_record, two_sample_state_phase_probabilities,
    two_sample_state_read_phases, _, get_parameter_in_P, get_parameter_in_U, get_parameter_in_D,
    get_parameter_out_P, get_parameter_out_U, get_parameter_out_D⟩ := record_facts
  refine ⟨single_read_state_wellFormed, single_read_state_write_vcf_record, ?_⟩
  intro fmt
  unfold EMStutterGenotyper.write_vcf_record
  have hsm : two_sample_state.stutter_model_ = some default_model := rfl
  have hpos : toString (100 : ℕ) = "100" := rfl
  simp only [two_sample_state_map_genotypes, two_sample_state_phase_probabilities,
    two_sample_state_read_phases, hsm, Option.bind_eq_bind, Option.some_bind,
    get_parameter_in_P, get_parameter_in_U,
    get_parameter_in_D, get_parameter_out_P,
    get_parameter_out_U, get_parameter_out_D,
    List.length_singleton, forRange, List.getElem?_cons_zero, empty_sample_index, hpos]
  rfl

/-! ## The effective out-of-frame difference -/

theorem eff_diff_neg_arg (M d : ℤ) : eff_diff M (-d) = -eff_diff M d := by
  unfold eff_diff
  rw [Int.neg_tdiv]
  ring

/-! ## `condense_read_counts` -/

theorem map_increment_keys (m : List (ℤ × ℤ)) (key v : ℤ) :
    v ∈ (map_increment m key).map Prod.fst ↔ v = key ∨ v ∈ m.map Prod.fst := by
  induction m with
  | nil => simp [map_increment]
  | cons p rest ih =>
    obtain ⟨k, c⟩ := p
    unfold map_increment
    split_ifs with h1 h2
    · simp
    · subst h2
      simp
    · simp only [List.map_cons, List.mem_cons, ih]
      tauto

theorem map_increment_sorted (m : List (ℤ × ℤ)) (key : ℤ)
    (hs : (m.map Prod.fst).Pairwise (· < ·)) :
    ((map_increment m key).map Prod.fst).Pairwise (· < ·) := by
  induction m with
  | nil => simp [map_increment]
  | cons p rest ih =>
    obtain ⟨k, c⟩ := p
    simp only [List.map_cons, List.pairwise_cons] at hs
    unfold map_increment
    split_ifs with h1 h2
    · simp only [List.map_cons, List.pairwise_cons, List.mem_cons]
      refine ⟨?_, hs⟩
      rintro b (rfl | hb)
      · exact h1
      · exact lt_trans h1 (hs.1 b hb)
    · simp only [List.map_cons, List.pairwise_cons]
      exact hs
    · simp only [List.map_cons, List.pairwise_cons]
      refine ⟨?_, ih hs.2⟩
      intro b hb
      rcases (map_increment_keys rest key b).1 hb with rfl | hb
      · omega
      · exact hs.1 b hb

theorem map_increment_mem (m : List (ℤ × ℤ)) (key : ℤ)
    (hs : (m.map Prod.fst).Pairwise (· < ·)) (v c : ℤ) :
    (v, c) ∈ map_increment m key ↔
      (v ≠ key ∧ (v, c) ∈ m) ∨
      (v = key ∧ ((key ∉ m.map Prod.fst ∧ c = 1) ∨ ∃ c0, (key, c0) ∈ m ∧ c = c0 + 1)) := by
  induction m with
  | nil =>
    simp only [map_increment, List.mem_singleton, Prod.mk.injEq, List.not_mem_nil, and_false,
      false_or, List.map_nil, not_false_eq_true, true_and, false_and, exists_false, or_false]
  | cons p rest ih =>
    obtain ⟨k, c1⟩ := p
    simp only [List.map_cons, List.pairwise_cons] at hs
    have hk : ∀ c', (k, c') ∉ rest := by
      intro c' hmem
      have := hs.1 k (List.mem_map.2 ⟨(k, c'), hmem, rfl⟩)
      omega
    unfold map_increment
    split_ifs with h1 h2
    · have hnot : key ∉ ((k, c1) :: rest).map Prod.fst := by
        simp only [List.map_cons, List.mem_cons, not_or]
        refine ⟨by omega, ?_⟩
        intro hmem
        have := hs.1 key hmem
        omega
      have hnot2 : ∀ c0, (key, c0) ∉ (k, c1) :: rest := by
        intro c0 hmem
        exact hnot (List.mem_map.2 ⟨(key, c0), hmem, rfl⟩)
      constructor
      · intro h
        rcases List.mem_cons.1 h with e | e
        · obtain ⟨rfl, rfl⟩ := Prod.mk.inj e
          exact Or.inr ⟨rfl, Or.inl ⟨hnot, rfl⟩⟩
        · by_cases hv : v = key
          · subst hv
            exact absurd e (hnot2 c)
          · exact Or.inl ⟨hv, e⟩
      · rintro (⟨_, h⟩ | ⟨rfl, ⟨_, rfl⟩ | ⟨c0, h, _⟩⟩)
        · exact List.mem_cons_of_mem _ h
        · exact List.mem_cons_self _ _
        · exact absurd h (hnot2 c0)
    · subst h2
      constructor
      · intro h
        rcases List.mem_cons.1 h with e | e
        · obtain ⟨rfl, rfl⟩ := Prod.mk.inj e
          exact Or.inr ⟨rfl, Or.inr ⟨c1, List.mem_cons_self _ _, rfl⟩⟩
        · have hv : v ≠ key := by
            rintro rfl
            exact hk c e
          exact Or.inl ⟨hv, List.mem_cons_of_mem _ e⟩
      · rintro (⟨hv, h⟩ | ⟨rfl, ⟨hnot, _⟩ | ⟨c0, h, rfl⟩⟩)
        · rcases List.mem_cons.1 h with e | e
          · exact absurd (Prod.mk.inj e).1 hv
          · exact List.mem_cons_of_mem _ e
        · exact absurd (List.mem_cons_self _ _) hnot
        · rcases List.mem_cons.1 h with e | e
          · obtain ⟨-, rfl⟩ := Prod.mk.inj e
            exact List.mem_cons_self _ _
          · exact absurd e (hk c0)
    · have hlt : k < key := by omega
      have ih' := ih hs.2
      constructor
      · intro h
        rcases List.mem_cons.1 h with e | e
        · obtain ⟨rfl, rfl⟩ := Prod.mk.inj e
          exact Or.inl ⟨by omega, List.mem_cons_self _ _⟩
        · rcases ih'.1 e with ⟨hv, hm⟩ | ⟨rfl, ⟨hnot, rfl⟩ | ⟨c0, hm, rfl⟩⟩
          · exact Or.inl ⟨hv, List.mem_cons_of_mem _ hm⟩
          · refine Or.inr ⟨rfl, Or.inl ⟨?_, rfl⟩⟩
            simp only [List.map_cons, List.mem_cons, not_or]
            exact ⟨by omega, hnot⟩
          · exact Or.inr ⟨rfl, Or.inr ⟨c0, List.mem_cons_of_mem _ hm, rfl⟩⟩
      · rintro (⟨hv, h⟩ | ⟨rfl, ⟨hnot, rfl⟩ | ⟨c0, h, rfl⟩⟩)
        · rcases List.mem_cons.1 h with e | e
          · rw [e]
            exact List.mem_cons_self _ _
          · exact List.mem_cons_of_mem _ (ih'.2 (Or.inl ⟨hv, e⟩))
        · simp only [List.map_cons, List.mem_cons, not_or] at hnot
          exact List.mem_cons_of_mem _ (ih'.2 (Or.inr ⟨rfl, Or.inl ⟨hnot.2, rfl⟩⟩))
        · rcases List.mem_cons.1 h with e | e
          · exact absurd (Prod.mk.inj e).1 (by omega)
          · exact List.mem_cons_of_mem _ (ih'.2 (Or.inr ⟨rfl, Or.inr ⟨c0, e, rfl⟩⟩))

theorem map_increment_sum (m : List (ℤ × ℤ)) (key : ℤ) :
    ((map_increment m key).map Prod.snd).sum = (m.map Prod.snd).sum + 1 := by
  induction m with
  | nil => simp [map_increment]
  | cons p rest ih =>
    obtain ⟨k, c⟩ := p
    unfold map_increment
    split_ifs with h1 h2
    · simp only [List.map_cons, List.sum_cons]
      ring
    · simp only [List.map_cons, List.sum_cons]
      ring
    · simp only [List.map_cons, List.sum_cons, ih]
      ring

theorem diff_counts_append (l : List ℤ) (key : ℤ) :
    diff_counts (l ++ [key]) = map_increment (diff_counts l) key := by
  simp [diff_counts, List.foldl_append]

theorem condense_fold_eq (l : List (ℤ × ℤ)) (acc : String) (n : ℕ) (hn : 1 ≤ n) :
    (l.enumFrom n).foldl
        (fun res (entry : ℕ × ℤ × ℤ) =>
          (if entry.1 ≠ 0 then res ++ ";" else res) ++ toString entry.2.1 ++ "|"
            ++ toString entry.2.2)
        acc
      = String.intercalate.go acc ";"
          (l.map fun p => toString p.1 ++ "|" ++ toString p.2) := by
  induction l generalizing acc n with
  | nil => rfl
  | cons p rest ih =>
    have hn0 : n ≠ 0 := by omega
    simp only [List.enumFrom_cons, List.foldl_cons, List.map_cons, String.intercalate.go]
    rw [ih _ _ (by omega), if_pos hn0]
    simp only [String.append_assoc]

theorem condense_read_counts_eq (l : List ℤ) (hl : l ≠ []) :
    condense_read_counts l
      = ";".intercalate ((diff_counts l).map fun p => toString p.1 ++ "|" ++ toString p.2) := by
  have hlen : ¬ l.length = 0 := by
    rw [List.length_eq_zero]
    exact hl
  unfold condense_read_counts
  rw [if_neg hlen]
  cases hd : diff_counts l with
  | nil => rfl
  | cons p rest =>
    simp only [List.enum, List.enumFrom_cons, List.foldl_cons, List.map_cons,
      String.intercalate]
    rw [condense_fold_eq _ _ _ le_rfl]
    simp

/-! ## The out-of-frame directions, `genotype`, emission and the single-allele scenario -/

open EMStutterGenotyper StutterModel in
/-- Facts on the effective difference, on `genotype` and on the single-allele scenario, proved one after the other:
`log_pmf_at_out_of_frame`, `eff_diff_strictMono`, `diff_counts_spec`,
`stutter_estimate_out_sum`, `genotype_fatal_iff`, `genotype_undefined`, `write_vcf_record_none`,
`two_sample_state_write_vcf_record_no_names`, `init_log_gt_priors_single_allele`,
`scenario_S1_state_wellFormed`, `scenario_S1_state_recalc_log_gt_priors`. -/
theorem genotype_facts :
    (∀ (m : StutterModel) (bp_diff : ℤ)
      (_ : bp_diff.tmod m.motif_len_ ≠ 0),
      m.log_pmf_at bp_diff
        = if eff_diff m.motif_len_ bp_diff < 0 then
            m.out_log_down_ + m.out_log_nostep_
              + m.out_log_step_ * ((-eff_diff m.motif_len_ bp_diff - 1 : ℤ) : ℝ)
          else
            m.out_log_up_ + m.out_log_nostep_
              + m.out_log_step_ * ((eff_diff m.motif_len_ bp_diff - 1 : ℤ) : ℝ)) ∧
    (∀ {M d e : ℤ} (_ : 2 ≤ M) (_ : d < e)
      (_ : d.tmod M ≠ 0) (_ : e.tmod M ≠ 0),
      eff_diff M d < eff_diff M e) ∧
    (∀ (l : List ℤ),
      ((diff_counts l).map Prod.fst).Pairwise (· < ·) ∧
        (∀ v c, (v, c) ∈ diff_counts l ↔ v ∈ l ∧ c = (l.count v : ℤ)) ∧
        ((diff_counts l).map Prod.snd).sum = (l.length : ℤ)) ∧
    (∀ (c : EMStutterGenotyper.StutterCounts) (motif_len : ℤ)
      (sm : StutterModel) (_ : EMStutterGenotyper.stutter_estimate c motif_len = some sm),
      sm.out_up_ + sm.out_down_ = 1 ∧ 0 < sm.out_up_ ∧ 0 < sm.out_down_) ∧
    (∀ (g : EMStutterGenotyper),
      (∃ message, g.genotype = Except.error message) ↔ g.stutter_model_ = none) ∧
    (∀ (g : EMStutterGenotyper) (sm : StutterModel)
      (_ : g.stutter_model_ = some sm) (_ : 1 ≤ g.num_alleles_) (_ : 1 ≤ g.num_samples_),
      g.genotype = Except.ok none) ∧
    (∀ (g : EMStutterGenotyper)
      (_ : 1 ≤ g.num_reads_) (sample_indices_ : String → Option ℕ) (fmt : ℝ → String)
      (chrom : String) (pos : ℕ) (sample_names : List String),
      g.write_vcf_record sample_indices_ fmt chrom pos sample_names = none) ∧
    (∀ (fmt : ℝ → String),
      two_sample_state.write_vcf_record empty_sample_index fmt "chr1" 100 []
        = some (default_record fmt)) ∧
    (∀ (g : EMStutterGenotyper)
      (_ : g.WellFormed) (_ : g.num_alleles_ = 1),
      ∃ g', g.init_log_gt_priors = some g' ∧ g'.log_gt_priors_ = [0]) ∧
    (scenario_S1_state.WellFormed) ∧
    (scenario_S1_state.recalc_log_gt_priors = none) := by
  obtain ⟨eff_diff_pos, eff_diff_neg, _, _, _, _, _, _, _, _, _⟩ := log_pmf_facts
  obtain ⟨_, _, _, log_sum_exp2_eq, _, _, _⟩ := upper_tail_facts
  obtain ⟨_, sum_prior_weights, _, init_log_gt_priors_eq⟩ := prior_init_facts
  obtain ⟨recalc_log_sample_posteriors_none, _, _, _, _, _⟩ := training_facts
  obtain ⟨_, _, two_sample_state_map_genotypes, _, _, _, _, _, _, _,
    two_sample_state_phase_probabilities, two_sample_state_read_phases, _, get_parameter_in_P,
    get_parameter_in_U, get_parameter_in_D, get_parameter_out_P, get_parameter_out_U,
    get_parameter_out_D⟩ := record_facts
  have log_pmf_at_out_of_frame : ∀ (m : StutterModel) (bp_diff : ℤ)
    (_ : bp_diff.tmod m.motif_len_ ≠ 0),
    m.log_pmf_at bp_diff
      = if eff_diff m.motif_len_ bp_diff < 0 then
          m.out_log_down_ + m.out_log_nostep_
            + m.out_log_step_ * ((-eff_diff m.motif_len_ bp_diff - 1 : ℤ) : ℝ)
        else
          m.out_log_up_ + m.out_log_nostep_
            + m.out_log_step_ * ((eff_diff m.motif_len_ bp_diff - 1 : ℤ) : ℝ) := by
    intro m bp_diff h
    unfold StutterModel.log_pmf_at eff_diff
    simp only []
    rw [if_pos h]
  have eff_diff_lt_of_pos : ∀ {M d e : ℤ} (_ : 2 ≤ M) (_ : 0 < d) (_ : d < e)
    (_ : e.tmod M ≠ 0),
    eff_diff M d < eff_diff M e := by
    intro M d e hM hd hde hme
    have hM0 : (0 : ℤ) < M := by omega
    have he : 0 < e := by omega
    unfold eff_diff
    rw [Int.tmod_eq_emod he.le hM0.le] at hme
    rw [Int.tdiv_eq_ediv hd.le hM0.le, Int.tdiv_eq_ediv he.le hM0.le]
    have hq : d / M ≤ e / M := Int.ediv_le_ediv hM0 hde.le
    have h1 := Int.emod_add_ediv d M
    have h2 := Int.emod_add_ediv e M
    have h3 := Int.emod_nonneg d hM0.ne'
    have h4 := Int.emod_lt_of_pos d hM0
    have h5 := Int.emod_nonneg e hM0.ne'
    have h6 := Int.emod_lt_of_pos e hM0
    rcases hq.eq_or_lt with h | h
    · rw [h]
      omega
    · have hprod : 0 ≤ (M - 1) * (e / M - d / M - 1) :=
        mul_nonneg (by omega) (by omega)
      have hr : 1 ≤ e % M := by omega
      nlinarith
  have eff_diff_strictMono : ∀ {M d e : ℤ} (_ : 2 ≤ M) (_ : d < e)
    (_ : d.tmod M ≠ 0) (_ : e.tmod M ≠ 0),
    eff_diff M d < eff_diff M e := by
    intro M d e hM hde hmd hme
    have hM1 : (1 : ℤ) ≤ M := by omega
    rcases lt_trichotomy d 0 with hd | hd | hd
    · rcases lt_trichotomy e 0 with he | he | he
      · have hmd2 : (-d).tmod M ≠ 0 := by
          rw [neg_tmod_eq]
          omega
        have := eff_diff_lt_of_pos hM (by omega : 0 < -e) (by omega : -e < -d) hmd2
        rw [eff_diff_neg_arg, eff_diff_neg_arg] at this
        omega
      · subst he
        exact absurd (tmod_zero_left M) hme
      · have h1 := eff_diff_neg hM1 hmd hd
        have h2 := eff_diff_pos hM1 hme he
        unfold eff_diff
        omega
    · subst hd
      exact absurd (tmod_zero_left M) hmd
    · exact eff_diff_lt_of_pos hM hd hde hme
  have diff_counts_spec : ∀ (l : List ℤ),
    ((diff_counts l).map Prod.fst).Pairwise (· < ·) ∧
      (∀ v c, (v, c) ∈ diff_counts l ↔ v ∈ l ∧ c = (l.count v : ℤ)) ∧
      ((diff_counts l).map Prod.snd).sum = (l.length : ℤ) := by
    intro l
    induction l using List.reverseRecOn with
    | nil => simp [diff_counts]
    | append_singleton l key ih =>
      obtain ⟨hs, hm, hsum⟩ := ih
      rw [diff_counts_append]
      refine ⟨map_increment_sorted _ _ hs, ?_, ?_⟩
      · intro v c
        have hkeys : key ∈ (diff_counts l).map Prod.fst ↔ key ∈ l := by
          constructor
          · intro h
            obtain ⟨p, hp, rfl⟩ := List.mem_map.1 h
            exact ((hm p.1 p.2).1 hp).1
          · intro h
            exact List.mem_map.2 ⟨(key, (l.count key : ℤ)), (hm _ _).2 ⟨h, rfl⟩, rfl⟩
        rw [map_increment_mem _ _ hs, hkeys]
        simp only [hm, List.mem_append, List.mem_singleton, List.count_append]
        constructor
        · rintro (⟨hv, hl, rfl⟩ | ⟨rfl, ⟨hnot, rfl⟩ | ⟨c0, ⟨hl, rfl⟩, rfl⟩⟩)
          · refine ⟨Or.inl hl, ?_⟩
            have : [key].count v = 0 := by
              rw [List.count_eq_zero]
              simp only [List.mem_singleton]
              exact hv
            rw [this]
            simp
          · refine ⟨Or.inr rfl, ?_⟩
            rw [List.count_eq_zero.2 hnot]
            simp
          · refine ⟨Or.inr rfl, ?_⟩
            simp
        · rintro ⟨hmem, rfl⟩
          by_cases hv : v = key
          · subst hv
            refine Or.inr ⟨rfl, ?_⟩
            by_cases hl : v ∈ l
            · exact Or.inr ⟨_, ⟨hl, rfl⟩, by simp⟩
            · refine Or.inl ⟨hl, ?_⟩
              rw [List.count_eq_zero.2 hl]
              simp
          · refine Or.inl ⟨hv, ?_, ?_⟩
            · rcases hmem with h | h
              · exact h
              · exact absurd h hv
            · have : [key].count v = 0 := by
                rw [List.count_eq_zero]
                simp only [List.mem_singleton]
                exact hv
              rw [this]
              simp
      · rw [map_increment_sum, hsum]
        simp
  have stutter_estimate_out_sum : ∀ (c : EMStutterGenotyper.StutterCounts) (motif_len : ℤ)
    (sm : StutterModel) (_ : EMStutterGenotyper.stutter_estimate c motif_len = some sm),
    sm.out_up_ + sm.out_down_ = 1 ∧ 0 < sm.out_up_ ∧ 0 < sm.out_down_ := by
    intro c motif_len sm h
    unfold EMStutterGenotyper.stutter_estimate at h
    simp only [Option.bind_eq_bind, Option.bind_eq_some, Option.some.injEq] at h
    obtain ⟨_, _, _, _, _, _, _, _, u, _, d, _, _, _, rfl⟩ := h
    refine ⟨?_, Real.exp_pos _, Real.exp_pos _⟩
    show Real.exp (u - log_sum_exp2 u d) + Real.exp (d - log_sum_exp2 u d) = 1
    rw [log_sum_exp2_eq, Real.exp_sub, Real.exp_sub,
      Real.exp_log (add_pos (Real.exp_pos u) (Real.exp_pos d)), ← add_div]
    exact div_self (add_pos (Real.exp_pos u) (Real.exp_pos d)).ne'
  have genotype_fatal_iff : ∀ (g : EMStutterGenotyper),
    (∃ message, g.genotype = Except.error message) ↔ g.stutter_model_ = none := by
    intro g
    unfold EMStutterGenotyper.genotype
    cases h : g.stutter_model_ with
    | none => simp
    | some sm => simp
  have genotype_undefined : ∀ (g : EMStutterGenotyper) (sm : StutterModel)
    (_ : g.stutter_model_ = some sm) (_ : 1 ≤ g.num_alleles_) (_ : 1 ≤ g.num_samples_),
    g.genotype = Except.ok none := by
    intro g sm hsm hA hS
    unfold EMStutterGenotyper.genotype
    rw [hsm, recalc_log_sample_posteriors_none g hA hS]
    rfl
  have read_phases_none : ∀ (g : EMStutterGenotyper) (_ : 1 ≤ g.num_reads_)
    (gts : List (ℤ × ℤ)),
    g.read_phases gts = none := by
    intro g hR gts
    unfold EMStutterGenotyper.read_phases
    apply forRange_none_of_first _ hR
    cases h1 : g.sample_label_[0]? with
    | none => simp [h1]
    | some s =>
      cases h2 : gts[s]? with
      | none => simp [h1, h2]
      | some gt => simp [h1, h2]
  have write_vcf_record_none : ∀ (g : EMStutterGenotyper)
    (_ : 1 ≤ g.num_reads_) (sample_indices_ : String → Option ℕ) (fmt : ℝ → String)
    (chrom : String) (pos : ℕ) (sample_names : List String),
    g.write_vcf_record sample_indices_ fmt chrom pos sample_names = none := by
    intro g hR sample_indices_ fmt chrom pos sample_names
    unfold EMStutterGenotyper.write_vcf_record
    cases hm : g.map_genotypes with
    | none => rfl
    | some r =>
      obtain ⟨gts, lp⟩ := r
      cases hp : g.phase_probabilities gts lp with
      | none => simp [hp]
      | some q => simp [hp, read_phases_none g hR]
  have two_sample_state_write_vcf_record_no_names : ∀ (fmt : ℝ → String),
    two_sample_state.write_vcf_record empty_sample_index fmt "chr1" 100 []
      = some (default_record fmt) := by
    intro fmt
    unfold EMStutterGenotyper.write_vcf_record
    have hsm : two_sample_state.stutter_model_ = some default_model := rfl
    have hpos : toString (100 : ℕ) = "100" := rfl
    simp only [two_sample_state_map_genotypes, two_sample_state_phase_probabilities,
      two_sample_state_read_phases, hsm, Option.bind_eq_bind, Option.some_bind,
      get_parameter_in_P, get_parameter_in_U,
      get_parameter_in_D, get_parameter_out_P,
      get_parameter_out_U, get_parameter_out_D,
      List.length_nil, forRange, hpos]
    rfl
  have init_log_gt_priors_single_allele : ∀ (g : EMStutterGenotyper)
    (_ : g.WellFormed) (_ : g.num_alleles_ = 1),
    ∃ g', g.init_log_gt_priors = some g' ∧ g'.log_gt_priors_ = [0] := by
    intro g hwf hA
    refine ⟨_, init_log_gt_priors_eq g hwf, ?_⟩
    have hsum := sum_prior_weights g hwf
    rw [hA, Finset.sum_range_one] at hsum
    show (List.range g.num_alleles_).map _ = [0]
    rw [hA]
    have hrange : List.range 1 = [0] := rfl
    rw [hrange]
    simp only [List.map_cons, List.map_nil, hsum, Nat.cast_one, sub_self]
  have scenario_S1_state_wellFormed : scenario_S1_state.WellFormed := by
    refine ⟨?_, ?_, ?_, ?_, ?_, ?_, ?_, ?_, ?_, ?_, ?_, ?_, ?_, ?_⟩
    · decide
    · decide
    · exact rfl
    · exact rfl
    · exact rfl
    · exact rfl
    · exact rfl
    · exact rfl
    · exact rfl
    · exact rfl
    · exact rfl
    · intro a ha
      have : a = 0 := List.eq_of_mem_replicate ha
      subst this
      decide
    · intro s hs
      have : s = 0 := List.eq_of_mem_replicate hs
      subst this
      decide
    · intro s hs
      have hs0 : s = 0 := by
        have : s < 1 := hs
        omega
      subst hs0
      dsimp only [scenario_S1_state]
      simp
  have scenario_S1_state_recalc_log_gt_priors : scenario_S1_state.recalc_log_gt_priors = none := by
    unfold EMStutterGenotyper.recalc_log_gt_priors
    dsimp only [scenario_S1_state, fill]
    simp [forRange]
  exact ⟨log_pmf_at_out_of_frame, eff_diff_strictMono, diff_counts_spec, stutter_estimate_out_sum, genotype_fatal_iff, genotype_undefined, write_vcf_record_none, two_sample_state_write_vcf_record_no_names, init_log_gt_priors_single_allele, scenario_S1_state_wellFormed, scenario_S1_state_recalc_log_gt_priors⟩

/-- C25: for every motif length `M >= 2` and every `bp_diff` that is not a multiple of
`M`, the effective difference `bp_diff - bp_diff/M` is not zero and has the sign of
`bp_diff`, and it is strictly smaller than the effective difference of every larger
`bp_diff` that is not a multiple of `M`; so two distinct out-of-frame differences have
distinct effective differences. -/
theorem C25_eff_diff_sign_and_order (M bp_diff : ℤ) (hM : 2 ≤ M) (h : bp_diff.tmod M ≠ 0) :
    eff_diff M bp_diff ≠ 0 ∧
      (0 < bp_diff ↔ 0 < eff_diff M bp_diff) ∧
      (bp_diff < 0 ↔ eff_diff M bp_diff < 0) ∧
      (∀ d, d.tmod M ≠ 0 → bp_diff < d → eff_diff M bp_diff < eff_diff M d) ∧
      (∀ d, d.tmod M ≠ 0 → d ≠ bp_diff → eff_diff M d ≠ eff_diff M bp_diff) := by
  obtain ⟨eff_diff_pos, eff_diff_neg, eff_diff_ne_zero, _, _, _, _, _, _, _, _⟩ := log_pmf_facts
  obtain ⟨_, eff_diff_strictMono, _, _, _, _, _, _, _, _, _⟩ := genotype_facts
  have hM1 : (1 : ℤ) ≤ M := by omega
  have hne : bp_diff ≠ 0 := by
    rintro rfl
    exact h (tmod_zero_left M)
  have hpos : 0 < bp_diff → 0 < eff_diff M bp_diff := eff_diff_pos hM1 h
  have hneg : bp_diff < 0 → eff_diff M bp_diff < 0 := eff_diff_neg hM1 h
  refine ⟨eff_diff_ne_zero hM1 h, ⟨hpos, fun h0 => ?_⟩, ⟨hneg, fun h0 => ?_⟩,
    fun d hd hlt => eff_diff_strictMono hM hlt h hd, fun d hd hdne => ?_⟩
  · rcases lt_or_gt_of_ne hne with h1 | h1
    · have := hneg h1
      omega
    · exact h1
  · rcases lt_or_gt_of_ne hne with h1 | h1
    · exact h1
    · have := hpos h1
      omega
  · rcases lt_or_gt_of_ne hdne with h1 | h1
    · exact (eff_diff_strictMono hM h1 hd h).ne
    · exact (eff_diff_strictMono hM h1 h hd).ne'

/-- Witness of C25 at `M = 4`, `bp_diff = 7`. -/
theorem C25_eff_diff_sign_and_order_witness :
    (2 : ℤ) ≤ 4 ∧ (7 : ℤ).tmod 4 ≠ 0 ∧
      eff_diff 4 7 ≠ 0 ∧
      ((0 : ℤ) < 7 ↔ 0 < eff_diff 4 7) ∧
      ((7 : ℤ) < 0 ↔ eff_diff 4 7 < 0) ∧
      (∀ d : ℤ, d.tmod 4 ≠ 0 → 7 < d → eff_diff 4 7 < eff_diff 4 d) ∧
      (∀ d : ℤ, d.tmod 4 ≠ 0 → d ≠ 7 → eff_diff 4 d ≠ eff_diff 4 7) :=
  ⟨by decide, by decide, C25_eff_diff_sign_and_order 4 7 (by decide) (by decide)⟩

/-- C24: `condense_read_counts` returns `.` for the empty list, and for every non-empty
list the text made of the entries `key|count` of a list of pairs joined by `;`, where
the keys are in strictly increasing order, the keys are the values of the input, each
count is the number of occurrences of its key in the input, and the counts sum to the
length of the input. -/
theorem C24_condense_read_counts (read_diffs : List ℤ) :
    (read_diffs = [] → condense_read_counts read_diffs = ".") ∧
      (read_diffs ≠ [] → ∃ pairs : List (ℤ × ℤ),
        pairs = diff_counts read_diffs ∧ pairs ≠ [] ∧
        condense_read_counts read_diffs
          = ";".intercalate (pairs.map fun p => toString p.1 ++ "|" ++ toString p.2) ∧
        (pairs.map Prod.fst).Pairwise (· < ·) ∧
        (∀ v, v ∈ pairs.map Prod.fst ↔ v ∈ read_diffs) ∧
        (∀ p ∈ pairs, p.2 = (read_diffs.count p.1 : ℤ)) ∧
        (pairs.map Prod.snd).sum = (read_diffs.length : ℤ)) := by
  obtain ⟨_, _, diff_counts_spec, _, _, _, _, _, _, _, _⟩ := genotype_facts
  constructor
  · rintro rfl
    rfl
  · intro hne
    obtain ⟨hs, hm, hsum⟩ := diff_counts_spec read_diffs
    refine ⟨_, rfl, ?_, condense_read_counts_eq _ hne, hs, ?_, ?_, hsum⟩
    · obtain ⟨x, hx⟩ := List.exists_mem_of_ne_nil _ hne
      intro h
      have := (hm x _).2 ⟨hx, rfl⟩
      rw [h] at this
      exact List.not_mem_nil _ this
    · intro v
      constructor
      · intro h
        obtain ⟨p, hp, rfl⟩ := List.mem_map.1 h
        exact ((hm p.1 p.2).1 hp).1
      · intro h
        exact List.mem_map.2 ⟨(v, (read_diffs.count v : ℤ)), (hm _ _).2 ⟨h, rfl⟩, rfl⟩
    · intro p hp
      exact ((hm p.1 p.2).1 hp).2

/-- Witness of C24 at the list `-1, 0, -1, 2, 2, 1` of the comment on line 59 of
`genotyper.h`, whose text is `-1|2;0|1;1|1;2|2`. -/
theorem C24_condense_read_counts_witness :
    ([-1, 0, -1, 2, 2, 1] : List ℤ) ≠ [] ∧
      condense_read_counts [-1, 0, -1, 2, 2, 1] = "-1|2;0|1;1|1;2|2" ∧
      ∃ pairs : List (ℤ × ℤ),
        pairs = diff_counts [-1, 0, -1, 2, 2, 1] ∧ pairs ≠ [] ∧
        condense_read_counts [-1, 0, -1, 2, 2, 1]
          = ";".intercalate (pairs.map fun p => toString p.1 ++ "|" ++ toString p.2) ∧
        (pairs.map Prod.fst).Pairwise (· < ·) ∧
        (∀ v, v ∈ pairs.map Prod.fst ↔ v ∈ ([-1, 0, -1, 2, 2, 1] : List ℤ)) ∧
        (∀ p ∈ pairs, p.2 = ((([-1, 0, -1, 2, 2, 1] : List ℤ).count p.1 : ℕ) : ℤ)) ∧
        (pairs.map Prod.snd).sum = ((([-1, 0, -1, 2, 2, 1] : List ℤ).length : ℕ) : ℤ) :=
  ⟨by decide, by decide, (C24_condense_read_counts [-1, 0, -1, 2, 2, 1]).2 (by decide)⟩

/-- C27: whenever `recalc_stutter_model` returns, on any state, the model it installs
has `out_pup + out_pdown = 1` with both strictly positive; and it does return on every
well-formed state with at least one read. -/
theorem C27_out_of_frame_directions_sum_to_one (g : EMStutterGenotyper) :
    (∀ g', g.recalc_stutter_model = some g' →
      ∃ sm, g'.stutter_model_ = some sm ∧
        sm.out_up_ + sm.out_down_ = 1 ∧ 0 < sm.out_up_ ∧ 0 < sm.out_down_) ∧
    (g.WellFormed → 1 ≤ g.num_reads_ → ∃ g', g.recalc_stutter_model = some g') := by
  obtain ⟨_, _, recalc_stutter_model_eq, _, _, _, _, _⟩ := stutter_refit_facts
  obtain ⟨_, _, _, stutter_estimate_out_sum, _, _, _, _, _, _, _⟩ := genotype_facts
  constructor
  · intro g' h
    unfold EMStutterGenotyper.recalc_stutter_model at h
    simp only [Option.bind_eq_bind, Option.bind_eq_some, Option.some.injEq] at h
    obtain ⟨st, _, sm, hsm, rfl⟩ := h
    exact ⟨sm, rfl, stutter_estimate_out_sum _ _ _ hsm⟩
  · intro hwf hR
    exact ⟨_, recalc_stutter_model_eq g hwf hR⟩

/-- Witness of C27 at the single-read state. -/
theorem C27_out_of_frame_directions_sum_to_one_witness :
    single_read_state.WellFormed ∧ 1 ≤ single_read_state.num_reads_ ∧
      (∃ g', single_read_state.recalc_stutter_model = some g') ∧
      (∀ g', single_read_state.recalc_stutter_model = some g' →
        ∃ sm, g'.stutter_model_ = some sm ∧
          sm.out_up_ + sm.out_down_ = 1 ∧ 0 < sm.out_up_ ∧ 0 < sm.out_down_) := by
  obtain ⟨_, _, _, _, _, _, _, _, single_read_state_wellFormed, _⟩ := read_phase_facts
  exact ⟨single_read_state_wellFormed, le_rfl,
      (C27_out_of_frame_directions_sum_to_one single_read_state).2
        single_read_state_wellFormed le_rfl,
      (C27_out_of_frame_directions_sum_to_one single_read_state).1⟩

/-- C23, the code at a failing input: `genotype` ends the program with the error message
exactly when no stutter model is installed; on the single-read state, where the default
model is installed, it does not reach the error, but its first E-step indexes the vector
`sample_total_LLs` that line 159 declares empty, so the call has no result and no tensor
is refreshed. -/
theorem C23_genotype_evaluation :
    (∀ g : EMStutterGenotyper,
      (∃ message, g.genotype = Except.error message) ↔ g.stutter_model_ = none) ∧
    single_read_state.WellFormed ∧
    single_read_state.stutter_model_ = some default_model ∧
    single_read_state.genotype = Except.ok none ∧
    single_read_state.recalc_log_sample_posteriors = none := by
  obtain ⟨_, _, _, _, _, _, _, _, single_read_state_wellFormed, _⟩ := read_phase_facts
  obtain ⟨_, _, _, _, _, _, single_read_state_recalc_none, _⟩ := prior_and_posterior_facts
  obtain ⟨_, _, _, _, genotype_fatal_iff, genotype_undefined, _, _, _, _, _⟩ := genotype_facts
  exact ⟨genotype_fatal_iff, single_read_state_wellFormed, rfl,
      genotype_undefined single_read_state default_model rfl (by decide) (by decide),
      single_read_state_recalc_none⟩

/-- C21, the code at a failing input: on the single-read state the first call of
`write_vcf_record` already has no result, for every index, formatter and argument list,
because lines 274 to 279 index the vector `log_read_phases` that line 241 declares
without a size; the same holds on every state with at least one read, so there is no
output of which a second call could write an identical copy.  A call returns on the
state with two samples and no read, with an empty index and no requested name, and
writes the five leading fields there. -/
theorem C21_emission_evaluation :
    single_read_state.WellFormed ∧
      (∀ sample_indices_ fmt chrom pos sample_names,
        single_read_state.write_vcf_record sample_indices_ fmt chrom pos sample_names = none) ∧
      (∀ g : EMStutterGenotyper, 1 ≤ g.num_reads_ →
        ∀ sample_indices_ fmt chrom pos sample_names,
          g.write_vcf_record sample_indices_ fmt chrom pos sample_names = none) ∧
      (∀ fmt, two_sample_state.write_vcf_record empty_sample_index fmt "chr1" 100 []
        = some (default_record fmt)) := by
  obtain ⟨_, _, _, _, _, _, _, _, single_read_state_wellFormed, _⟩ := read_phase_facts
  obtain ⟨_, _, _, _, _, _, write_vcf_record_none, two_sample_state_write_vcf_record_no_names, _,
    _, _⟩ := genotype_facts
  exact ⟨single_read_state_wellFormed,
      fun sample_indices_ fmt chrom pos sample_names =>
        write_vcf_record_none single_read_state le_rfl sample_indices_ fmt chrom pos sample_names,
      fun g hR sample_indices_ fmt chrom pos sample_names =>
        write_vcf_record_none g hR sample_indices_ fmt chrom pos sample_names,
      two_sample_state_write_vcf_record_no_names⟩

/-- C22, the code at a failing input: on scenario S1 (one allele of 20 bp, motif length
4, one sample, 10 reads of allele 0 with `logp1 = logp2 = log 0.5`) the prior
initialisation yields `pi[0] = 0`, but the M-step for the priors reads the cell at offset
`(0 + 1) * num_alleles_ = 1` of a tensor of one cell and has no result, the E-step has no
result (the vector `sample_total_LLs` of line 159 is empty), the genotype extraction of
lines 239 to 256 leaves the pair `(-1, -1)` and `DBL_MIN` for `P[0][0][0] = 0`, and
`write_vcf_record` has no result. -/
theorem C22_single_allele_evaluation :
    scenario_S1_state.WellFormed ∧
      (∃ g', scenario_S1_state.init_log_gt_priors = some g' ∧ g'.log_gt_priors_ = [0]) ∧
      scenario_S1_state.recalc_log_gt_priors = none ∧
      scenario_S1_state.recalc_log_sample_posteriors = none ∧
      scenario_S1_state.log_sample_posteriors_ = [0] ∧
      scenario_S1_state.map_genotypes = some ([(-1, -1)], [DBL_MIN]) ∧
      (∀ sample_indices_ fmt chrom pos sample_names,
        scenario_S1_state.write_vcf_record sample_indices_ fmt chrom pos sample_names = none) := by
  obtain ⟨recalc_log_sample_posteriors_none, _, _, _, _, _⟩ := training_facts
  obtain ⟨map_genotypes_of_nonpos, _, _, _, _, _, _, _, _, _, _, _, _, _, _, _, _, _, _⟩ :=
    record_facts
  obtain ⟨_, _, _, _, _, _, write_vcf_record_none, _, init_log_gt_priors_single_allele,
    scenario_S1_state_wellFormed, scenario_S1_state_recalc_log_gt_priors⟩ := genotype_facts
  exact ⟨scenario_S1_state_wellFormed,
      init_log_gt_priors_single_allele scenario_S1_state scenario_S1_state_wellFormed rfl,
      scenario_S1_state_recalc_log_gt_priors,
      recalc_log_sample_posteriors_none scenario_S1_state (by decide) (by decide),
      rfl,
      map_genotypes_of_nonpos scenario_S1_state rfl (by dsimp only [scenario_S1_state]; simp),
      write_vcf_record_none scenario_S1_state (by decide)⟩

/-! ## The accumulation loops of the E-step, the total log-likelihood and phase symmetry -/

open EMStutterGenotyper StutterModel in
/-- Facts on the accumulation loops of the E-step and on phase symmetry, proved one after the other:
`accumulate_LLs_eq`, `accumulate_LLs_cells`, `accumulate_LLs_sample_max`,
`total_LL_spec_nonpos`, `log_08_neg`, `certain_phase_state_total_LL_spec`,
`read_phase_posteriors_symmetric`. -/
theorem accumulation_facts :
    (∀ (g : EMStutterGenotyper) (sm : StutterModel)
      (_ : g.WellFormed) (_ : sm.Valid) (_ : 1 ≤ sm.motif_len_),
      g.accumulate_LLs sm
        = some (g.unnormalised_cells_spec sm (g.num_alleles_ * g.num_alleles_),
            (List.range g.num_samples_).map
              (fun s => g.sample_max_spec sm s (g.num_alleles_ * g.num_alleles_)),
            g.num_alleles_ * g.num_alleles_ * g.num_samples_)) ∧
    (∀ (g : EMStutterGenotyper) (sm : StutterModel)
      (_ : g.WellFormed) (_ : sm.Valid) (_ : 1 ≤ sm.motif_len_),
      ∃ buf maxs, g.accumulate_LLs sm
          = some (buf, maxs, g.num_alleles_ * g.num_alleles_ * g.num_samples_) ∧
        (∀ a b s, a < g.num_alleles_ → b < g.num_alleles_ → s < g.num_samples_ →
          buf[(a * g.num_alleles_ + b) * g.num_samples_ + s]?
            = some (g.unnormalised_spec sm g.num_reads_ a b s)) ∧
        (g.log_p1_ = g.log_p2_ →
          ∀ a b s, a < g.num_alleles_ → b < g.num_alleles_ → s < g.num_samples_ →
            buf[(a * g.num_alleles_ + b) * g.num_samples_ + s]?
              = buf[(b * g.num_alleles_ + a) * g.num_samples_ + s]?) ∧
        ∀ s, s < g.num_samples_ →
          maxs[s]? = some (g.sample_max_spec sm s (g.num_alleles_ * g.num_alleles_))) ∧
    (∀ (g : EMStutterGenotyper)
      (sm : StutterModel) (_ : g.WellFormed) (_ : sm.Valid) (_ : 1 ≤ sm.motif_len_)
      (_ : ∀ v ∈ g.log_gt_priors_, v ≤ 0)
      (_ : ∀ r, r < g.num_reads_ →
        Real.exp (g.log_p1_.getD r 0) + Real.exp (g.log_p2_.getD r 0) ≤ 1),
      ∃ buf, g.accumulate_LLs sm
          = some (buf, List.replicate g.num_samples_ DBL_MIN,
              g.num_alleles_ * g.num_alleles_ * g.num_samples_) ∧
        ∀ v ∈ buf, v ≤ 0) ∧
    (∀ (g : EMStutterGenotyper) (sm : StutterModel)
      (_ : sm.Valid) (_ : 1 ≤ sm.motif_len_)
      (_ : ∑ a ∈ Finset.range g.num_alleles_, Real.exp (g.log_gt_priors_.getD a 0) = 1)
      (_ : ∀ r, r < g.num_reads_ →
        Real.exp (g.log_p1_.getD r 0) + Real.exp (g.log_p2_.getD r 0) ≤ 1),
      g.total_LL_spec sm ≤ 0) ∧
    (Real.log 0.8 < 0) ∧
    (certain_phase_state.total_LL_spec default_model = Real.log 1.6) ∧
    (∀ (g : EMStutterGenotyper)
      (sm : StutterModel) (_ : g.WellFormed) (_ : g.stutter_model_ = some sm) (_ : sm.Valid)
      (_ : 1 ≤ sm.motif_len_) (_ : g.log_p1_ = g.log_p2_),
      ∃ g', g.recalc_log_read_phase_posteriors = some g' ∧
        ∀ a b r, a < g.num_alleles_ → b < g.num_alleles_ → r < g.num_reads_ →
          g'.log_read_phase_posteriors_[2 * g.num_reads_ * (a * g.num_alleles_ + b) + 2 * r]?
              = g'.log_read_phase_posteriors_[
                  2 * g.num_reads_ * (b * g.num_alleles_ + a) + 2 * r + 1]? ∧
            g'.log_read_phase_posteriors_[2 * g.num_reads_ * (a * g.num_alleles_ + a) + 2 * r]?
              = some (Real.log (1 / 2)) ∧
            g'.log_read_phase_posteriors_[
                2 * g.num_reads_ * (a * g.num_alleles_ + a) + 2 * r + 1]?
              = some (Real.log (1 / 2))) := by
  obtain ⟨_, _, _, _, _, log_pmf_self, log_pmf_nonpos, _, _, _, _⟩ := log_pmf_facts
  obtain ⟨_, _, _, log_sum_exp2_eq, _, _, _⟩ := upper_tail_facts
  obtain ⟨write_eq_some, _, length_flatMap_range, getElem?_flatMap_range, read_phase_LLs_eq,
    phase_tensor_getElem?, _, recalc_log_read_phase_posteriors_eq, _, _⟩ := read_phase_facts
  obtain ⟨fill_eq, _, _, _⟩ := prior_init_facts
  obtain ⟨posterior_index_lt, _, _, _, _, _, _, _⟩ := stutter_refit_facts
  obtain ⟨_, _, _, DBL_MIN_pos, _, _⟩ := training_facts
  have accumulate_LLs_eq_steps : ∀ (g : EMStutterGenotyper)
    (sm : StutterModel),
    g.accumulate_LLs sm
      = forRange g.num_alleles_
          (fun index_1 st =>
            (g.bps_per_allele_[index_1]?).bind fun len_1 =>
              forRange g.num_alleles_ (g.accumulate_pair_step sm index_1 len_1) st)
          (g.log_sample_posteriors_, List.replicate g.num_samples_ DBL_MIN, 0) := by
    intro g sm
    exact rfl
  have unnormalised_spec_succ : ∀ (g : EMStutterGenotyper) (sm : StutterModel)
    (k a b s : ℕ),
    g.unnormalised_spec sm (k + 1) a b s
      = g.unnormalised_spec sm k a b s
        + (if g.sample_label_.getD k 0 = s then
            Real.log (Real.exp (g.phase_one_spec sm a k) + Real.exp (g.phase_two_spec sm b k))
          else 0) := by
    intro g sm k a b s
    unfold EMStutterGenotyper.unnormalised_spec
    rw [Finset.range_succ, Finset.filter_insert]
    split_ifs with h
    · rw [Finset.sum_insert (by simp)]
      ring
    · ring
  have getElem?_block : ∀ (pre blk post : List ℝ) (i : ℕ) (_ : i < blk.length),
    (pre ++ blk ++ post)[pre.length + i]? = blk[i]? := by
    intro pre blk post i hi
    rw [List.append_assoc, List.getElem?_append_right (by omega)]
    simp only [Nat.add_sub_cancel_left]
    rw [List.getElem?_append_left hi]
  have set_block : ∀ (pre blk post : List ℝ) (i : ℕ) (v : ℝ) (_ : i < blk.length),
    (pre ++ blk ++ post).set (pre.length + i) v = pre ++ blk.set i v ++ post := by
    intro pre blk post i v hi
    rw [List.set_append_left _ _ (by simp; omega), List.set_append_right _ _ (by omega)]
    simp
  have accumulate_reads_loop : ∀ (g : EMStutterGenotyper) (sm : StutterModel)
    (_ : g.WellFormed) (_ : sm.Valid) (_ : 1 ≤ sm.motif_len_) (a b : ℕ)
    (pre post : List ℝ) (k : ℕ) (_ : k ≤ g.num_reads_),
    forRange k
        (g.accumulate_read_step sm (g.bps_per_allele_.getD a 0) (g.bps_per_allele_.getD b 0)
          pre.length)
        (pre ++ (List.range g.num_samples_).map (g.unnormalised_spec sm 0 a b) ++ post)
      = some (pre ++ (List.range g.num_samples_).map (g.unnormalised_spec sm k a b) ++ post) := by
    intro g sm hwf hv hM a b pre post k hk
    induction k with
    | zero => rfl
    | succ k ih =>
      rw [forRange_succ, ih (by omega), Option.some_bind]
      have hr : k < g.num_reads_ := by omega
      have h1 : g.sample_label_[k]? = some (g.sample_label_.getD k 0) :=
        getElem?_eq_some_getD _ _ _ (by rw [hwf.sample_label_length]; exact hr)
      have hsl : g.sample_label_.getD k 0 < g.num_samples_ :=
        hwf.sample_label_lt _ (getD_mem _ _ _ (by rw [hwf.sample_label_length]; exact hr))
      have hblk : ((List.range g.num_samples_).map (g.unnormalised_spec sm k a b)).length
          = g.num_samples_ := by simp
      have h2 : (pre ++ (List.range g.num_samples_).map (g.unnormalised_spec sm k a b) ++ post)[
          pre.length + g.sample_label_.getD k 0]?
            = some (g.unnormalised_spec sm k a b (g.sample_label_.getD k 0)) := by
        rw [getElem?_block _ _ _ _ (by rw [hblk]; exact hsl), List.getElem?_map,
          List.getElem?_range hsl]
        rfl
      unfold EMStutterGenotyper.accumulate_read_step
      simp only [h1, h2, read_phase_LLs_eq g sm hwf hv hM a b k hr, Option.bind_eq_bind,
        Option.some_bind]
      rw [write_eq_some (by rw [List.length_append, List.length_append, hblk]; omega),
        set_block _ _ _ _ _ (by rw [hblk]; exact hsl)]
      congr 2
      congr 1
      apply List.ext_getElem?
      intro i
      rcases Nat.lt_or_ge i g.num_samples_ with h | h
      · rw [List.getElem?_map, List.getElem?_range h, Option.map_some',
          unnormalised_spec_succ g, log_sum_exp2_eq]
        by_cases his : g.sample_label_.getD k 0 = i
        · subst his
          rw [List.getElem?_set_eq_of_lt _ (by rw [hblk]; exact hsl), if_pos rfl]
        · rw [List.getElem?_set_ne his, if_neg his, List.getElem?_map, List.getElem?_range h]
          simp
      · rw [List.getElem?_eq_none (by simpa using h), List.getElem?_eq_none (by simpa using h)]
  have forRange_update_max : ∀ (buf : List ℝ) (p n : ℕ) (f h : ℕ → ℝ)
    (_ : ∀ s, s < n → buf[p + s]? = some (h s)) (j : ℕ) (_ : j ≤ n),
    forRange j (EMStutterGenotyper.update_max_step buf p) ((List.range n).map f)
      = some ((List.range n).map fun s => if s < j then max (f s) (h s) else f s) := by
    intro buf p n f h hbuf j hj
    induction j with
    | zero => simp [forRange_zero]
    | succ j ih =>
      rw [forRange_succ, ih (by omega), Option.some_bind]
      have hjn : j < n := by omega
      have h1 : ((List.range n).map fun s => if s < j then max (f s) (h s) else f s)[j]?
          = some (f j) := by
        rw [List.getElem?_map, List.getElem?_range hjn]
        simp
      unfold EMStutterGenotyper.update_max_step
      simp only [h1, hbuf j hjn, Option.bind_eq_bind, Option.some_bind]
      rw [write_eq_some (by simpa using hjn)]
      congr 1
      apply List.ext_getElem?
      intro i
      rcases Nat.lt_or_ge i n with hi | hi
      · rw [List.getElem?_map, List.getElem?_range hi, Option.map_some']
        by_cases hij : j = i
        · subst hij
          rw [List.getElem?_set_eq_of_lt _ (by simpa using hjn), if_pos (by omega)]
        · rw [List.getElem?_set_ne hij, List.getElem?_map, List.getElem?_range hi,
            Option.map_some']
          by_cases hlt : i < j
          · rw [if_pos hlt, if_pos (by omega)]
          · rw [if_neg hlt, if_neg (by omega)]
      · rw [List.getElem?_eq_none (by simpa using hi), List.getElem?_eq_none (by simpa using hi)]
  have unnormalised_cells_spec_length : ∀ (g : EMStutterGenotyper)
    (sm : StutterModel) (n : ℕ),
    (g.unnormalised_cells_spec sm n).length = n * g.num_samples_ := by
    intro g sm n
    exact length_flatMap_range n g.num_samples_ _ (fun _ _ => by simp)
  have unnormalised_cells_spec_succ : ∀ (g : EMStutterGenotyper)
    (sm : StutterModel) (n : ℕ),
    g.unnormalised_cells_spec sm (n + 1)
      = g.unnormalised_cells_spec sm n
        ++ (List.range g.num_samples_).map
            (g.unnormalised_spec sm g.num_reads_ (n / g.num_alleles_) (n % g.num_alleles_)) := by
    intro g sm n
    unfold EMStutterGenotyper.unnormalised_cells_spec
    rw [List.range_succ, List.flatMap_append]
    simp
  have accumulate_pair_step_eq : ∀ (g : EMStutterGenotyper) (sm : StutterModel)
    (_ : g.WellFormed) (_ : sm.Valid) (_ : 1 ≤ sm.motif_len_) (a b : ℕ)
    (_ : a < g.num_alleles_) (_ : b < g.num_alleles_),
    g.accumulate_pair_step sm a (g.bps_per_allele_.getD a 0) b
        (g.unnormalised_cells_spec sm (a * g.num_alleles_ + b)
            ++ g.log_sample_posteriors_.drop ((a * g.num_alleles_ + b) * g.num_samples_),
          (List.range g.num_samples_).map
            (fun s => g.sample_max_spec sm s (a * g.num_alleles_ + b)),
          (a * g.num_alleles_ + b) * g.num_samples_)
      = some (g.unnormalised_cells_spec sm (a * g.num_alleles_ + b + 1)
            ++ g.log_sample_posteriors_.drop ((a * g.num_alleles_ + b + 1) * g.num_samples_),
          (List.range g.num_samples_).map
            (fun s => g.sample_max_spec sm s (a * g.num_alleles_ + b + 1)),
          (a * g.num_alleles_ + b + 1) * g.num_samples_) := by
    intro g sm hwf hv hM a b ha hb
    generalize hn : a * g.num_alleles_ + b = n
    have hdiv : n / g.num_alleles_ = a := by
      rw [← hn, Nat.add_comm, Nat.add_mul_div_right _ _ (by omega), Nat.div_eq_of_lt hb,
        Nat.zero_add]
    have hmod : n % g.num_alleles_ = b := by
      rw [← hn, Nat.add_comm, Nat.add_mul_mod_self_right, Nat.mod_eq_of_lt hb]
    have hidx := posterior_index_lt g a b 0 ha hb
    have hcl := unnormalised_cells_spec_length g sm n
    have hsucc : (n + 1) * g.num_samples_ = n * g.num_samples_ + g.num_samples_ := by ring
    have hbound : n * g.num_samples_ + g.num_samples_
        ≤ g.num_alleles_ * g.num_alleles_ * g.num_samples_ := by
      have h1 : n + 1 ≤ g.num_alleles_ * g.num_alleles_ := by
        have : a * g.num_alleles_ + g.num_alleles_ ≤ g.num_alleles_ * g.num_alleles_ := by
          have := Nat.mul_le_mul_right g.num_alleles_ (by omega : a + 1 ≤ g.num_alleles_)
          rw [Nat.add_mul, Nat.one_mul] at this
          exact this
        omega
      have := Nat.mul_le_mul_right g.num_samples_ h1
      rw [hsucc] at this
      exact this
    have h1 : g.bps_per_allele_[b]? = some (g.bps_per_allele_.getD b 0) :=
      getElem?_eq_some_getD _ _ _ (by rw [hwf.bps_length]; exact hb)
    have h2 : g.log_gt_priors_[a]? = some (g.log_gt_priors_.getD a 0) :=
      getElem?_eq_some_getD _ _ _ (by rw [hwf.priors_length]; exact ha)
    have h3 : g.log_gt_priors_[b]? = some (g.log_gt_priors_.getD b 0) :=
      getElem?_eq_some_getD _ _ _ (by rw [hwf.priors_length]; exact hb)
    have hlen : (g.unnormalised_cells_spec sm n
        ++ g.log_sample_posteriors_.drop (n * g.num_samples_)).length
          = g.num_alleles_ * g.num_alleles_ * g.num_samples_ := by
      rw [List.length_append, hcl, List.length_drop, hwf.posteriors_length]
      omega
    have hfill : fill (g.unnormalised_cells_spec sm n
          ++ g.log_sample_posteriors_.drop (n * g.num_samples_)) (n * g.num_samples_)
          g.num_samples_ (g.log_gt_priors_.getD a 0 + g.log_gt_priors_.getD b 0)
        = some (g.unnormalised_cells_spec sm n
            ++ (List.range g.num_samples_).map (g.unnormalised_spec sm 0 a b)
            ++ g.log_sample_posteriors_.drop ((n + 1) * g.num_samples_)) := by
      rw [fill_eq _ _ _ _ (by rw [hlen]; exact hbound), take_left_eq _ _ _ hcl,
        ← List.drop_drop, drop_left_eq _ _ _ hcl, List.drop_drop, hsucc]
      congr 3
      apply List.ext_getElem?
      intro i
      rcases Nat.lt_or_ge i g.num_samples_ with h | h
      · rw [List.getElem?_replicate, if_pos h, List.getElem?_map, List.getElem?_range h]
        rw [Option.map_some', Option.some.injEq]
        unfold EMStutterGenotyper.unnormalised_spec
        simp
      · rw [List.getElem?_eq_none (by simpa using h), List.getElem?_eq_none (by simpa using h)]
    have hreads := accumulate_reads_loop g sm hwf hv hM a b (g.unnormalised_cells_spec sm n)
      (g.log_sample_posteriors_.drop ((n + 1) * g.num_samples_)) g.num_reads_ le_rfl
    rw [hcl] at hreads
    have hblk : ((List.range g.num_samples_).map
        (g.unnormalised_spec sm g.num_reads_ a b)).length = g.num_samples_ := by simp
    have hmax := forRange_update_max
      (g.unnormalised_cells_spec sm n
        ++ (List.range g.num_samples_).map (g.unnormalised_spec sm g.num_reads_ a b)
        ++ g.log_sample_posteriors_.drop ((n + 1) * g.num_samples_))
      (n * g.num_samples_) g.num_samples_ (fun s => g.sample_max_spec sm s n)
      (g.unnormalised_spec sm g.num_reads_ a b)
      (by
        intro s hs
        rw [← hcl, getElem?_block _ _ _ _ (by rw [hblk]; exact hs), List.getElem?_map,
          List.getElem?_range hs]
        rfl)
      g.num_samples_ le_rfl
    unfold EMStutterGenotyper.accumulate_pair_step
    simp only [h1, h2, h3, hfill, hreads, hmax, Option.bind_eq_bind, Option.some_bind]
    rw [unnormalised_cells_spec_succ g sm n, hdiv, hmod, hsucc]
    congr 2
    refine Prod.ext ?_ rfl
    apply List.map_congr_left
    intro s hs
    rw [if_pos (List.mem_range.1 hs)]
    show _ = max _ _
    rw [hdiv, hmod]
  have accumulate_LLs_eq : ∀ (g : EMStutterGenotyper) (sm : StutterModel)
    (_ : g.WellFormed) (_ : sm.Valid) (_ : 1 ≤ sm.motif_len_),
    g.accumulate_LLs sm
      = some (g.unnormalised_cells_spec sm (g.num_alleles_ * g.num_alleles_),
          (List.range g.num_samples_).map
            (fun s => g.sample_max_spec sm s (g.num_alleles_ * g.num_alleles_)),
          g.num_alleles_ * g.num_alleles_ * g.num_samples_) := by
    intro g sm hwf hv hM
    have hinner : ∀ a, a < g.num_alleles_ →
        forRange g.num_alleles_ (g.accumulate_pair_step sm a (g.bps_per_allele_.getD a 0))
            (g.unnormalised_cells_spec sm (a * g.num_alleles_)
                ++ g.log_sample_posteriors_.drop (a * g.num_alleles_ * g.num_samples_),
              (List.range g.num_samples_).map
                (fun s => g.sample_max_spec sm s (a * g.num_alleles_)),
              a * g.num_alleles_ * g.num_samples_)
          = some (g.unnormalised_cells_spec sm ((a + 1) * g.num_alleles_)
                ++ g.log_sample_posteriors_.drop ((a + 1) * g.num_alleles_ * g.num_samples_),
              (List.range g.num_samples_).map
                (fun s => g.sample_max_spec sm s ((a + 1) * g.num_alleles_)),
              (a + 1) * g.num_alleles_ * g.num_samples_) := by
      intro a ha
      obtain ⟨st, hst, hI⟩ := forRange_inv g.num_alleles_
        (g.accumulate_pair_step sm a (g.bps_per_allele_.getD a 0))
        (fun b st => st = (g.unnormalised_cells_spec sm (a * g.num_alleles_ + b)
            ++ g.log_sample_posteriors_.drop ((a * g.num_alleles_ + b) * g.num_samples_),
          (List.range g.num_samples_).map
            (fun s => g.sample_max_spec sm s (a * g.num_alleles_ + b)),
          (a * g.num_alleles_ + b) * g.num_samples_))
        (g.unnormalised_cells_spec sm (a * g.num_alleles_)
            ++ g.log_sample_posteriors_.drop (a * g.num_alleles_ * g.num_samples_),
          (List.range g.num_samples_).map
            (fun s => g.sample_max_spec sm s (a * g.num_alleles_)),
          a * g.num_alleles_ * g.num_samples_)
        (by simp)
        (by
          intro b st hb hst
          subst hst
          exact ⟨_, accumulate_pair_step_eq g sm hwf hv hM a b ha hb, rfl⟩)
      rw [hst, hI]
      have e : a * g.num_alleles_ + g.num_alleles_ = (a + 1) * g.num_alleles_ := by ring
      rw [e]
    obtain ⟨st, hst, hI⟩ := forRange_inv g.num_alleles_
      (fun index_1 st =>
        (g.bps_per_allele_[index_1]?).bind fun len_1 =>
          forRange g.num_alleles_ (g.accumulate_pair_step sm index_1 len_1) st)
      (fun a st => st = (g.unnormalised_cells_spec sm (a * g.num_alleles_)
          ++ g.log_sample_posteriors_.drop (a * g.num_alleles_ * g.num_samples_),
        (List.range g.num_samples_).map
          (fun s => g.sample_max_spec sm s (a * g.num_alleles_)),
        a * g.num_alleles_ * g.num_samples_))
      (g.log_sample_posteriors_, List.replicate g.num_samples_ DBL_MIN, 0)
      (by
        refine Prod.ext ?_ (Prod.ext ?_ ?_)
        · dsimp only [EMStutterGenotyper.unnormalised_cells_spec]
          simp
        · apply List.ext_getElem?
          intro i
          rcases Nat.lt_or_ge i g.num_samples_ with h | h
          · rw [List.getElem?_replicate, if_pos h, List.getElem?_map, List.getElem?_range h]
            rw [Option.map_some', zero_mul]
            rfl
          · rw [List.getElem?_eq_none (by simpa using h),
              List.getElem?_eq_none (by simpa using h)]
        · simp)
      (by
        intro a st ha hst
        subst hst
        have h1 : g.bps_per_allele_[a]? = some (g.bps_per_allele_.getD a 0) :=
          getElem?_eq_some_getD _ _ _ (by rw [hwf.bps_length]; exact ha)
        refine ⟨_, ?_, rfl⟩
        simp only [h1, Option.some_bind]
        exact hinner a ha)
    rw [accumulate_LLs_eq_steps g, hst, hI]
    congr 2
    rw [List.drop_eq_nil_of_le (by rw [hwf.posteriors_length])]
    simp
  have pair_index_lt : ∀ (g : EMStutterGenotyper) (a b : ℕ)
    (_ : a < g.num_alleles_) (_ : b < g.num_alleles_),
    a * g.num_alleles_ + b < g.num_alleles_ * g.num_alleles_ := by
    intro g a b ha hb
    have := Nat.mul_le_mul_right g.num_alleles_ (by omega : a + 1 ≤ g.num_alleles_)
    rw [Nat.add_mul, Nat.one_mul] at this
    omega
  have unnormalised_cells_getElem? : ∀ (g : EMStutterGenotyper)
    (sm : StutterModel) (a b s : ℕ) (_ : a < g.num_alleles_) (_ : b < g.num_alleles_)
    (_ : s < g.num_samples_),
    (g.unnormalised_cells_spec sm (g.num_alleles_ * g.num_alleles_))[
        (a * g.num_alleles_ + b) * g.num_samples_ + s]?
      = some (g.unnormalised_spec sm g.num_reads_ a b s) := by
    intro g sm a b s ha hb hs
    have hdiv : (a * g.num_alleles_ + b) / g.num_alleles_ = a := by
      rw [Nat.add_comm, Nat.add_mul_div_right _ _ (by omega), Nat.div_eq_of_lt hb, Nat.zero_add]
    have hmod : (a * g.num_alleles_ + b) % g.num_alleles_ = b := by
      rw [Nat.add_comm, Nat.add_mul_mod_self_right, Nat.mod_eq_of_lt hb]
    unfold EMStutterGenotyper.unnormalised_cells_spec
    rw [getElem?_flatMap_range _ g.num_samples_ _ (fun _ _ => by simp) _ _
      (pair_index_lt g a b ha hb) hs, List.getElem?_map, List.getElem?_range hs, hdiv, hmod]
    rfl
  have phase_one_eq_two : ∀ (g : EMStutterGenotyper) (sm : StutterModel)
    (_ : g.log_p1_ = g.log_p2_) (a r : ℕ),
    g.phase_one_spec sm a r = g.phase_two_spec sm a r := by
    intro g sm heq a r
    unfold EMStutterGenotyper.phase_one_spec EMStutterGenotyper.phase_two_spec
    rw [heq]
  have unnormalised_spec_symm : ∀ (g : EMStutterGenotyper) (sm : StutterModel)
    (_ : g.log_p1_ = g.log_p2_) (k a b s : ℕ),
    g.unnormalised_spec sm k a b s = g.unnormalised_spec sm k b a s := by
    intro g sm heq k a b s
    unfold EMStutterGenotyper.unnormalised_spec
    rw [add_comm (g.log_gt_priors_.getD a 0)]
    congr 1
    refine Finset.sum_congr rfl (fun r _ => ?_)
    rw [phase_one_eq_two g sm heq a r, ← phase_one_eq_two g sm heq b r, add_comm]
  -- After the accumulation loops of lines 140 to 156 the cell of the pair `(a, b)` and
  -- the sample `s` holds the un-normalised phased log-posterior of section 4.3; when
  -- `logp1 = logp2` the cell of `(b, a)` holds the same value.
  have accumulate_LLs_cells : ∀ (g : EMStutterGenotyper) (sm : StutterModel)
    (_ : g.WellFormed) (_ : sm.Valid) (_ : 1 ≤ sm.motif_len_),
    ∃ buf maxs, g.accumulate_LLs sm
        = some (buf, maxs, g.num_alleles_ * g.num_alleles_ * g.num_samples_) ∧
      (∀ a b s, a < g.num_alleles_ → b < g.num_alleles_ → s < g.num_samples_ →
        buf[(a * g.num_alleles_ + b) * g.num_samples_ + s]?
          = some (g.unnormalised_spec sm g.num_reads_ a b s)) ∧
      (g.log_p1_ = g.log_p2_ →
        ∀ a b s, a < g.num_alleles_ → b < g.num_alleles_ → s < g.num_samples_ →
          buf[(a * g.num_alleles_ + b) * g.num_samples_ + s]?
            = buf[(b * g.num_alleles_ + a) * g.num_samples_ + s]?) ∧
      ∀ s, s < g.num_samples_ →
        maxs[s]? = some (g.sample_max_spec sm s (g.num_alleles_ * g.num_alleles_)) := by
    intro g sm hwf hv hM
    refine ⟨_, _, accumulate_LLs_eq g sm hwf hv hM,
      fun a b s ha hb hs => unnormalised_cells_getElem? g sm a b s ha hb hs, ?_, ?_⟩
    · intro heq a b s ha hb hs
      rw [unnormalised_cells_getElem? g sm a b s ha hb hs,
        unnormalised_cells_getElem? g sm b a s hb ha hs, unnormalised_spec_symm g sm heq]
    · intro s hs
      rw [List.getElem?_map, List.getElem?_range hs]
      rfl
  have sample_max_spec_ge : ∀ (g : EMStutterGenotyper) (sm : StutterModel)
    (s n : ℕ),
    DBL_MIN ≤ g.sample_max_spec sm s n := by
    intro g sm s n
    induction n with
    | zero => exact le_rfl
    | succ n ih => exact le_trans ih (le_max_left _ _)
  have sample_max_spec_of_nonpos : ∀ (g : EMStutterGenotyper)
    (sm : StutterModel) (s n : ℕ)
    (_ : ∀ p, p < n →
      g.unnormalised_spec sm g.num_reads_ (p / g.num_alleles_) (p % g.num_alleles_) s ≤ 0),
    g.sample_max_spec sm s n = DBL_MIN := by
    intro g sm s n h
    induction n with
    | zero => rfl
    | succ n ih =>
      show max _ _ = _
      rw [ih (fun p hp => h p (by omega))]
      exact max_eq_left (le_trans (h n (by omega)) DBL_MIN_pos.le)
  have read_term_nonpos : ∀ (g : EMStutterGenotyper) (sm : StutterModel)
    (_ : sm.Valid) (_ : 1 ≤ sm.motif_len_) (a b r : ℕ)
    (_ : Real.exp (g.log_p1_.getD r 0) + Real.exp (g.log_p2_.getD r 0) ≤ 1),
    Real.log (Real.exp (g.phase_one_spec sm a r) + Real.exp (g.phase_two_spec sm b r)) ≤ 0 := by
    intro g sm hv hM a b r hr
    apply Real.log_nonpos (add_pos (Real.exp_pos _) (Real.exp_pos _)).le
    have h1 : Real.exp (g.phase_one_spec sm a r) ≤ Real.exp (g.log_p1_.getD r 0) := by
      apply Real.exp_le_exp.2
      unfold EMStutterGenotyper.phase_one_spec
      have := log_pmf_nonpos sm hv hM (g.bps_per_allele_.getD a 0)
        (g.bps_per_allele_.getD (g.allele_index_.getD r 0) 0)
      linarith
    have h2 : Real.exp (g.phase_two_spec sm b r) ≤ Real.exp (g.log_p2_.getD r 0) := by
      apply Real.exp_le_exp.2
      unfold EMStutterGenotyper.phase_two_spec
      have := log_pmf_nonpos sm hv hM (g.bps_per_allele_.getD b 0)
        (g.bps_per_allele_.getD (g.allele_index_.getD r 0) 0)
      linarith
    linarith
  have unnormalised_spec_le : ∀ (g : EMStutterGenotyper) (sm : StutterModel)
    (_ : sm.Valid) (_ : 1 ≤ sm.motif_len_)
    (_ : ∀ r, r < g.num_reads_ →
      Real.exp (g.log_p1_.getD r 0) + Real.exp (g.log_p2_.getD r 0) ≤ 1) (a b s : ℕ),
    g.unnormalised_spec sm g.num_reads_ a b s
      ≤ g.log_gt_priors_.getD a 0 + g.log_gt_priors_.getD b 0 := by
    intro g sm hv hM hreads a b s
    unfold EMStutterGenotyper.unnormalised_spec
    have : ∑ r ∈ (Finset.range g.num_reads_).filter (fun r => g.sample_label_.getD r 0 = s),
        Real.log (Real.exp (g.phase_one_spec sm a r) + Real.exp (g.phase_two_spec sm b r)) ≤ 0 :=
      Finset.sum_nonpos fun r hr =>
        read_term_nonpos g sm hv hM a b r
          (hreads r (Finset.mem_range.1 (Finset.mem_filter.1 hr).1))
    linarith
  -- With priors at most 0, reads with `exp(logp1) + exp(logp2) <= 1` and a valid model,
  -- every un-normalised cell is at most 0 and the accumulation loops of lines 140 to 156
  -- leave every entry of `sample_max_LLs` at the start value `DBL_MIN` of line 140.
  have accumulate_LLs_sample_max : ∀ (g : EMStutterGenotyper)
    (sm : StutterModel) (_ : g.WellFormed) (_ : sm.Valid) (_ : 1 ≤ sm.motif_len_)
    (_ : ∀ v ∈ g.log_gt_priors_, v ≤ 0)
    (_ : ∀ r, r < g.num_reads_ →
      Real.exp (g.log_p1_.getD r 0) + Real.exp (g.log_p2_.getD r 0) ≤ 1),
    ∃ buf, g.accumulate_LLs sm
        = some (buf, List.replicate g.num_samples_ DBL_MIN,
            g.num_alleles_ * g.num_alleles_ * g.num_samples_) ∧
      ∀ v ∈ buf, v ≤ 0 := by
    intro g sm hwf hv hM hpriors hreads
    have hprior : ∀ a, g.log_gt_priors_.getD a 0 ≤ 0 := by
      intro a
      rcases Nat.lt_or_ge a g.log_gt_priors_.length with h | h
      · exact hpriors _ (getD_mem _ _ _ h)
      · rw [List.getD_eq_default _ _ h]
    have hcell : ∀ a b s, g.unnormalised_spec sm g.num_reads_ a b s ≤ 0 := by
      intro a b s
      have := unnormalised_spec_le g sm hv hM hreads a b s
      have := hprior a
      have := hprior b
      linarith
    refine ⟨g.unnormalised_cells_spec sm (g.num_alleles_ * g.num_alleles_), ?_, ?_⟩
    · rw [accumulate_LLs_eq g sm hwf hv hM]
      congr 2
      refine Prod.ext ?_ rfl
      apply List.ext_getElem?
      intro i
      rcases Nat.lt_or_ge i g.num_samples_ with h | h
      · rw [List.getElem?_replicate, if_pos h, List.getElem?_map, List.getElem?_range h,
          Option.map_some', sample_max_spec_of_nonpos g sm i _ (fun p _ => hcell _ _ _)]
      · rw [List.getElem?_eq_none (by simpa using h), List.getElem?_eq_none (by simpa using h)]
    · intro v hvm
      unfold EMStutterGenotyper.unnormalised_cells_spec at hvm
      simp only [List.mem_flatMap, List.mem_map, List.mem_range] at hvm
      obtain ⟨p, _, s, _, rfl⟩ := hvm
      exact hcell _ _ _
  have total_LL_spec_eq : ∀ (g : EMStutterGenotyper) (sm : StutterModel),
    g.total_LL_spec sm
      = ∑ s ∈ Finset.range g.num_samples_,
          Real.log (∑ a ∈ Finset.range g.num_alleles_, ∑ b ∈ Finset.range g.num_alleles_,
            Real.exp (g.unnormalised_spec sm g.num_reads_ a b s)) := by
    intro g sm
    exact rfl
  -- With normalised priors, reads with `exp(logp1) + exp(logp2) <= 1` and a valid model
  -- every per-sample normaliser of section 4.3 is at most 0, and so is their sum.
  have total_LL_spec_nonpos : ∀ (g : EMStutterGenotyper) (sm : StutterModel)
    (_ : sm.Valid) (_ : 1 ≤ sm.motif_len_)
    (_ : ∑ a ∈ Finset.range g.num_alleles_, Real.exp (g.log_gt_priors_.getD a 0) = 1)
    (_ : ∀ r, r < g.num_reads_ →
      Real.exp (g.log_p1_.getD r 0) + Real.exp (g.log_p2_.getD r 0) ≤ 1),
    g.total_LL_spec sm ≤ 0 := by
    intro g sm hv hM hpriors hreads
    rw [total_LL_spec_eq g]
    refine Finset.sum_nonpos fun s _ => ?_
    apply Real.log_nonpos
    · exact Finset.sum_nonneg fun a _ => Finset.sum_nonneg fun b _ => (Real.exp_pos _).le
    · have hle : ∑ a ∈ Finset.range g.num_alleles_, ∑ b ∈ Finset.range g.num_alleles_,
            Real.exp (g.unnormalised_spec sm g.num_reads_ a b s)
          ≤ ∑ a ∈ Finset.range g.num_alleles_, ∑ b ∈ Finset.range g.num_alleles_,
            Real.exp (g.log_gt_priors_.getD a 0) * Real.exp (g.log_gt_priors_.getD b 0) := by
        refine Finset.sum_le_sum fun a _ => Finset.sum_le_sum fun b _ => ?_
        rw [← Real.exp_add]
        exact Real.exp_le_exp.2 (unnormalised_spec_le g sm hv hM hreads a b s)
      have hprod : ∑ a ∈ Finset.range g.num_alleles_, ∑ b ∈ Finset.range g.num_alleles_,
            Real.exp (g.log_gt_priors_.getD a 0) * Real.exp (g.log_gt_priors_.getD b 0) = 1 := by
        rw [← Finset.sum_mul_sum, hpriors, one_mul]
      linarith
  have log_08_neg : Real.log 0.8 < 0 := by
    exact Real.log_neg (by norm_num) (by norm_num)
  have certain_phase_state_total_LL_spec : certain_phase_state.total_LL_spec default_model = Real.log 1.6 := by
    have hpmf : default_model.log_pmf 20 20 = Real.log 0.8 := by
      rw [log_pmf_self]
      dsimp only [StutterModel.log_equal_, default_model]
      norm_num
    have hfilter : (Finset.range 1).filter (fun r => [0].getD r 0 = 0) = {0} := by
      decide
    unfold EMStutterGenotyper.total_LL_spec EMStutterGenotyper.phase_one_spec
      EMStutterGenotyper.phase_two_spec
    dsimp only [certain_phase_state, single_read_state]
    simp only [Finset.sum_range_one,
      List.getD_cons_zero, hfilter, Finset.sum_singleton, hpmf, zero_add]
    have he : Real.exp (Real.log 0.8) = 0.8 := Real.exp_log (by norm_num)
    rw [he]
    norm_num
  have sub_log_exp_add_self : ∀ (x : ℝ),
    x - Real.log (Real.exp x + Real.exp x) = Real.log (1 / 2) := by
    intro x
    have h : Real.exp x + Real.exp x = 2 * Real.exp x := by ring
    rw [h, Real.log_mul (by norm_num) (Real.exp_pos x).ne', Real.log_exp, one_div,
      Real.log_inv]
    ring
  -- When `logp1 = logp2`, the tensor written by `recalc_log_read_phase_posteriors` has
  -- `Q[a][b][r][0] = Q[b][a][r][1]` and `Q[a][a][r][0] = Q[a][a][r][1] = log (1/2)`.
  have read_phase_posteriors_symmetric : ∀ (g : EMStutterGenotyper)
    (sm : StutterModel) (_ : g.WellFormed) (_ : g.stutter_model_ = some sm) (_ : sm.Valid)
    (_ : 1 ≤ sm.motif_len_) (_ : g.log_p1_ = g.log_p2_),
    ∃ g', g.recalc_log_read_phase_posteriors = some g' ∧
      ∀ a b r, a < g.num_alleles_ → b < g.num_alleles_ → r < g.num_reads_ →
        g'.log_read_phase_posteriors_[2 * g.num_reads_ * (a * g.num_alleles_ + b) + 2 * r]?
            = g'.log_read_phase_posteriors_[
                2 * g.num_reads_ * (b * g.num_alleles_ + a) + 2 * r + 1]? ∧
          g'.log_read_phase_posteriors_[2 * g.num_reads_ * (a * g.num_alleles_ + a) + 2 * r]?
            = some (Real.log (1 / 2)) ∧
          g'.log_read_phase_posteriors_[
              2 * g.num_reads_ * (a * g.num_alleles_ + a) + 2 * r + 1]?
            = some (Real.log (1 / 2)) := by
    intro g sm hwf hsm hv hM heq
    refine ⟨_, recalc_log_read_phase_posteriors_eq g sm hwf hsm hv hM, ?_⟩
    intro a b r ha hb hr
    have h0 := phase_tensor_getElem? g sm a b r 0 ha hb hr (by omega)
    have h1 := phase_tensor_getElem? g sm b a r 1 hb ha hr (by omega)
    have d0 := phase_tensor_getElem? g sm a a r 0 ha ha hr (by omega)
    have d1 := phase_tensor_getElem? g sm a a r 1 ha ha hr (by omega)
    have e := phase_one_eq_two g sm heq
    refine ⟨?_, ?_, ?_⟩
    · show _ = _
      simp only [add_zero] at h0
      rw [h0, h1]
      dsimp only [EMStutterGenotyper.phase_posteriors_spec]
      simp only [List.getElem?_cons_zero,
        List.getElem?_cons_succ]
      rw [e a r, ← e b r, add_comm (Real.exp (g.phase_one_spec sm b r))]
    · simp only [add_zero] at d0
      rw [d0]
      dsimp only [EMStutterGenotyper.phase_posteriors_spec]
      simp only [List.getElem?_cons_zero]
      rw [← e a r, sub_log_exp_add_self]
    · rw [d1]
      dsimp only [EMStutterGenotyper.phase_posteriors_spec]
      simp only [List.getElem?_cons_succ,
        List.getElem?_cons_zero]
      rw [← e a r, sub_log_exp_add_self]
  exact ⟨accumulate_LLs_eq, accumulate_LLs_cells, accumulate_LLs_sample_max, total_LL_spec_nonpos, log_08_neg, certain_phase_state_total_LL_spec, read_phase_posteriors_symmetric⟩

/-- C26, the code at a failing input: on the single-read state the accumulation loops of
lines 140 to 156 leave the un-normalised `P[0][0][0] = log 0.8` in the tensor, which is
the maximum over the one ordered pair, and the shift `sample_max_LLs[0] = DBL_MIN`,
because line 140 starts the running maximum at the positive number `DBL_MIN`; the shift
exceeds the maximum and the one summand `exp(log 0.8 - DBL_MIN)` is below 1. -/
theorem C26_normalisation_shift_evaluation :
    single_read_state.WellFormed ∧
      single_read_state.accumulate_LLs default_model
        = some ([Real.log 0.8], [DBL_MIN], 1) ∧
      Real.log 0.8 < DBL_MIN ∧
      Real.exp (Real.log 0.8 - DBL_MIN) < 1 := by
  obtain ⟨_, _, _, _, _, _, _, _, single_read_state_wellFormed, _⟩ := read_phase_facts
  obtain ⟨_, _, _, _, single_read_state_accumulate, _, _, _⟩ := prior_and_posterior_facts
  obtain ⟨_, _, _, DBL_MIN_pos, _, _⟩ := training_facts
  obtain ⟨_, _, _, _, log_08_neg, _, _⟩ := accumulation_facts
  have hlt : Real.log 0.8 < DBL_MIN := lt_trans log_08_neg DBL_MIN_pos
  refine ⟨single_read_state_wellFormed, ?_, hlt, ?_⟩
  · rw [single_read_state_accumulate, max_eq_left hlt.le]
  · rw [Real.exp_lt_one_iff]
    linarith

/-- C29, the code at a failing input: on the single-read state, where
`exp(logp1) + exp(logp2) = 1`, the prior is normalised and the default model is valid,
`recalc_log_sample_posteriors` has no result (it indexes the vector `sample_total_LLs`
declared empty on line 159), so no total log-likelihood is returned; the total of
section 4.3 is `log 0.8 <= 0` there.  On the same state with `logp1 = logp2 = 0` the
call has no result either; the total of section 4.3 is `log 1.6 > 0` there. -/
theorem C29_total_LL_sign_evaluation :
    single_read_state.WellFormed ∧
      Real.exp (Real.log 0.5) + Real.exp (Real.log 0.5) ≤ 1 ∧
      single_read_state.log_p1_ = [Real.log 0.5] ∧
      single_read_state.log_p2_ = [Real.log 0.5] ∧
      single_read_state.log_gt_priors_ = [0] ∧ Real.exp 0 = 1 ∧
      default_model.Valid ∧
      single_read_state.recalc_log_sample_posteriors = none ∧
      single_read_state.total_LL_spec default_model = Real.log 0.8 ∧
      Real.log 0.8 ≤ 0 ∧
      certain_phase_state.log_p1_ = [0] ∧ certain_phase_state.log_p2_ = [0] ∧
      certain_phase_state.recalc_log_sample_posteriors = none ∧
      certain_phase_state.total_LL_spec default_model = Real.log 1.6 ∧
      0 < Real.log 1.6 := by
  obtain ⟨_, _, _, _, _, _, _, default_model_valid, _, _, _⟩ := log_pmf_facts
  obtain ⟨_, _, _, _, _, _, _, _, single_read_state_wellFormed, _⟩ := read_phase_facts
  obtain ⟨_, _, _, _, _, _, single_read_state_recalc_none, single_read_state_total_LL_spec⟩ :=
    prior_and_posterior_facts
  obtain ⟨recalc_log_sample_posteriors_none, _, _, _, _, _⟩ := training_facts
  obtain ⟨_, _, _, _, log_08_neg, certain_phase_state_total_LL_spec, _⟩ := accumulation_facts
  refine ⟨single_read_state_wellFormed, ?_, rfl, rfl, rfl, Real.exp_zero, default_model_valid,
    single_read_state_recalc_none, single_read_state_total_LL_spec, log_08_neg.le, rfl, rfl,
    recalc_log_sample_posteriors_none certain_phase_state (by decide) (by decide),
    certain_phase_state_total_LL_spec, Real.log_pos (by norm_num)⟩
  rw [Real.exp_log (by norm_num)]
  norm_num

/-- C28, the code at a failing input: on the state with two alleles and one read with
`logp1 = logp2`, `recalc_log_sample_posteriors` has no result, so there is no normalised
tensor (the vector `sample_total_LLs` of line 159 is empty when it is indexed); the
accumulation loops of lines 140 to 156 leave un-normalised cells with
`P[0][1][0] = P[1][0][0]`, and `recalc_log_read_phase_posteriors` writes a tensor with
`Q[a][b][r][0] = Q[b][a][r][1]` and `Q[a][a][r][0] = Q[a][a][r][1] = log (1/2)`. -/
theorem C28_phase_symmetry_evaluation :
    equal_phase_state.WellFormed ∧
      equal_phase_state.log_p1_ = equal_phase_state.log_p2_ ∧
      equal_phase_state.recalc_log_sample_posteriors = none ∧
      (∃ buf maxs v, equal_phase_state.accumulate_LLs default_model = some (buf, maxs, 4) ∧
        buf[1]? = some v ∧ buf[2]? = some v) ∧
      (∃ g', equal_phase_state.recalc_log_read_phase_posteriors = some g' ∧
        ∀ a b r, a < 2 → b < 2 → r < 1 →
          g'.log_read_phase_posteriors_[2 * 1 * (a * 2 + b) + 2 * r]?
              = g'.log_read_phase_posteriors_[2 * 1 * (b * 2 + a) + 2 * r + 1]? ∧
            g'.log_read_phase_posteriors_[2 * 1 * (a * 2 + a) + 2 * r]?
              = some (Real.log (1 / 2)) ∧
            g'.log_read_phase_posteriors_[2 * 1 * (a * 2 + a) + 2 * r + 1]?
              = some (Real.log (1 / 2))) := by
  obtain ⟨_, _, _, _, _, _, _, default_model_valid, _, _, _⟩ := log_pmf_facts
  obtain ⟨_, _, _, _, _, _, _, _, _, equal_phase_state_wellFormed⟩ := read_phase_facts
  obtain ⟨recalc_log_sample_posteriors_none, _, _, _, _, _⟩ := training_facts
  obtain ⟨_, accumulate_LLs_cells, _, _, _, _, read_phase_posteriors_symmetric⟩ :=
    accumulation_facts
  have hM : 1 ≤ default_model.motif_len_ := by dsimp only [default_model]; norm_num
  refine ⟨equal_phase_state_wellFormed, rfl,
    recalc_log_sample_posteriors_none equal_phase_state (by decide) (by decide), ?_,
    read_phase_posteriors_symmetric equal_phase_state default_model
      equal_phase_state_wellFormed rfl default_model_valid hM rfl⟩
  obtain ⟨buf, maxs, hacc, hcell, hsym, _⟩ :=
    accumulate_LLs_cells equal_phase_state default_model equal_phase_state_wellFormed
      default_model_valid hM
  exact ⟨buf, maxs, _, hacc, hcell 0 1 0 (by decide) (by decide) (by decide),
    (hsym rfl 0 1 0 (by decide) (by decide) (by decide)).symm.trans
      (hcell 0 1 0 (by decide) (by decide) (by decide))⟩

end HipSTR
